import Mathlib

/-!
# sip-connector: the MNCC adapter, the SIP leg and the call registry

A shallow embedding of `src/mncc.c`, `src/sip.c` and `src/app.c`.

* The process state (the MNCC connection, the global call list, the two
  environment oracles for `write(2)` and for allocation) is the record `World`;
  every C function that mutates it is a function `World → Except Fault World`.
* A `struct call_leg *` is a `LegRef`: the id of the owning call and the slot
  (`initial` / `remote`) the leg sits in.  Dereferencing a reference whose leg
  has been freed is the fault `use_after_free`.
* What the program does to the outside (frames written on the MNCC socket,
  requests handed to the SIP stack) and the capability invocations are
  appended to `World.trace`.
* The header `mncc_protocol.h` is not among the sources: its message-type
  constants, field bits and struct sizes are the parameter `Build`.
* The file call.c is not among the sources either: `call_leg_release`,
  `call_leg_other`, `call_mncc_create` and `app_route_call` are modelled from
  the specification and marked so.
* The SIP stack (libsofia-sip-ua) and the C library are outside the sources:
  a request handed to the stack is an event of the trace, the parsed SDP of a
  response is given with the message (`SipT`), and `inet_aton` is a parameter
  of `Build`.
* Whether a `write(2)` or an allocation succeeds is decided by the
  environment: `World.write_results` and `World.alloc_results`.  A theorem
  that says a frame is sent assumes `World.WriteOk`, the write succeeds; a
  failed write is the other path, through `close_connection`.
-/

namespace SipConnector

/-- A C string: the characters before the terminating NUL. -/
abbrev CStr := List Char

/-! ## What the build fixes -/

/-- The compile-time parameters of the program: the constants and struct sizes
of `mncc_protocol.h`, the byte order of the host and the codec-name table. -/
structure Build where
  MNCC_SETUP_REQ : Nat
  MNCC_SETUP_IND : Nat
  MNCC_SETUP_RSP : Nat
  MNCC_SETUP_CNF : Nat
  MNCC_SETUP_COMPL_REQ : Nat
  MNCC_SETUP_COMPL_IND : Nat
  MNCC_CALL_CONF_IND : Nat
  MNCC_CALL_PROC_REQ : Nat
  MNCC_ALERT_REQ : Nat
  MNCC_ALERT_IND : Nat
  MNCC_DISC_REQ : Nat
  MNCC_DISC_IND : Nat
  MNCC_REL_REQ : Nat
  MNCC_REL_IND : Nat
  MNCC_REL_CNF : Nat
  MNCC_START_DTMF_IND : Nat
  MNCC_START_DTMF_RSP : Nat
  MNCC_STOP_DTMF_IND : Nat
  MNCC_STOP_DTMF_RSP : Nat
  MNCC_HOLD_IND : Nat
  MNCC_HOLD_REJ : Nat
  MNCC_REJ_REQ : Nat
  MNCC_REJ_IND : Nat
  MNCC_RTP_CREATE : Nat
  MNCC_RTP_CONNECT : Nat
  MNCC_SOCKET_HELLO : Nat
  MNCC_F_CALLED : Nat
  MNCC_F_CALLING : Nat
  MNCC_F_PROGRESS : Nat
  MNCC_F_KEYPAD : Nat
  MNCC_SOCK_VERSION : Nat
  /-- The value of `sizeof(struct gsm_mncc)`. -/
  sizeof_gsm_mncc : Nat
  /-- The value of `sizeof(struct gsm_mncc_rtp)`. -/
  sizeof_gsm_mncc_rtp : Nat
  /-- The value of `sizeof(struct gsm_mncc_hello)`. -/
  sizeof_gsm_mncc_hello : Nat
  /-- The value of `sizeof(mncc.calling.number)`, the size of the character
  array of a `struct gsm_mncc_number`. -/
  sizeof_number : Nat
  /-- Byte order of the host (decides `htonl` / `ntohl`). -/
  big_endian : Bool
  /-- The function `inet_aton` of the C library on this host: the `s_addr` it
  stores for a string it accepts, `none` for a string it rejects. -/
  inet_aton : CStr → Option Nat
  /-- The helper `app_media_name`, from payload message type to codec name. -/
  app_media_name : Nat → CStr

/-- The case labels of the `switch` in `mncc_data`, in source order. -/
def Build.dispatched (P : Build) : List Nat :=
  [P.MNCC_SOCKET_HELLO, P.MNCC_SETUP_IND, P.MNCC_RTP_CREATE, P.MNCC_RTP_CONNECT,
   P.MNCC_DISC_IND, P.MNCC_REL_IND, P.MNCC_REJ_IND, P.MNCC_REL_CNF,
   P.MNCC_SETUP_COMPL_IND, P.MNCC_SETUP_CNF, P.MNCC_CALL_CONF_IND, P.MNCC_ALERT_IND,
   P.MNCC_HOLD_IND, P.MNCC_START_DTMF_IND, P.MNCC_STOP_DTMF_IND]

/-- The case labels of a C `switch` are pairwise different. -/
def Build.LabelsDistinct (P : Build) : Prop := P.dispatched.Nodup

instance (P : Build) : Decidable P.LabelsDistinct := by
  unfold Build.LabelsDistinct
  infer_instance

/-- The message types the program arms a response timer for:
`start_cmd_timer` is only ever called with one of these four constants. -/
def Build.awaited (P : Build) : List Nat :=
  [P.MNCC_SETUP_COMPL_IND, P.MNCC_REL_CNF, P.MNCC_REL_IND, P.MNCC_RTP_CREATE]

/-- The awaited message types are non-zero, so that a zero `rsp_wanted` means
"nothing awaited". -/
def Build.AwaitedNonzero (P : Build) : Prop := ∀ t ∈ P.awaited, t ≠ 0

instance (P : Build) : Decidable P.AwaitedNonzero := by
  unfold Build.AwaitedNonzero
  infer_instance

/-- The numbering plan ISDN of GSM 03.40 (libosmocore), the value 1. -/
def GSM340_PLAN_ISDN : Nat := 1

/-- The type-of-number "international" of GSM 03.40 (libosmocore), the value 1. -/
def GSM340_TYPE_INTERNATIONAL : Nat := 1

/-- The codec names of the sample build. -/
def sample_media_name (ptmsg : Nat) : CStr :=
  if ptmsg = 0x0300 then "GSM".toList
  else if ptmsg = 0x0301 then "GSM-EFR".toList
  else if ptmsg = 0x0303 then "AMR".toList
  else "unknown".toList

/-- The pieces of a string between its dots. -/
def split_dots : CStr → List CStr
  | [] => [[]]
  | c :: cs =>
    if c = '.' then [] :: split_dots cs
    else
      match split_dots cs with
      | [] => [[c]]
      | p :: ps => (c :: p) :: ps

/-- The value of a non-empty string of decimal digits. -/
def dec_value (s : CStr) : Option Nat :=
  if s.isEmpty || !s.all Char.isDigit then none
  else some (s.foldl (fun n c => 10 * n + (c.toNat - '0'.toNat)) 0)

/-- Conversion of a dotted quad `a.b.c.d` on a little-endian host: the bytes
a, b, c, d in memory order read as a 32-bit integer. -/
def sample_inet_aton (s : CStr) : Option Nat :=
  match (split_dots s).map dec_value with
  | [some a, some b, some c, some d] =>
    if a < 256 ∧ b < 256 ∧ c < 256 ∧ d < 256 then some (a + b * 256 + c * 65536 + d * 16777216)
    else none
  | _ => none

/-- A concrete build with the numbering of the MNCC protocol, version 5, on a
little-endian host; used to evaluate the program on concrete inputs. -/
def sampleBuild : Build where
  MNCC_SETUP_REQ := 0x0101
  MNCC_SETUP_IND := 0x0102
  MNCC_SETUP_RSP := 0x0103
  MNCC_SETUP_CNF := 0x0104
  MNCC_SETUP_COMPL_REQ := 0x0105
  MNCC_SETUP_COMPL_IND := 0x0106
  MNCC_CALL_CONF_IND := 0x0107
  MNCC_CALL_PROC_REQ := 0x0108
  MNCC_ALERT_REQ := 0x010a
  MNCC_ALERT_IND := 0x010b
  MNCC_DISC_REQ := 0x010e
  MNCC_DISC_IND := 0x010f
  MNCC_REL_REQ := 0x0110
  MNCC_REL_IND := 0x0111
  MNCC_REL_CNF := 0x0112
  MNCC_START_DTMF_IND := 0x0115
  MNCC_START_DTMF_RSP := 0x0116
  MNCC_STOP_DTMF_IND := 0x0118
  MNCC_STOP_DTMF_RSP := 0x0119
  MNCC_HOLD_IND := 0x011f
  MNCC_HOLD_REJ := 0x0121
  MNCC_REJ_REQ := 0x0127
  MNCC_REJ_IND := 0x0128
  MNCC_RTP_CREATE := 0x0204
  MNCC_RTP_CONNECT := 0x0205
  MNCC_SOCKET_HELLO := 0x0400
  MNCC_F_CALLED := 0x0002
  MNCC_F_CALLING := 0x0004
  MNCC_F_PROGRESS := 0x0080
  MNCC_F_KEYPAD := 0x1000
  MNCC_SOCK_VERSION := 5
  sizeof_gsm_mncc := 1028
  sizeof_gsm_mncc_rtp := 24
  sizeof_gsm_mncc_hello := 32
  sizeof_number := 33
  big_endian := false
  inet_aton := sample_inet_aton
  app_media_name := sample_media_name

/-! ## Frames -/

/-- The fields of `struct gsm_mncc_number` the program reads. -/
structure GsmMnccNumber where
  type : Nat := 0
  plan : Nat := 0
  number : CStr := []
deriving DecidableEq, Repr

/-- The progress indicator of `struct gsm_mncc`. -/
structure GsmMnccProgress where
  coding : Nat := 0
  location : Nat := 0
  descr : Nat := 0
deriving DecidableEq, Repr

/-- The general control frame `struct gsm_mncc` (the fields the program uses);
the default value is the zeroed struct `{ 0, }`. -/
structure GsmMncc where
  msg_type : Nat := 0
  callref : Nat := 0
  fields : Nat := 0
  called : GsmMnccNumber := {}
  calling : GsmMnccNumber := {}
  progress : GsmMnccProgress := {}
  keypad : Nat := 0
  imsi : CStr := []
deriving DecidableEq, Repr

/-- The RTP control frame `struct gsm_mncc_rtp`; the default is the zeroed struct. -/
structure GsmMnccRtp where
  msg_type : Nat := 0
  callref : Nat := 0
  ip : Nat := 0
  port : Nat := 0
  payload_type : Nat := 0
  payload_msg_type : Nat := 0
deriving DecidableEq, Repr

/-- The hello frame `struct gsm_mncc_hello`. -/
structure GsmMnccHello where
  msg_type : Nat := 0
  version : Nat := 0
deriving DecidableEq, Repr

/-- The result of `read(fd, buf, sizeof(buf))` in `mncc_data`: the return value
`rc`, the first four bytes of the buffer as `msg_type`, and the buffer seen
through each of the three struct types the handlers cast it to. -/
structure ReadBuf where
  rc : Int
  msg_type : Nat
  hello : GsmMnccHello := {}
  mncc : GsmMncc := {}
  rtp : GsmMnccRtp := {}
deriving DecidableEq, Repr

/-! ## Calls and legs -/

/-- The functions of the sources that are stored in the capability pointers
`connect_call`, `ring_call` and `release_call` of a leg. -/
inductive LegFn
  | mncc_call_leg_connect
  | mncc_call_leg_ring
  | mncc_call_leg_release
  | sip_release_call
deriving DecidableEq, Repr

/-- The common part of a leg, `struct call_leg`, without the `type` tag (the
constructor of `Leg`) and the `call` back pointer (the `call` of the `LegRef`).
The default is the zeroed struct.  No source file assigns `dtmf`; the field
only records whether the pointer is set. -/
structure CallLeg where
  in_release : Bool := false
  ip : Nat := 0
  port : Nat := 0
  payload_type : Nat := 0
  payload_msg_type : Nat := 0
  connect_call : Option LegFn := none
  ring_call : Option LegFn := none
  release_call : Option LegFn := none
  dtmf : Bool := false
deriving DecidableEq, Repr

inductive MnccCcState
  | MNCC_CC_INITIAL
  | MNCC_CC_PROCEEDING
  | MNCC_CC_CONNECTED
deriving DecidableEq, Repr

inductive MnccDir
  | MNCC_DIR_MO
  | MNCC_DIR_MT
deriving DecidableEq, Repr

/-- The leg `struct mncc_call_leg`.  `cmd_timeout` is the response timer:
`some s` when it is scheduled (in `s` seconds), `none` when it is not.  The
`conn` pointer is left out: there is one MNCC connection, `World.conn`. -/
structure MnccCallLeg where
  base : CallLeg := {}
  state : MnccCcState := .MNCC_CC_INITIAL
  dir : MnccDir := .MNCC_DIR_MO
  callref : Nat := 0
  called : GsmMnccNumber := {}
  calling : GsmMnccNumber := {}
  imsi : CStr := []
  cmd_timeout : Option Nat := none
  rsp_wanted : Nat := 0
deriving DecidableEq, Repr

inductive SipCcState
  | SIP_CC_INITIAL
  | SIP_CC_DLG_CNFD
  | SIP_CC_CONNECTED
deriving DecidableEq, Repr

/-- The leg `struct sip_call_leg`; `nua_handle` names the handle of the SIP stack. -/
structure SipCallLeg where
  base : CallLeg := {}
  nua_handle : Nat := 0
  state : SipCcState := .SIP_CC_INITIAL
  wanted_codec : CStr := []
deriving DecidableEq, Repr

/-- A leg with its `type` tag: `CALL_TYPE_MNCC` or `CALL_TYPE_SIP`. -/
inductive Leg
  | mncc (l : MnccCallLeg)
  | sip (l : SipCallLeg)
deriving DecidableEq, Repr

/-- The `struct call_leg` at the start of either leg struct. -/
def Leg.base : Leg → CallLeg
  | .mncc l => l.base
  | .sip l => l.base

/-- Assign through a `struct call_leg *`. -/
def Leg.setBase : Leg → CallLeg → Leg
  | .mncc l, b => .mncc { l with base := b }
  | .sip l, b => .sip { l with base := b }

/-- The test `leg->type == CALL_TYPE_MNCC`. -/
def Leg.isMncc : Leg → Bool
  | .mncc _ => true
  | .sip _ => false

/-- The two leg pointers of a call. -/
inductive Slot
  | initial
  | remote
deriving DecidableEq, Repr

def Slot.other : Slot → Slot
  | .initial => .remote
  | .remote => .initial

/-- The record `struct call`. -/
structure Call where
  id : Nat
  initial : Option Leg := none
  remote : Option Leg := none
  source : CStr := []
  dest : CStr := []
deriving DecidableEq, Repr

def Call.slot (c : Call) : Slot → Option Leg
  | .initial => c.initial
  | .remote => c.remote

def Call.setSlot (c : Call) (s : Slot) (l : Option Leg) : Call :=
  match s with
  | .initial => { c with initial := l }
  | .remote => { c with remote := l }

/-- A `struct call_leg *`: the owning call and the slot of the leg. -/
structure LegRef where
  call : Nat
  slot : Slot
deriving DecidableEq, Repr

/-! ## The process state -/

inductive ConnState
  | MNCC_DISCONNECTED
  | MNCC_WAIT_VERSION
  | MNCC_READY
deriving DecidableEq, Repr

/-- The one function the sources store in `on_disconnect` (`app_setup`). -/
inductive DisconnectFn
  | app_mncc_disconnected
deriving DecidableEq, Repr

/-- The record `struct mncc_connection`.  `fd_open` is false once the
descriptor has been unregistered and closed; `reconnect` is the reconnect
timer, `some s` when scheduled in `s` seconds. -/
structure MnccConnection where
  state : ConnState := .MNCC_DISCONNECTED
  fd_open : Bool := false
  reconnect : Option Nat := none
  on_disconnect : Option DisconnectFn := none
deriving DecidableEq, Repr

/-- The fields of `struct app_config` the adapters read. -/
structure AppConfig where
  use_imsi_as_id : Bool := false
  sip_local_addr : CStr := []
  sip_local_port : Int := 0
  sip_remote_addr : CStr := []
deriving DecidableEq, Repr

/-- What the program does to the outside, and the capability invocations. -/
inductive Event
  /-- A `struct gsm_mncc` was written on the MNCC socket. -/
  | write_mncc (m : GsmMncc)
  /-- A `struct gsm_mncc_rtp` was written on the MNCC socket. -/
  | write_rtp (m : GsmMnccRtp)
  /-- The call site `leg->connect_call(leg)`. -/
  | connect_call (leg : LegRef)
  /-- The call site `leg->ring_call(leg)`. -/
  | ring_call (leg : LegRef)
  /-- The call site `leg->release_call(leg)`. -/
  | release_call (leg : LegRef)
  /-- The call site `leg->dtmf(leg, keypad)`. -/
  | dtmf (leg : LegRef) (keypad : Nat)
  /-- The callback `conn->on_disconnect(conn)`. -/
  | on_disconnect
  /-- The call `app_route_call(call, source, dest)`. -/
  | app_route_call (call : Nat) (source dest : CStr)
  | nua_invite (handle : Nat) (sip_from sip_to sdp : CStr)
  | nua_cancel (handle : Nat)
  | nua_bye (handle : Nat)
  | nua_ack (handle : Nat)
  | nua_handle_destroy (handle : Nat)
deriving DecidableEq, Repr

/-- The ways a run leaves defined behaviour. -/
inductive Fault
  /-- An `OSMO_ASSERT` failed. -/
  | assert_failed
  /-- A NULL function pointer was called, or a NULL pointer dereferenced. -/
  | null_pointer
  /-- A leg or call was used after it had been freed. -/
  | use_after_free
deriving DecidableEq, Repr

/-- The state of the process.
* `calls` is `g_call_list`, head first;
* `last_call_id` is the id counter of the registry;
* `write_results` are the outcomes of the coming `write(2)` calls on the MNCC
  socket, `true` for a complete write; once the list is used up writes succeed;
* `alloc_results` are the outcomes of the coming allocations (`talloc_zero`,
  `nua_handle`, `call_mncc_create`), with the same convention. -/
structure World where
  conn : MnccConnection := {}
  app : AppConfig := {}
  calls : List Call := []
  last_call_id : Nat := 0
  next_handle : Nat := 1
  trace : List Event := []
  write_results : List Bool := []
  alloc_results : List Bool := []
deriving DecidableEq, Repr

/-- Append an event to the trace. -/
def World.log (w : World) (e : Event) : World :=
  { w with trace := w.trace ++ [e] }

/-- Take the next outcome from an oracle. -/
def pop_result : List Bool → Bool × List Bool
  | [] => (true, [])
  | b :: bs => (b, bs)

/-- The frames written on the MNCC socket, oldest first, as (type, callref). -/
def sent_frames : List Event → List (Nat × Nat)
  | [] => []
  | .write_mncc m :: es => (m.msg_type, m.callref) :: sent_frames es
  | .write_rtp m :: es => (m.msg_type, m.callref) :: sent_frames es
  | _ :: es => sent_frames es

/-- The legs whose `release_call` was invoked, oldest first. -/
def released_legs : List Event → List LegRef
  | [] => []
  | .release_call r :: es => r :: released_legs es
  | _ :: es => released_legs es

/-- The `app_route_call` invocations, oldest first. -/
def routed_calls : List Event → List (Nat × CStr × CStr)
  | [] => []
  | .app_route_call c s d :: es => (c, s, d) :: routed_calls es
  | _ :: es => routed_calls es

/-! ## The call registry -/

/-- The call a `struct call *` points to. -/
def find_call (cs : List Call) (id : Nat) : Option Call :=
  cs.find? (fun c => c.id == id)

/-- Rewrite the call a `struct call *` points to; `none` unlinks it. -/
def update_call (id : Nat) (f : Call → Option Call) : List Call → List Call
  | [] => []
  | c :: cs =>
    if c.id == id then
      match f c with
      | some c' => c' :: cs
      | none => cs
    else c :: update_call id f cs

/-- The leg a `struct call_leg *` points to, `none` once it is freed. -/
def World.leg (w : World) (r : LegRef) : Option Leg :=
  (find_call w.calls r.call).bind (fun c => c.slot r.slot)

/-- Dereference a leg pointer. -/
def World.deref (w : World) (r : LegRef) : Except Fault Leg :=
  match w.leg r with
  | some l => .ok l
  | none => .error .use_after_free

/-- Dereference a `struct mncc_call_leg *`. -/
def World.mncc_leg (w : World) (r : LegRef) : Except Fault MnccCallLeg :=
  match w.leg r with
  | some (.mncc l) => .ok l
  | some (.sip _) => .error .assert_failed
  | none => .error .use_after_free

/-- Store into the leg a pointer points to. -/
def World.set_leg (w : World) (r : LegRef) (l : Leg) : World :=
  { w with calls := update_call r.call (fun c => some (c.setSlot r.slot (some l))) w.calls }

/-- Assign fields of a `struct mncc_call_leg` through its pointer. -/
def upd_mncc (r : LegRef) (f : MnccCallLeg → MnccCallLeg) (w : World) : Except Fault World :=
  match w.mncc_leg r with
  | .ok l => .ok (w.set_leg r (.mncc (f l)))
  | .error e => .error e

/-- Modelled from the spec: `call_leg_release` of call.c (not among the
sources), on one call: the leg leaves its slot, and a call is destroyed only
after both legs have released (`none`). -/
def Call.release (c : Call) (s : Slot) : Option Call :=
  let c' := c.setSlot s none
  if c'.initial.isNone && c'.remote.isNone then none else some c'

/-- Modelled from the spec: `call_leg_release(leg)` of call.c (not among the
sources): the leg is destroyed, and its call with it once both legs are gone. -/
def call_leg_release (r : LegRef) (w : World) : Except Fault World :=
  match w.leg r with
  | none => .error .use_after_free
  | some _ => .ok { w with calls := update_call r.call (fun c => c.release r.slot) w.calls }

/-- Modelled from the spec: `call_leg_other(leg)` of call.c (not among the
sources): the other leg is obtained by asking the call, and is NULL when the
call has no such leg. -/
def call_leg_other (r : LegRef) (w : World) : Except Fault (Option LegRef) :=
  match w.leg r with
  | none => .error .use_after_free
  | some _ =>
    let o : LegRef := { call := r.call, slot := r.slot.other }
    .ok (if (w.leg o).isSome then some o else none)

/-- Modelled from the spec: `call_mncc_create()` of call.c (not among the
sources): a new call with a fresh id and a zeroed MNCC leg as its `initial`
is linked into the registry; NULL when the allocation fails. -/
def call_mncc_create (w : World) : Option Nat × World :=
  let (ok, rest) := pop_result w.alloc_results
  let w1 := { w with alloc_results := rest }
  if ok then
    let id := w.last_call_id + 1
    let c : Call := { id := id, initial := some (.mncc {}) }
    (some id, { w1 with last_call_id := id, calls := c :: w1.calls })
  else (none, w1)

/-! ## app.c -/

/-- The flag `has_mncc` computed in the loop of `app_mncc_disconnected`. -/
def has_mncc (c : Call) : Bool :=
  (match c.initial with
   | some l => l.isMncc
   | none => false) ||
  (match c.remote with
   | some l => l.isMncc
   | none => false)

/-- One iteration of the loop of `app_mncc_disconnected`: a call without MNCC
leg is skipped; otherwise `call_leg_release(call, call->initial)` and then
`call_leg_release(call, call->remote)`.  The result is what is left of the
list node. -/
def app_mncc_disconnected_step (c : Call) : Option Call :=
  if has_mncc c then (c.release .initial).bind (fun c' => c'.release .remote)
  else some c

/-- The function `app_mncc_disconnected`: the loop over `g_call_list`. -/
def app_mncc_disconnected (w : World) : World :=
  { w with calls := w.calls.filterMap app_mncc_disconnected_step }

/-! ## mncc.c: connection and writes -/

/-- The function `close_connection`. -/
def close_connection (w : World) : World :=
  let w1 := { w with conn := { w.conn with fd_open := false, reconnect := some 5,
                                           state := .MNCC_DISCONNECTED } }
  match w1.conn.on_disconnect with
  | some .app_mncc_disconnected => app_mncc_disconnected (w1.log .on_disconnect)
  | none => w1

/-- The function `mncc_write`: a short or failed write closes the connection. -/
def mncc_write (m : GsmMncc) (w : World) : World :=
  let (ok, rest) := pop_result w.write_results
  let w1 := { w with write_results := rest }
  if ok then w1.log (.write_mncc m) else close_connection w1

/-- The function `mncc_send`: a zeroed frame with the header filled in. -/
def mncc_send (msg_type callref : Nat) (w : World) : World :=
  mncc_write { msg_type := msg_type, callref := callref } w

/-- The function `mncc_rtp_send`. -/
def mncc_rtp_send (msg_type callref : Nat) (w : World) : World :=
  let (ok, rest) := pop_result w.write_results
  let w1 := { w with write_results := rest }
  if ok then w1.log (.write_rtp { msg_type := msg_type, callref := callref })
  else close_connection w1

/-! ## mncc.c: the response timer -/

/-- The function `start_cmd_timer`. -/
def start_cmd_timer (leg : MnccCallLeg) (expected_next : Nat) : MnccCallLeg :=
  { leg with rsp_wanted := expected_next, cmd_timeout := some 5 }

/-- The function `stop_cmd_timer`. -/
def stop_cmd_timer (leg : MnccCallLeg) (got_res : Nat) : MnccCallLeg :=
  if leg.rsp_wanted != got_res then leg
  else { leg with cmd_timeout := none }

/-- The function `mncc_leg_release`: `osmo_timer_del`, then `call_leg_release`. -/
def mncc_leg_release (r : LegRef) (w : World) : Except Fault World := do
  let w1 ← upd_mncc r (fun l => { l with cmd_timeout := none }) w
  call_leg_release r w1

/-- The function `mncc_find_leg`: the first MNCC leg with this callref, in
list order, `initial` before `remote` within a call. -/
def mncc_find_leg (callref : Nat) : List Call → Option LegRef
  | [] => none
  | c :: cs =>
    match c.initial with
    | some (.mncc l) =>
      if l.callref == callref then some { call := c.id, slot := .initial }
      else match c.remote with
        | some (.mncc l2) =>
          if l2.callref == callref then some { call := c.id, slot := .remote }
          else mncc_find_leg callref cs
        | _ => mncc_find_leg callref cs
    | _ =>
      match c.remote with
      | some (.mncc l2) =>
        if l2.callref == callref then some { call := c.id, slot := .remote }
        else mncc_find_leg callref cs
      | _ => mncc_find_leg callref cs

/-! ## Byte order -/

/-- Reverse the four bytes of a 32-bit value. -/
def bswap32 (x : Nat) : Nat :=
  (x % 256) * 16777216 + (x / 256 % 256) * 65536 + (x / 65536 % 256) * 256 + (x / 16777216 % 256)

/-- The function `htonl`; `ntohl` is the same function. -/
def htonl (P : Build) (x : Nat) : Nat :=
  if P.big_endian then x % 4294967296 else bswap32 x

/-! ## mncc.c: the leg capabilities -/

/-- The function `send_rtp_connect`; the result is its return value. -/
def send_rtp_connect (P : Build) (leg other : LegRef) (w : World) :
    Except Fault (Bool × World) := do
  let l ← w.mncc_leg leg
  let o ← w.deref other
  let m : GsmMnccRtp :=
    { msg_type := P.MNCC_RTP_CONNECT, callref := l.callref, ip := htonl P o.base.ip,
      port := o.base.port, payload_type := o.base.payload_type }
  let (ok, rest) := pop_result w.write_results
  let w1 := { w with write_results := rest }
  if ok then pure (true, w1.log (.write_rtp m))
  else pure (false, close_connection w1)

/-- The function `mncc_call_leg_connect`. -/
def mncc_call_leg_connect (P : Build) (r : LegRef) (w : World) : Except Fault World := do
  let _ ← w.mncc_leg r
  match ← call_leg_other r w with
  | none => throw .assert_failed
  | some other =>
    let (ok, w1) ← send_rtp_connect P r other w
    if !ok then pure w1
    else
      let w2 ← upd_mncc r (fun l => start_cmd_timer l P.MNCC_SETUP_COMPL_IND) w1
      let l ← w2.mncc_leg r
      pure (mncc_send P.MNCC_SETUP_RSP l.callref w2)

/-- The function `mncc_call_leg_ring`. -/
def mncc_call_leg_ring (P : Build) (r : LegRef) (w : World) : Except Fault World := do
  let l ← w.mncc_leg r
  let out : GsmMncc :=
    { msg_type := P.MNCC_ALERT_REQ, callref := l.callref, fields := 0 ||| P.MNCC_F_PROGRESS,
      progress := { coding := 3, location := 1, descr := 8 } }
  let w1 := mncc_write out w
  match ← call_leg_other r w1 with
  | none => pure w1
  | some other =>
    let o ← w1.deref other
    if o.base.port != 0 && o.base.ip != 0 then
      let (_, w2) ← send_rtp_connect P r other w1
      pure w2
    else pure w1

/-- The function `mncc_call_leg_release`. -/
def mncc_call_leg_release (P : Build) (r : LegRef) (w : World) : Except Fault World := do
  let leg ← w.mncc_leg r
  if w.conn.state != .MNCC_READY then mncc_leg_release r w
  else
    match leg.state with
    | .MNCC_CC_INITIAL =>
      if leg.dir == .MNCC_DIR_MO then
        let w1 := mncc_send P.MNCC_REJ_REQ leg.callref w
        let w2 ← upd_mncc r (fun l => { l with cmd_timeout := none }) w1
        mncc_leg_release r w2
      else
        let w1 ← upd_mncc r (fun l => { l with base := { l.base with in_release := true } }) w
        let w2 ← upd_mncc r (fun l => start_cmd_timer l P.MNCC_REL_CNF) w1
        let l ← w2.mncc_leg r
        pure (mncc_send P.MNCC_REL_REQ l.callref w2)
    | .MNCC_CC_PROCEEDING | .MNCC_CC_CONNECTED =>
      let w1 ← upd_mncc r (fun l => { l with base := { l.base with in_release := true } }) w
      let w2 ← upd_mncc r (fun l => start_cmd_timer l P.MNCC_REL_IND) w1
      let l ← w2.mncc_leg r
      pure (mncc_send P.MNCC_DISC_REQ l.callref w2)

/-! ## sip.c: release and the outbound leg -/

/-- The function `sip_release_call`. -/
def sip_release_call (r : LegRef) (w : World) : Except Fault World :=
  match w.leg r with
  | none => .error .use_after_free
  | some (.mncc _) => .error .assert_failed
  | some (.sip leg) =>
    match leg.state with
    | .SIP_CC_INITIAL => call_leg_release r (w.log (.nua_handle_destroy leg.nua_handle))
    | .SIP_CC_DLG_CNFD => .ok (w.log (.nua_cancel leg.nua_handle))
    | .SIP_CC_CONNECTED => .ok (w.log (.nua_bye leg.nua_handle))

/-- The conversion `%d` of printf applied to a 32-bit value. -/
def fmt_d (v : Nat) : CStr :=
  let x := v % 4294967296
  if x < 2147483648 then Nat.toDigits 10 x else '-' :: Nat.toDigits 10 (4294967296 - x)

/-- The function `inet_ntoa`: the four bytes of `s_addr` in memory order. -/
def inet_ntoa (P : Build) (s_addr : Nat) : CStr :=
  let n := if P.big_endian then s_addr % 4294967296 else bswap32 s_addr
  Nat.toDigits 10 (n / 16777216 % 256) ++ '.' :: Nat.toDigits 10 (n / 65536 % 256)
    ++ '.' :: Nat.toDigits 10 (n / 256 % 256) ++ '.' :: Nat.toDigits 10 (n % 256)

/-- The SDP offer formatted in `send_invite`. -/
def sdp_offer (addr : CStr) (port payload_type : Nat) (codec : CStr) : CStr :=
  "v=0\r\n".toList
  ++ "o=Osmocom 0 0 IN IP4 ".toList ++ addr ++ "\r\n".toList
  ++ "s=GSM Call\r\n".toList
  ++ "c=IN IP4 ".toList ++ addr ++ "\r\n".toList
  ++ "t=0 0\r\n".toList
  ++ "m=audio ".toList ++ fmt_d port ++ " RTP/AVP ".toList ++ fmt_d payload_type ++ "\r\n".toList
  ++ "a=rtpmap:".toList ++ fmt_d payload_type ++ " ".toList ++ codec ++ "/8000\r\n".toList

/-- The function `send_invite`, for the new leg `leg` (not yet linked) of the
call `call`. -/
def send_invite (P : Build) (call : Nat) (leg : SipCallLeg) (calling_num called_num : CStr)
    (w : World) : Except Fault (Int × World) :=
  match find_call w.calls call with
  | none => .error .use_after_free
  | some c =>
    match c.initial with
    | none => .error .null_pointer
    | some other =>
      let net := htonl P other.base.ip
      let codec := P.app_media_name other.base.payload_msg_type
      let sip_from := "sip:".toList ++ calling_num ++ '@' :: w.app.sip_local_addr
      let sip_to := "sip:".toList ++ called_num ++ '@' :: w.app.sip_remote_addr
      let sdp := sdp_offer (inet_ntoa P net) other.base.port other.base.payload_type codec
      let leg1 := { leg with wanted_codec := codec, state := .SIP_CC_INITIAL }
      let w1 := w.log (.nua_invite leg1.nua_handle sip_from sip_to sdp)
      let cs := update_call call (fun c => some (c.setSlot .remote (some (.sip leg1)))) w1.calls
      .ok (0, { w1 with calls := cs })

/-- The function `sip_create_remote_leg`; the result is its return value. -/
def sip_create_remote_leg (P : Build) (call : Nat) (source dest : CStr) (w : World) :
    Except Fault (Int × World) :=
  let (ok, rest) := pop_result w.alloc_results
  let w1 := { w with alloc_results := rest }
  if !ok then .ok (-1, w1)
  else
    let leg : SipCallLeg := { base := { release_call := some .sip_release_call } }
    let (ok2, rest2) := pop_result w1.alloc_results
    let w2 := { w1 with alloc_results := rest2 }
    if !ok2 then .ok (-2, w2)
    else
      let leg1 := { leg with nua_handle := w2.next_handle }
      send_invite P call leg1 source dest { w2 with next_handle := w2.next_handle + 1 }

/-- Modelled from the spec: `app_route_call(call, source, dest)` (not among the
sources), the bridging policy: the identifiers are established on the call and
a SIP outbound leg is created with them. -/
def app_route_call (P : Build) (call : Nat) (source dest : CStr) (w : World) :
    Except Fault World := do
  let w1 := w.log (.app_route_call call source dest)
  let cs := update_call call (fun c => some { c with source := source, dest := dest }) w1.calls
  let w2 := { w1 with calls := cs }
  let (_, w3) ← sip_create_remote_leg P call source dest w2
  pure w3

/-! ## Calls through the capability pointers -/

/-- Call a function through a capability pointer. -/
def call_fn (P : Build) : Option LegFn → LegRef → World → Except Fault World
  | none, _, _ => .error .null_pointer
  | some .mncc_call_leg_connect, r, w => mncc_call_leg_connect P r w
  | some .mncc_call_leg_ring, r, w => mncc_call_leg_ring P r w
  | some .mncc_call_leg_release, r, w => mncc_call_leg_release P r w
  | some .sip_release_call, r, w => sip_release_call r w

/-- The call site `leg->release_call(leg)`. -/
def invoke_release_call (P : Build) (r : LegRef) (w : World) : Except Fault World := do
  let l ← w.deref r
  call_fn P l.base.release_call r (w.log (.release_call r))

/-- The call site `leg->ring_call(leg)`. -/
def invoke_ring_call (P : Build) (r : LegRef) (w : World) : Except Fault World := do
  let l ← w.deref r
  call_fn P l.base.ring_call r (w.log (.ring_call r))

/-- The call site `leg->connect_call(leg)`. -/
def invoke_connect_call (P : Build) (r : LegRef) (w : World) : Except Fault World := do
  let l ← w.deref r
  call_fn P l.base.connect_call r (w.log (.connect_call r))

/-- The two lines `other_leg = call_leg_other(..); if (other_leg)
other_leg->release_call(other_leg);`. -/
def release_other (P : Build) (leg : LegRef) (w : World) : Except Fault World := do
  match ← call_leg_other leg w with
  | some other => invoke_release_call P other w
  | none => pure w

/-! ## mncc.c: the response timeout -/

/-- The function `cmd_timeout`, the callback of the response timer of `leg`. -/
def cmd_timeout (P : Build) (leg : LegRef) (w : World) : Except Fault World := do
  let w1 ← release_other P leg w
  mncc_leg_release leg w1

/-- The response timer of `leg` fires: a timer that is not scheduled does not
fire; a scheduled one is taken off the timer list and its callback runs. -/
def fire_cmd_timer (P : Build) (leg : LegRef) (w : World) : Except Fault World := do
  let l ← w.mncc_leg leg
  match l.cmd_timeout with
  | none => pure w
  | some _ =>
    let w1 ← upd_mncc leg (fun l => { l with cmd_timeout := none }) w
    cmd_timeout P leg w1

/-! ## mncc.c: continuing a call after RTP_CREATE -/

/-- The function `continue_mo_call`. -/
def continue_mo_call (P : Build) (leg : LegRef) (w : World) : Except Fault World := do
  let l ← w.mncc_leg leg
  let w1 := mncc_send P.MNCC_CALL_PROC_REQ l.callref w
  let w2 ← upd_mncc leg (fun l => { l with state := .MNCC_CC_PROCEEDING }) w1
  let l2 ← w2.mncc_leg leg
  let dest : CStr :=
    if l2.called.type == GSM340_TYPE_INTERNATIONAL then '+' :: l2.called.number.take 32
    else l2.called.number.take 32
  let source : CStr :=
    if w2.app.use_imsi_as_id then l2.imsi.take 16
    else l2.calling.number.take 32
  app_route_call P leg.call source dest w2

/-- The function `continue_mt_call`. -/
def continue_mt_call (leg : LegRef) (w : World) : Except Fault World := do
  match ← call_leg_other leg w with
  | none => pure w
  | some other =>
    let l ← w.deref leg
    let o ← w.deref other
    pure (w.set_leg other (o.setBase { o.base with payload_type := l.base.payload_type }))

/-- The function `continue_call`. -/
def continue_call (P : Build) (leg : LegRef) (w : World) : Except Fault World := do
  let l ← w.mncc_leg leg
  if l.dir == .MNCC_DIR_MO then continue_mo_call P leg w
  else continue_mt_call leg w

/-! ## mncc.c: the frame handlers

The handlers are static and only called from `mncc_data`, with `rc > 4`; their
`rc` is a natural number here, so the comparison with `sizeof` (in `size_t`)
is the comparison of natural numbers. -/

/-- The function `check_rtp_connect`. -/
def check_rtp_connect (P : Build) (buf : ReadBuf) (rc : Nat) (w : World) :
    Except Fault World :=
  if rc < P.sizeof_gsm_mncc_rtp then pure (close_connection w)
  else
    let rtp := buf.rtp
    match mncc_find_leg rtp.callref w.calls with
    | none => pure (mncc_send P.MNCC_REJ_REQ rtp.callref w)
    | some leg =>
      if rtp.ip != 0 || rtp.port != 0 || rtp.payload_type != 0 then pure w
      else do
        let w1 ← release_other P leg w
        invoke_release_call P leg w1

/-- The function `check_rtp_create`. -/
def check_rtp_create (P : Build) (buf : ReadBuf) (rc : Nat) (w : World) :
    Except Fault World :=
  if rc < P.sizeof_gsm_mncc_rtp then pure (close_connection w)
  else
    let rtp := buf.rtp
    match mncc_find_leg rtp.callref w.calls with
    | none => pure (mncc_send P.MNCC_REJ_REQ rtp.callref w)
    | some leg => do
      let w1 ← upd_mncc leg (fun l => { l with base := { l.base with
        ip := rtp.ip, port := rtp.port, payload_type := rtp.payload_type,
        payload_msg_type := rtp.payload_msg_type } }) w
      let w2 ← upd_mncc leg (fun l => stop_cmd_timer l P.MNCC_RTP_CREATE) w1
      continue_call P leg w2

/-- The function `continue_setup`. -/
def continue_setup (mncc : GsmMncc) : Bool :=
  if mncc.called.plan != GSM340_PLAN_ISDN then false else true

/-- The function `check_setup`. -/
def check_setup (P : Build) (buf : ReadBuf) (rc : Nat) (w : World) : Except Fault World :=
  if rc != P.sizeof_gsm_mncc then pure (close_connection w)
  else
    let data := buf.mncc
    if data.fields &&& P.MNCC_F_CALLED == 0 then pure (mncc_send P.MNCC_REJ_REQ data.callref w)
    else if data.fields &&& P.MNCC_F_CALLING == 0 then
      pure (mncc_send P.MNCC_REJ_REQ data.callref w)
    else if !continue_setup data then pure (mncc_send P.MNCC_REJ_REQ data.callref w)
    else
      match call_mncc_create w with
      | (none, w1) => pure (mncc_send P.MNCC_REJ_REQ data.callref w1)
      | (some call, w1) => do
        let leg : LegRef := { call := call, slot := .initial }
        let w2 ← upd_mncc leg (fun l => { l with
          base := { l.base with connect_call := some .mncc_call_leg_connect,
                                ring_call := some .mncc_call_leg_ring,
                                release_call := some .mncc_call_leg_release },
          callref := data.callref, state := .MNCC_CC_INITIAL, dir := .MNCC_DIR_MO,
          called := data.called, calling := data.calling, imsi := data.imsi }) w1
        let w3 ← upd_mncc leg (fun l => start_cmd_timer l P.MNCC_RTP_CREATE) w2
        pure (mncc_rtp_send P.MNCC_RTP_CREATE data.callref w3)

/-- The function `find_leg`: the leg found (or NULL), and the state after the
length check. -/
def find_leg (P : Build) (buf : ReadBuf) (rc : Nat) (w : World) : Option LegRef × World :=
  if rc != P.sizeof_gsm_mncc then (none, close_connection w)
  else (mncc_find_leg buf.mncc.callref w.calls, w)

/-- The function `check_disc_ind`. -/
def check_disc_ind (P : Build) (buf : ReadBuf) (rc : Nat) (w : World) : Except Fault World :=
  match find_leg P buf rc w with
  | (none, w0) => pure w0
  | (some leg, w0) => do
    let w1 ← upd_mncc leg (fun l => { l with base := { l.base with in_release := true } }) w0
    let w2 ← upd_mncc leg (fun l => start_cmd_timer l P.MNCC_REL_CNF) w1
    let l ← w2.mncc_leg leg
    let w3 := mncc_send P.MNCC_REL_REQ l.callref w2
    release_other P leg w3

/-- The function `check_rel_ind`. -/
def check_rel_ind (P : Build) (buf : ReadBuf) (rc : Nat) (w : World) : Except Fault World :=
  match find_leg P buf rc w with
  | (none, w0) => pure w0
  | (some leg, w0) => do
    let l ← w0.mncc_leg leg
    let w1 ← (if l.base.in_release then
                upd_mncc leg (fun l => stop_cmd_timer l P.MNCC_REL_IND) w0
              else release_other P leg w0)
    mncc_leg_release leg w1

/-- The function `check_rel_cnf`. -/
def check_rel_cnf (P : Build) (buf : ReadBuf) (rc : Nat) (w : World) : Except Fault World :=
  match find_leg P buf rc w with
  | (none, w0) => pure w0
  | (some leg, w0) => do
    let w1 ← upd_mncc leg (fun l => stop_cmd_timer l P.MNCC_REL_CNF) w0
    mncc_leg_release leg w1

/-- The function `check_stp_cmpl_ind`. -/
def check_stp_cmpl_ind (P : Build) (buf : ReadBuf) (rc : Nat) (w : World) :
    Except Fault World :=
  match find_leg P buf rc w with
  | (none, w0) => pure w0
  | (some leg, w0) => do
    let w1 ← upd_mncc leg (fun l => stop_cmd_timer l P.MNCC_SETUP_COMPL_IND) w0
    upd_mncc leg (fun l => { l with state := .MNCC_CC_CONNECTED }) w1

/-- The function `check_rej_ind`. -/
def check_rej_ind (P : Build) (buf : ReadBuf) (rc : Nat) (w : World) : Except Fault World :=
  match find_leg P buf rc w with
  | (none, w0) => pure w0
  | (some leg, w0) => do
    let w1 ← release_other P leg w0
    mncc_leg_release leg w1

/-- The function `check_cnf_ind`. -/
def check_cnf_ind (P : Build) (buf : ReadBuf) (rc : Nat) (w : World) : Except Fault World :=
  match find_leg P buf rc w with
  | (none, w0) => pure w0
  | (some leg, w0) => do
    let w1 ← upd_mncc leg (fun l => start_cmd_timer l P.MNCC_RTP_CREATE) w0
    pure (mncc_rtp_send P.MNCC_RTP_CREATE buf.mncc.callref w1)

/-- The function `check_alrt_ind`. -/
def check_alrt_ind (P : Build) (buf : ReadBuf) (rc : Nat) (w : World) : Except Fault World :=
  match find_leg P buf rc w with
  | (none, w0) => pure w0
  | (some leg, w0) => do
    match ← call_leg_other leg w0 with
    | none => mncc_call_leg_release P leg w0
    | some other => invoke_ring_call P other w0

/-- The function `check_hold_ind`. -/
def check_hold_ind (P : Build) (buf : ReadBuf) (rc : Nat) (w : World) : Except Fault World :=
  match find_leg P buf rc w with
  | (none, w0) => pure w0
  | (some leg, w0) => do
    let l ← w0.mncc_leg leg
    pure (mncc_send P.MNCC_HOLD_REJ l.callref w0)

/-- The function `check_stp_cnf`. -/
def check_stp_cnf (P : Build) (buf : ReadBuf) (rc : Nat) (w : World) : Except Fault World :=
  match find_leg P buf rc w with
  | (none, w0) => pure w0
  | (some leg, w0) => do
    match ← call_leg_other leg w0 with
    | none => mncc_call_leg_release P leg w0
    | some other =>
      let (ok, w1) ← send_rtp_connect P leg other w0
      if !ok then pure w1
      else
        let w2 ← upd_mncc leg (fun l => { l with state := .MNCC_CC_CONNECTED }) w1
        let l ← w2.mncc_leg leg
        let w3 := mncc_send P.MNCC_SETUP_COMPL_REQ l.callref w2
        invoke_connect_call P other w3

/-- The function `check_dtmf_start`. -/
def check_dtmf_start (P : Build) (buf : ReadBuf) (rc : Nat) (w : World) :
    Except Fault World :=
  match find_leg P buf rc w with
  | (none, w0) => pure w0
  | (some leg, w0) => do
    let data := buf.mncc
    let w1 ← (do
      match ← call_leg_other leg w0 with
      | none => pure w0
      | some other =>
        let o ← w0.deref other
        if o.base.dtmf then pure (w0.log (.dtmf other data.keypad)) else pure w0)
    let l ← w1.mncc_leg leg
    let out : GsmMncc :=
      { msg_type := P.MNCC_START_DTMF_RSP, callref := l.callref,
        fields := 0 ||| P.MNCC_F_KEYPAD, keypad := data.keypad }
    pure (mncc_write out w1)

/-- The function `check_dtmf_stop`. -/
def check_dtmf_stop (P : Build) (buf : ReadBuf) (rc : Nat) (w : World) : Except Fault World :=
  match find_leg P buf rc w with
  | (none, w0) => pure w0
  | (some leg, w0) => do
    let data := buf.mncc
    let l ← w0.mncc_leg leg
    let out : GsmMncc :=
      { msg_type := P.MNCC_STOP_DTMF_RSP, callref := l.callref,
        fields := 0 ||| P.MNCC_F_KEYPAD, keypad := data.keypad }
    pure (mncc_write out w0)

/-- The function `check_hello`. -/
def check_hello (P : Build) (buf : ReadBuf) (rc : Nat) (w : World) : World :=
  if rc != P.sizeof_gsm_mncc_hello then close_connection w
  else if buf.hello.version != P.MNCC_SOCK_VERSION then close_connection w
  else { w with conn := { w.conn with state := .MNCC_READY } }

/-- The function `mncc_reconnect`, the callback of the reconnect timer;
`connected` is whether `osmo_sock_unix_init_ofd` succeeded. -/
def mncc_reconnect ( connected : Bool) (w : World) : World :=
  if !connected then
    { w with conn := { w.conn with state := .MNCC_DISCONNECTED, reconnect := some 5 } }
  else
    { w with conn := { w.conn with state := .MNCC_WAIT_VERSION, fd_open := true,
                                   reconnect := none } }

/-- The function `mncc_data`, the read callback of the MNCC socket, applied to
what `read` returned. -/
def mncc_data (P : Build) (buf : ReadBuf) (w : World) : Except Fault World :=
  if buf.rc ≤ 0 then pure (close_connection w)
  else if buf.rc ≤ 4 then pure (close_connection w)
  else
    let rc := buf.rc.toNat
    let msg_type := buf.msg_type
    if msg_type = P.MNCC_SOCKET_HELLO then pure (check_hello P buf rc w)
    else if msg_type = P.MNCC_SETUP_IND then check_setup P buf rc w
    else if msg_type = P.MNCC_RTP_CREATE then check_rtp_create P buf rc w
    else if msg_type = P.MNCC_RTP_CONNECT then check_rtp_connect P buf rc w
    else if msg_type = P.MNCC_DISC_IND then check_disc_ind P buf rc w
    else if msg_type = P.MNCC_REL_IND then check_rel_ind P buf rc w
    else if msg_type = P.MNCC_REJ_IND then check_rej_ind P buf rc w
    else if msg_type = P.MNCC_REL_CNF then check_rel_cnf P buf rc w
    else if msg_type = P.MNCC_SETUP_COMPL_IND then check_stp_cmpl_ind P buf rc w
    else if msg_type = P.MNCC_SETUP_CNF then check_stp_cnf P buf rc w
    else if msg_type = P.MNCC_CALL_CONF_IND then check_cnf_ind P buf rc w
    else if msg_type = P.MNCC_ALERT_IND then check_alrt_ind P buf rc w
    else if msg_type = P.MNCC_HOLD_IND then check_hold_ind P buf rc w
    else if msg_type = P.MNCC_START_DTMF_IND then check_dtmf_start P buf rc w
    else if msg_type = P.MNCC_STOP_DTMF_IND then check_dtmf_stop P buf rc w
    else pure w

/-! ## Conditions on the build, the environment and the registry -/

/-- The message types handled through `check_setup` or `find_leg`, whose frame
is a `struct gsm_mncc`. -/
def Build.control_types (P : Build) : List Nat :=
  [P.MNCC_SETUP_IND, P.MNCC_DISC_IND, P.MNCC_REL_IND, P.MNCC_REJ_IND, P.MNCC_REL_CNF,
   P.MNCC_SETUP_COMPL_IND, P.MNCC_SETUP_CNF, P.MNCC_CALL_CONF_IND, P.MNCC_ALERT_IND,
   P.MNCC_HOLD_IND, P.MNCC_START_DTMF_IND, P.MNCC_STOP_DTMF_IND]

/-- The message types handled by `check_rtp_create` and `check_rtp_connect`,
whose frame is a `struct gsm_mncc_rtp`. -/
def Build.rtp_types (P : Build) : List Nat :=
  [P.MNCC_RTP_CREATE, P.MNCC_RTP_CONNECT]

/-- The next `write(2)` on the MNCC socket succeeds. -/
def World.WriteOk (w : World) : Prop := (pop_result w.write_results).1 = true

instance (w : World) : Decidable w.WriteOk := by
  unfold World.WriteOk
  infer_instance

/-- The ids of the registry are unique. -/
def World.UniqueIds (w : World) : Prop := (w.calls.map (fun c => c.id)).Nodup

instance (w : World) : Decidable w.UniqueIds := by
  unfold World.UniqueIds
  infer_instance

/-! ## Sample inputs -/

/-- A connected, ready process with an empty registry. -/
def readyWorld : World :=
  { conn := { state := .MNCC_READY, fd_open := true,
              on_disconnect := some .app_mncc_disconnected } }

/-- A connected process that still waits for the hello frame. -/
def waitWorld : World :=
  { conn := { state := .MNCC_WAIT_VERSION, fd_open := true,
              on_disconnect := some .app_mncc_disconnected } }

/-- A well-formed SETUP_IND with callref 42 in the sample build. -/
def setupInd42 : ReadBuf :=
  { rc := 1028, msg_type := 0x0102,
    mncc := { msg_type := 0x0102, callref := 42, fields := 6,
              called := { plan := 1, number := "101".toList },
              calling := { number := "200".toList }, imsi := "111".toList } }

/-- An RTP_CREATE response for callref 42 of exactly the struct size. -/
def rtpCreate42 : ReadBuf :=
  { rc := 24, msg_type := 0x0204,
    rtp := { msg_type := 0x0204, callref := 42, ip := 0x0A000001, port := 16384,
             payload_type := 8, payload_msg_type := 0x0300 } }

/-- The same RTP_CREATE response received with one byte more than the struct. -/
def longRtpCreate42 : ReadBuf := { rtpCreate42 with rc := 25 }

/-- A control frame of the sample build with the given type and callref. -/
def ctrl (msg_type callref : Nat) : ReadBuf :=
  { rc := 1028, msg_type := msg_type, mncc := { msg_type := msg_type, callref := callref } }

/-! ## Named pieces of the handlers -/

/-- The leg after a release request was sent for it. -/
def MnccCallLeg.releasing (l : MnccCallLeg) (expected : Nat) : MnccCallLeg :=
  start_cmd_timer { l with base := { l.base with in_release := true } } expected

/-- The request `mncc_call_leg_release` sends for a leg on a READY connection. -/
def release_request (P : Build) (l : MnccCallLeg) : Nat :=
  match l.state with
  | .MNCC_CC_INITIAL => if l.dir == .MNCC_DIR_MO then P.MNCC_REJ_REQ else P.MNCC_REL_REQ
  | .MNCC_CC_PROCEEDING | .MNCC_CC_CONNECTED => P.MNCC_DISC_REQ

/-- The response `mncc_call_leg_release` arms the timer for when it keeps the leg. -/
def release_awaits (P : Build) (l : MnccCallLeg) : Nat :=
  match l.state with
  | .MNCC_CC_INITIAL => P.MNCC_REL_CNF
  | .MNCC_CC_PROCEEDING | .MNCC_CC_CONNECTED => P.MNCC_REL_IND

/-- The MO leg that `check_setup` creates for `setupInd42`, awaiting RTP_CREATE. -/
def moLeg : MnccCallLeg :=
  { base := { connect_call := some .mncc_call_leg_connect,
              ring_call := some .mncc_call_leg_ring,
              release_call := some .mncc_call_leg_release },
    callref := 42, called := { plan := 1, number := "101".toList },
    calling := { number := "200".toList }, imsi := "111".toList,
    cmd_timeout := some 5, rsp_wanted := 0x0204 }

/-- A connected MO leg that is being released after a DISC_IND: `in_release`
is set and the timer waits for REL_CNF. -/
def releasingLeg : MnccCallLeg :=
  { moLeg with state := .MNCC_CC_CONNECTED, base := { moLeg.base with in_release := true },
               rsp_wanted := 0x0112 }

/-- A ready process whose registry holds call 1 with the given legs. -/
def worldWith (initial : Leg) (remote : Option Leg) : World :=
  { readyWorld with calls := [{ id := 1, initial := some initial, remote := remote }],
                    last_call_id := 1 }

/-- The next allocation succeeds. -/
def World.AllocOk (w : World) : Prop := (pop_result w.alloc_results).1 = true

instance (w : World) : Decidable w.AllocOk := by
  unfold World.AllocOk
  infer_instance

/-- The MO leg `check_setup` builds from a SETUP_IND frame. -/
def setup_leg (P : Build) (data : GsmMncc) : MnccCallLeg :=
  { base := { connect_call := some .mncc_call_leg_connect,
              ring_call := some .mncc_call_leg_ring,
              release_call := some .mncc_call_leg_release },
    state := .MNCC_CC_INITIAL, dir := .MNCC_DIR_MO, callref := data.callref,
    called := data.called, calling := data.calling, imsi := data.imsi,
    cmd_timeout := some 5, rsp_wanted := P.MNCC_RTP_CREATE }

/-- The assignment of the media quadruple of an RTP frame to a leg, as in
`check_rtp_create`. -/
def record_media (l : MnccCallLeg) (rtp : GsmMnccRtp) : MnccCallLeg :=
  { l with base := { l.base with ip := rtp.ip, port := rtp.port,
                                 payload_type := rtp.payload_type,
                                 payload_msg_type := rtp.payload_msg_type } }

/-- The `dest` that `continue_mo_call` passes to `app_route_call`. -/
def mo_dest (l : MnccCallLeg) : CStr :=
  if l.called.type == GSM340_TYPE_INTERNATIONAL then '+' :: l.called.number.take 32
  else l.called.number.take 32

/-- The `source` that `continue_mo_call` passes to `app_route_call`. -/
def mo_source (app : AppConfig) (l : MnccCallLeg) : CStr :=
  if app.use_imsi_as_id then l.imsi.take 16
  else l.calling.number.take 32

/-- An MO leg in PROCEEDING whose `connect_call` ran: it awaits SETUP_COMPL_IND. -/
def connectingLeg : MnccCallLeg :=
  { moLeg with state := .MNCC_CC_PROCEEDING, rsp_wanted := 0x0106 }

/-- A connected MO leg with no response outstanding. -/
def connectedLeg : MnccCallLeg :=
  { moLeg with state := .MNCC_CC_CONNECTED, cmd_timeout := none, rsp_wanted := 0x0106,
               base := { moLeg.base with ip := 0x0A000001, port := 16384, payload_type := 8,
                                         payload_msg_type := 0x0300 } }

/-- A connected SIP leg, as `sip_create_remote_leg` and a 200 response leave it. -/
def sipLeg : SipCallLeg :=
  { base := { release_call := some .sip_release_call, ip := 0x0A000002, port := 20000,
              payload_type := 8 },
    nua_handle := 1, state := .SIP_CC_CONNECTED, wanted_codec := "GSM".toList }

/-- The bridged call: leg A is the connected MO leg, leg B the connected SIP leg. -/
def bridgedWorld : World := worldWith (.mncc connectedLeg) (some (.sip sipLeg))

/-! ## The timer discipline and the reachable states -/

/-- The timer discipline of a leg: while the response timer is scheduled,
`rsp_wanted` is set (non-zero). -/
def MnccCallLeg.TimerInv (l : MnccCallLeg) : Prop :=
  l.cmd_timeout ≠ none → l.rsp_wanted ≠ 0

/-- The timer discipline of a leg of either type (a SIP leg has no response timer). -/
def Leg.TimerInv : Leg → Prop
  | .mncc l => l.TimerInv
  | .sip _ => True

/-- The timer discipline of both legs of a call. -/
def Call.TimerInv (c : Call) : Prop := ∀ s l, c.slot s = some l → l.TimerInv

/-- The timer discipline of every leg in the registry. -/
def World.TimerInv (w : World) : Prop := ∀ c ∈ w.calls, c.TimerInv

/-- Every successful outcome of a run satisfies `Q`. -/
def OkAll {α : Type} (x : Except Fault α) (Q : α → Prop) : Prop :=
  ∀ a, x = .ok a → Q a

/-- The states the MNCC adapter reaches: from any state with an empty
registry, by frames read on the socket (`mncc_data`, every frame handler), by
response timers that fire, by the capabilities of MNCC legs invoked from the
other side, and by `start_cmd_timer` (with a message type the program awaits)
and `stop_cmd_timer` applied to a leg. -/
inductive Reachable (P : Build) : World → Prop
  | start (w : World) : w.calls = [] → Reachable P w
  | data (w w' : World) (buf : ReadBuf) :
      Reachable P w → mncc_data P buf w = .ok w' → Reachable P w'
  | timer_fires (w w' : World) (leg : LegRef) :
      Reachable P w → fire_cmd_timer P leg w = .ok w' → Reachable P w'
  | capability (w w' : World) (f : LegFn) (leg : LegRef) :
      Reachable P w → call_fn P (some f) leg w = .ok w' → Reachable P w'
  | start_cmd_timer (w w' : World) (leg : LegRef) (t : Nat) :
      Reachable P w → t ∈ P.awaited →
      upd_mncc leg (fun l => start_cmd_timer l t) w = .ok w' → Reachable P w'
  | stop_cmd_timer (w w' : World) (leg : LegRef) (got : Nat) :
      Reachable P w → upd_mncc leg (fun l => stop_cmd_timer l got) w = .ok w' →
      Reachable P w'

/-- The state of the ready process after it has read `setupInd42`. -/
def afterSetup : World :=
  match mncc_data sampleBuild setupInd42 readyWorld with
  | .ok w => w
  | .error _ => readyWorld

/-- The state after it has then read the response `rtpCreate42`. -/
def afterRtpCreate : World :=
  match mncc_data sampleBuild rtpCreate42 afterSetup with
  | .ok w => w
  | .error _ => afterSetup

/-- An MO leg whose called address is of type international, with a 15-digit
IMSI. -/
def intlLeg : MnccCallLeg :=
  { moLeg with called := { type := 1, plan := 1, number := "4915112345".toList },
               imsi := "262011234567890".toList }

/-- The message types handled through `find_leg`: the `struct gsm_mncc`
indications that are addressed to an existing leg. -/
def Build.indication_types (P : Build) : List Nat :=
  [P.MNCC_DISC_IND, P.MNCC_REL_IND, P.MNCC_REL_CNF, P.MNCC_REJ_IND, P.MNCC_SETUP_COMPL_IND,
   P.MNCC_SETUP_CNF, P.MNCC_CALL_CONF_IND, P.MNCC_ALERT_IND, P.MNCC_HOLD_IND,
   P.MNCC_START_DTMF_IND, P.MNCC_STOP_DTMF_IND]

/-- A hello frame of the sample build with the given version. -/
def hello (version : Nat) : ReadBuf :=
  { rc := 32, msg_type := 0x0400, hello := { msg_type := 0x0400, version := version } }

/-- An RTP_CONNECT response of the sample build with the given callref and
media endpoint. -/
def rtpConnect (callref ip port payload_type : Nat) : ReadBuf :=
  { rc := 24, msg_type := 0x0205,
    rtp := { msg_type := 0x0205, callref := callref, ip := ip, port := port,
             payload_type := payload_type } }

/-! ## mncc.c: the outbound MNCC leg -/

/-- The function `mncc_create_remote_leg` for the call `call`; the result is
its return value.  `strncpy(dst, src, n)` leaves the first `n` characters of
`src` in the array, and `snprintf(dst, 15, "%s", src)` the first 14 followed by
the terminating NUL.  The new leg is linked as `call->remote` only after the
write succeeded. -/
def mncc_create_remote_leg (P : Build) (call : Nat) (w : World) : Except Fault (Int × World) :=
  let (ok, rest) := pop_result w.alloc_results
  let w1 := { w with alloc_results := rest }
  if !ok then .ok (-1, w1)
  else
    match find_call w1.calls call with
    | none => .error .use_after_free
    | some c =>
      let leg : MnccCallLeg :=
        { base := { connect_call := some .mncc_call_leg_connect,
                    ring_call := some .mncc_call_leg_ring,
                    release_call := some .mncc_call_leg_release },
          callref := c.id, state := .MNCC_CC_INITIAL, dir := .MNCC_DIR_MT }
      let m0 : GsmMncc :=
        { msg_type := P.MNCC_SETUP_REQ, callref := leg.callref,
          fields := 0 ||| P.MNCC_F_CALLING,
          calling := { plan := 1, type := 0, number := c.source.take P.sizeof_number } }
      let m : GsmMncc :=
        if w1.app.use_imsi_as_id then { m0 with imsi := c.dest.take 14 }
        else { m0 with fields := m0.fields ||| P.MNCC_F_CALLED,
                       called := { plan := 1, type := 0,
                                   number := c.dest.take P.sizeof_number } }
      let (wok, wrest) := pop_result w1.write_results
      let w2 := { w1 with write_results := wrest }
      if !wok then .ok (-1, close_connection w2)
      else
        let cs := update_call call (fun c => some (c.setSlot .remote (some (.mncc leg))))
          w2.calls
        .ok (0, { w2.log (.write_mncc m) with calls := cs })

/-- The MT leg that `mncc_create_remote_leg` links for the call with this id. -/
def mt_leg (id : Nat) : MnccCallLeg :=
  { base := { connect_call := some .mncc_call_leg_connect,
              ring_call := some .mncc_call_leg_ring,
              release_call := some .mncc_call_leg_release },
    callref := id, state := .MNCC_CC_INITIAL, dir := .MNCC_DIR_MT }

/-- The SETUP_REQ frame that `mncc_create_remote_leg` writes for the call `c`. -/
def setup_req (P : Build) ( use_imsi_as_id : Bool) (c : Call) : GsmMncc :=
  if use_imsi_as_id then
    { msg_type := P.MNCC_SETUP_REQ, callref := c.id, fields := 0 ||| P.MNCC_F_CALLING,
      calling := { plan := 1, type := 0, number := c.source.take P.sizeof_number },
      imsi := c.dest.take 14 }
  else
    { msg_type := P.MNCC_SETUP_REQ, callref := c.id,
      fields := (0 ||| P.MNCC_F_CALLING) ||| P.MNCC_F_CALLED,
      calling := { plan := 1, type := 0, number := c.source.take P.sizeof_number },
      called := { plan := 1, type := 0, number := c.dest.take P.sizeof_number } }

/-- A call that came in on the SIP side, from "200" to the subscriber with
the 15-digit IMSI 262011234567890. -/
def imsiCall : Call :=
  { id := 1, initial := some (.sip sipLeg), source := "200".toList,
    dest := "262011234567890".toList }

/-- A ready process configured with `use_imsi_as_id`, holding `imsiCall`. -/
def imsiWorld : World :=
  { readyWorld with app := { use_imsi_as_id := true }, calls := [imsiCall], last_call_id := 1 }

/-- The next two `write(2)` calls on the MNCC socket succeed. -/
def World.WriteOk2 (w : World) : Prop :=
  w.WriteOk ∧ (pop_result w.write_results.tail).1 = true

instance (w : World) : Decidable w.WriteOk2 := by
  unfold World.WriteOk2
  infer_instance

/-- The MO leg after its RTP_CREATE response: PROCEEDING, the timer stopped,
the media endpoint of the MSC side recorded. -/
def proceedingLeg : MnccCallLeg :=
  { connectedLeg with state := .MNCC_CC_PROCEEDING, rsp_wanted := 0x0204 }

/-- The call being set up: leg A is `proceedingLeg`, leg B the SIP leg whose
stored media endpoint is ip 0x0A000002, port 20000, payload type 8. -/
def answeredWorld : World := worldWith (.mncc proceedingLeg) (some (.sip sipLeg))

/-- The peer of the leg is absent, or it is a SIP leg with the `release_call`
that `sip_create_remote_leg` installs (the only place where the sources
create a SIP leg). -/
def World.SipPeer (w : World) (r : LegRef) : Prop :=
  match w.leg ⟨r.call, r.slot.other⟩ with
  | none => True
  | some (.sip s) => s.base.release_call = some .sip_release_call
  | some (.mncc _) => False

instance (w : World) (r : LegRef) : Decidable (w.SipPeer r) := by
  unfold World.SipPeer
  split <;> infer_instance

/-- The legs whose `release_call` the function `release_other` invokes for the
leg `r`: its peer, when it has one. -/
def World.peers (w : World) (r : LegRef) : List LegRef :=
  if (w.leg ⟨r.call, r.slot.other⟩).isSome then [⟨r.call, r.slot.other⟩] else []

/-! ## sip.c: the SDP answer

The payload of a SIP message is parsed by libsofia-sip-ua (`sdp_parse`,
`sdp_session`); what the library returns is given, as the parsed session. -/

/-- The address types of libsofia-sip-ua (`sdp_addr_e`). -/
inductive SdpAddrType
  | sdp_addr_x
  | sdp_addr_ip4
  | sdp_addr_ip6
deriving DecidableEq, Repr

/-- The transport protocols of a media description (`sdp_proto_e`);
`sdp_proto_rtp` is RTP/AVP. -/
inductive SdpProto
  | sdp_proto_x
  | sdp_proto_tcp
  | sdp_proto_udp
  | sdp_proto_rtp
  | sdp_proto_srtp
  | sdp_proto_udptl
deriving DecidableEq, Repr

/-- The media types of a media description (`sdp_media_e`). -/
inductive SdpMediaType
  | sdp_media_x
  | sdp_media_any
  | sdp_media_audio
  | sdp_media_video
  | sdp_media_application
deriving DecidableEq, Repr

/-- A connection entry, `sdp_connection_t`: a `c=` line. -/
structure SdpConnection where
  c_addrtype : SdpAddrType := .sdp_addr_ip4
  c_address : CStr := []
deriving DecidableEq, Repr

/-- An entry `sdp_rtpmap_t`: an `a=rtpmap` line of a media description. -/
structure SdpRtpmap where
  rm_pt : Nat := 0
  rm_encoding : CStr := []
deriving DecidableEq, Repr

/-- A media description, `sdp_media_t`: an `m=` line with its rtpmaps. -/
structure SdpMedia where
  m_type : SdpMediaType := .sdp_media_audio
  m_proto : SdpProto := .sdp_proto_rtp
  m_port : Nat := 0
  m_rtpmaps : List SdpRtpmap := []
deriving DecidableEq, Repr

/-- A parsed session, `sdp_session_t`: the lists `sdp_connection` and
`sdp_media`, in the order of their `c_next` / `m_next` links. -/
structure SdpSession where
  sdp_connection : List SdpConnection := []
  sdp_media : List SdpMedia := []
deriving DecidableEq, Repr

/-- What the first steps of `extract_sdp` find in a SIP message: no payload,
no parser from `sdp_parse`, no session from `sdp_session`, or a session. -/
inductive SdpPayload
  | absent
  | parse_failed
  | no_session
  | session (sdp : SdpSession)
deriving DecidableEq, Repr

/-- A SIP message `sip_t`, as far as `extract_sdp` reads it.  `addr_uninit` is
the indeterminate value the local variable `addr` of `extract_sdp` holds when
`inet_aton` does not write it (its return value is not checked). -/
structure SipT where
  payload : SdpPayload := .absent
  addr_uninit : Nat := 0
deriving DecidableEq, Repr

/-- The function `strcasecmp` of the C library, as far as the sources use it:
zero exactly when the strings are equal ignoring the case of letters. -/
def strcasecmp (a b : CStr) : Int :=
  if a.map Char.toLower = b.map Char.toLower then 0 else 1

/-- The first loop of `extract_sdp`: the value stored in `leg->base.ip` for the
first connection entry of type IPv4, `none` when the loop ends without one. -/
def extract_conn (P : Build) (addr_uninit : Nat) : List SdpConnection → Option Nat
  | [] => none
  | conn :: rest =>
    if conn.c_addrtype != .sdp_addr_ip4 then extract_conn P addr_uninit rest
    else some ((P.inet_aton conn.c_address).getD addr_uninit)

/-- The inner loop of `extract_sdp` over the rtpmaps of one media description:
the payload type of the first entry whose encoding is the wanted codec. -/
def extract_map (wanted_codec : CStr) : List SdpRtpmap → Option Nat
  | [] => none
  | map :: rest =>
    if strcasecmp map.rm_encoding wanted_codec != 0 then extract_map wanted_codec rest
    else some map.rm_pt

/-- The second loop of `extract_sdp`: port and payload type stored on the leg,
`none` when the loop ends with `found_map` false. -/
def extract_media (wanted_codec : CStr) : List SdpMedia → Option (Nat × Nat)
  | [] => none
  | media :: rest =>
    if media.m_proto != .sdp_proto_rtp then extract_media wanted_codec rest
    else if media.m_type != .sdp_media_audio then extract_media wanted_codec rest
    else
      match extract_map wanted_codec media.m_rtpmaps with
      | some pt => some (media.m_port, pt)
      | none => extract_media wanted_codec rest

/-- The function `extract_sdp`: its return value and the leg it leaves. -/
def extract_sdp (P : Build) (leg : SipCallLeg) (sip : SipT) : Bool × SipCallLeg :=
  match sip.payload with
  | .absent => (false, leg)
  | .parse_failed => (false, leg)
  | .no_session => (false, leg)
  | .session sdp =>
    let (found_conn, leg1) :=
      match extract_conn P sip.addr_uninit sdp.sdp_connection with
      | some ip => (true, { leg with base := { leg.base with ip := ip } })
      | none => (false, leg)
    let (found_map, leg2) :=
      match extract_media leg1.wanted_codec sdp.sdp_media with
      | some (port, pt) =>
        (true, { leg1 with base := { leg1.base with port := port, payload_type := pt } })
      | none => (false, leg1)
    if !found_conn || !found_map then (false, leg2)
    else (true, leg2)

/-! ## sip.c: the callback of the SIP stack -/

/-- Dereference the `hmagic` of a SIP handle, which the sources register for a
`struct sip_call_leg` only. -/
def World.sip_leg (w : World) (r : LegRef) : Except Fault SipCallLeg :=
  match w.leg r with
  | some (.sip l) => .ok l
  | some (.mncc _) => .error .assert_failed
  | none => .error .use_after_free

/-- The function `call_progress`. -/
def call_progress (P : Build) (leg : LegRef) (w : World) : Except Fault World := do
  match ← call_leg_other leg w with
  | none => pure w
  | some other => invoke_ring_call P other w

/-- The function `call_connect`. -/
def call_connect (P : Build) (leg : LegRef) (sip : SipT) (w : World) : Except Fault World := do
  let other ← call_leg_other leg w
  let l ← w.sip_leg leg
  match other with
  | none => pure (w.log (.nua_cancel l.nua_handle))
  | some other =>
    let (ok, l1) := extract_sdp P l sip
    let w1 := w.set_leg leg (.sip l1)
    if !ok then
      invoke_release_call P other (w1.log (.nua_cancel l1.nua_handle))
    else
      let w2 := w1.set_leg leg (.sip { l1 with state := .SIP_CC_CONNECTED })
      let w3 ← invoke_connect_call P other w2
      let l3 ← w3.sip_leg leg
      pure (w3.log (.nua_ack l3.nua_handle))

/-- The events of the SIP stack that `nua_callback` tells apart. -/
inductive NuaEvent
  | nua_r_invite
  | nua_r_bye
  | nua_r_cancel
  | nua_i_bye
  | nua_other
deriving DecidableEq, Repr

/-- The function `nua_callback`, for the leg registered as `hmagic`. -/
def nua_callback (P : Build) (event : NuaEvent) (status : Int) (leg : LegRef) (sip : SipT)
    (w : World) : Except Fault World :=
  match event with
  | .nua_r_invite => do
    let l ← w.sip_leg leg
    let w1 :=
      if l.state == .SIP_CC_INITIAL then w.set_leg leg (.sip { l with state := .SIP_CC_DLG_CNFD })
      else w
    if status == 180 then call_progress P leg w1
    else if status == 200 then call_connect P leg sip w1
    else if status ≥ 300 then do
      let other ← call_leg_other leg w1
      let l1 ← w1.sip_leg leg
      let w2 := (w1.log (.nua_cancel l1.nua_handle)).log (.nua_handle_destroy l1.nua_handle)
      let w3 ← call_leg_release leg w2
      match other with
      | some o => invoke_release_call P o w3
      | none => pure w3
    else pure w1
  | .nua_r_bye | .nua_r_cancel => do
    let l ← w.sip_leg leg
    call_leg_release leg (w.log (.nua_handle_destroy l.nua_handle))
  | .nua_i_bye => do
    let other ← call_leg_other leg w
    let l ← w.sip_leg leg
    let w2 ← call_leg_release leg (w.log (.nua_handle_destroy l.nua_handle))
    match other with
    | some o => invoke_release_call P o w2
    | none => pure w2
  | .nua_other => pure w

/-! ## sip.c: the URI of the agent -/

/-- The conversion `%d` of printf applied to an `int`. -/
def fmt_int (v : Int) : CStr :=
  if v < 0 then '-' :: Nat.toDigits 10 v.natAbs else Nat.toDigits 10 v.toNat

/-- The function `make_sip_uri`.  The local `hostname` is assigned and then
not read: the format arguments are `local_addr` and `local_port`. -/
def make_sip_uri (app : AppConfig) : CStr :=
  let hostname := app.sip_local_addr
  let hostname := if hostname = "0.0.0.0".toList then "*".toList else hostname
  let _unused := hostname
  "sip:".toList ++ app.sip_local_addr ++ ':' :: fmt_int app.sip_local_port

/-- An outbound SIP leg right after `sip_create_remote_leg`: the INVITE is
sent, no response has arrived. -/
def invitingLeg : SipCallLeg :=
  { base := { release_call := some .sip_release_call }, nua_handle := 1,
    state := .SIP_CC_INITIAL, wanted_codec := "GSM".toList }

/-! ## The words of the specification about the SDP answer -/

/-- From the specification: a connection entry of the IPv4 family. -/
def is_ip4 (c : SdpConnection) : Bool := c.c_addrtype == .sdp_addr_ip4

/-- From the specification: an rtpmap whose encoding equals the wanted codec
ignoring case. -/
def rtpmap_matches (wanted_codec : CStr) (rm : SdpRtpmap) : Bool :=
  rm.rm_encoding.map Char.toLower == wanted_codec.map Char.toLower

/-- From the specification: a media entry of type audio and protocol RTP/AVP
with an rtpmap that matches the wanted codec. -/
def media_matches (wanted_codec : CStr) (m : SdpMedia) : Bool :=
  m.m_type == .sdp_media_audio && m.m_proto == .sdp_proto_rtp &&
    m.m_rtpmaps.any (rtpmap_matches wanted_codec)

/-- An SDP answer with one IPv4 connection entry, 10.0.0.2, and one audio
RTP/AVP media description on port 20000 that offers payload type 0 = PCMU and
payload type 3 = GSM. -/
def answerSdp : SdpSession :=
  { sdp_connection := [{ c_addrtype := .sdp_addr_ip6, c_address := "::1".toList },
                       { c_addrtype := .sdp_addr_ip4, c_address := "10.0.0.2".toList }],
    sdp_media := [{ m_type := .sdp_media_video, m_proto := .sdp_proto_rtp, m_port := 30000,
                    m_rtpmaps := [{ rm_pt := 96, rm_encoding := "H264".toList }] },
                  { m_type := .sdp_media_audio, m_proto := .sdp_proto_rtp, m_port := 20000,
                    m_rtpmaps := [{ rm_pt := 0, rm_encoding := "PCMU".toList },
                                  { rm_pt := 3, rm_encoding := "gsm".toList }] }] }

/-- The same answer without its connection entries. -/
def answerSdpNoConn : SdpSession := { answerSdp with sdp_connection := [] }

/-- A SIP leg that waits for the answer and wants PCMA. -/
def pcmaLeg : SipCallLeg := { invitingLeg with wanted_codec := "PCMA".toList }

/-! ## The words of the specification about the SDP offer -/

/-- The next two allocations succeed. -/
def World.AllocOk2 (w : World) : Prop :=
  w.AllocOk ∧ (pop_result w.alloc_results.tail).1 = true

instance (w : World) : Decidable w.AllocOk2 := by
  unfold World.AllocOk2
  infer_instance

/-- The SIP leg that `sip_create_remote_leg` links, on the handle `handle`, for
a call whose `initial` leg is `other`. -/
def new_sip_leg (P : Build) (handle : Nat) (other : Leg) : SipCallLeg :=
  { base := { release_call := some .sip_release_call }, nua_handle := handle,
    state := .SIP_CC_INITIAL,
    wanted_codec := P.app_media_name other.base.payload_msg_type }

/-- The trace without the frames written on the MNCC socket: the capability
invocations and what was handed to the SIP stack, oldest first. -/
def non_frames : List Event → List Event
  | [] => []
  | .write_mncc _ :: es => non_frames es
  | .write_rtp _ :: es => non_frames es
  | e :: es => e :: non_frames es

/-- An SDP answer with an IPv4 connection entry 10.0.0.2 and one audio RTP/AVP
media description that offers PCMU only. -/
def pcmuSdp : SdpSession :=
  { sdp_connection := [{ c_addrtype := .sdp_addr_ip4, c_address := "10.0.0.2".toList }],
    sdp_media := [{ m_type := .sdp_media_audio, m_proto := .sdp_proto_rtp, m_port := 20000,
                    m_rtpmaps := [{ rm_pt := 0, rm_encoding := "PCMU".toList }] }] }

/-! # Theorems -/

/-! ## Closing the connection -/

@[simp] theorem app_mncc_disconnected_conn (w : World) :
    (app_mncc_disconnected w).conn = w.conn := rfl

@[simp] theorem close_connection_state (w : World) :
    (close_connection w).conn.state = .MNCC_DISCONNECTED := by
  unfold close_connection
  cases h : w.conn.on_disconnect with
  | none => simp [h]
  | some f => cases f; simp [h, World.log]

@[simp] theorem close_connection_reconnect (w : World) :
    (close_connection w).conn.reconnect = some 5 := by
  unfold close_connection
  cases h : w.conn.on_disconnect with
  | none => simp [h]
  | some f => cases f; simp [h, World.log]

/-- Releasing both legs of a call with an MNCC leg leaves nothing of the call. -/
theorem app_mncc_disconnected_step_eq (c : Call) :
    app_mncc_disconnected_step c = if has_mncc c then none else some c := by
  unfold app_mncc_disconnected_step
  by_cases h : has_mncc c
  · simp only [h, if_true]
    cases hr : c.remote <;> simp [Call.release, Call.setSlot, hr]
  · simp [h]

theorem app_mncc_disconnected_calls (w : World) :
    (app_mncc_disconnected w).calls = w.calls.filter (fun c => !has_mncc c) := by
  unfold app_mncc_disconnected
  simp only
  induction w.calls with
  | nil => rfl
  | cons c cs ih =>
    by_cases h : has_mncc c <;>
      simp [List.filterMap_cons, app_mncc_disconnected_step_eq, h, ih]

/-- Closing the connection creates no call and changes none: what is left of
the registry is a sublist of it. -/
theorem close_connection_calls_sublist (w : World) :
    (close_connection w).calls.Sublist w.calls := by
  unfold close_connection
  cases h : w.conn.on_disconnect with
  | none => simp [h]
  | some f =>
    cases f
    simp only [h, app_mncc_disconnected_calls, World.log]
    exact List.filter_sublist _

/-- A frame that fails the length check of its handler closes the connection. -/
theorem mncc_data_wrong_length (P : Build) (hP : P.LabelsDistinct) (buf : ReadBuf) (w : World)
    (h : (buf.msg_type = P.MNCC_SOCKET_HELLO ∧ buf.rc ≠ P.sizeof_gsm_mncc_hello) ∨
         (buf.msg_type ∈ P.control_types ∧ buf.rc ≠ P.sizeof_gsm_mncc) ∨
         (buf.msg_type ∈ P.rtp_types ∧ buf.rc < P.sizeof_gsm_mncc_rtp)) :
    mncc_data P buf w = .ok (close_connection w) := by
  unfold mncc_data
  by_cases h0 : buf.rc ≤ 0
  · simp [h0, pure, Except.pure]
  by_cases h4 : buf.rc ≤ 4
  · simp [h0, h4, pure, Except.pure]
  simp only [h0, h4, if_false]
  simp only [Build.LabelsDistinct, Build.dispatched, List.nodup_cons, List.mem_cons,
    List.mem_singleton, not_or, List.not_mem_nil, not_false_eq_true, List.nodup_nil,
    and_true] at hP
  rcases h with ⟨ht, hl⟩ | ⟨ht, hl⟩ | ⟨ht, hl⟩
  · have hne : buf.rc.toNat ≠ P.sizeof_gsm_mncc_hello := by omega
    simp [ht, check_hello, hne, pure, Except.pure]
  · have hne : buf.rc.toNat ≠ P.sizeof_gsm_mncc := by omega
    simp only [Build.control_types, List.mem_cons, List.mem_singleton, List.not_mem_nil,
      or_false] at ht
    rcases ht with ht | ht | ht | ht | ht | ht | ht | ht | ht | ht | ht | ht <;>
      simp [ht, hP, check_setup, check_disc_ind, check_rel_ind, check_rej_ind, check_rel_cnf,
        check_stp_cmpl_ind, check_stp_cnf, check_cnf_ind, check_alrt_ind, check_hold_ind,
        check_dtmf_start, check_dtmf_stop, find_leg, hne, pure, Except.pure, Ne.symm]
  · have hlt : buf.rc.toNat < P.sizeof_gsm_mncc_rtp := by omega
    simp only [Build.rtp_types, List.mem_cons, List.mem_singleton, List.not_mem_nil,
      or_false] at ht
    rcases ht with ht | ht <;>
      simp [ht, hP, check_rtp_create, check_rtp_connect, hlt, pure, Except.pure, Ne.symm]

/-- A frame of a type that is no case label of the switch is ignored. -/
theorem mncc_data_undispatched (P : Build) (buf : ReadBuf) (w : World) (h4 : 4 < buf.rc)
    (ht : buf.msg_type ∉ P.dispatched) : mncc_data P buf w = .ok w := by
  unfold mncc_data
  have h0 : ¬ buf.rc ≤ 0 := by omega
  have h4 : ¬ buf.rc ≤ 4 := by omega
  simp only [Build.dispatched, List.mem_cons, List.mem_singleton, List.not_mem_nil, or_false,
    not_or] at ht
  simp [h0, h4, ht, pure, Except.pure]

/-! ## The registry -/

@[simp] theorem Call.setSlot_id (c : Call) (s : Slot) (l : Option Leg) :
    (c.setSlot s l).id = c.id := by cases s <;> rfl

@[simp] theorem Call.slot_setSlot (c : Call) (s : Slot) (l : Option Leg) :
    (c.setSlot s l).slot s = l := by cases s <;> rfl

@[simp] theorem Call.slot_setSlot_other (c : Call) (s : Slot) (l : Option Leg) :
    (c.setSlot s l).slot s.other = c.slot s.other := by cases s <;> rfl

@[simp] theorem Call.setSlot_setSlot (c : Call) (s : Slot) (l l2 : Option Leg) :
    (c.setSlot s l).setSlot s l2 = c.setSlot s l2 := by cases s <;> rfl

@[simp] theorem Call.release_setSlot (c : Call) (s : Slot) (l : Option Leg) :
    (c.setSlot s l).release s = c.release s := by
  cases s <;> simp [Call.release, Call.setSlot]

theorem Call.release_id (c c2 : Call) (s : Slot) (h : c.release s = some c2) :
    c2.id = c.id := by
  unfold Call.release at h
  simp only at h
  split at h
  · cases h
  · cases h; simp

theorem Call.release_slot (c c2 : Call) (s : Slot) (h : c.release s = some c2) :
    c2.slot s = none := by
  unfold Call.release at h
  simp only at h
  split at h
  · cases h
  · cases h; simp

theorem find_call_cons (c : Call) (cs : List Call) (id : Nat) :
    find_call (c :: cs) id = if c.id = id then some c else find_call cs id := by
  unfold find_call
  rw [List.find?_cons]
  by_cases h : c.id = id
  · simp [h]
  · have hb : (c.id == id) = false := by simpa using h
    simp [hb, h]

@[simp] theorem find_call_nil (id : Nat) : find_call [] id = none := rfl

theorem find_call_none_of_not_mem (cs : List Call) (id : Nat)
    (h : id ∉ cs.map (fun c => c.id)) : find_call cs id = none := by
  induction cs with
  | nil => rfl
  | cons c cs ih =>
    simp only [List.map_cons, List.mem_cons, not_or] at h
    rw [find_call_cons, if_neg (fun e => h.1 e.symm), ih h.2]

theorem update_call_cons (id : Nat) (f : Call → Option Call) (c : Call) (cs : List Call) :
    update_call id f (c :: cs) =
      if c.id = id then (match f c with
        | some c2 => c2 :: cs
        | none => cs)
      else c :: update_call id f cs := by
  by_cases h : c.id = id <;> simp [update_call, h]

/-- A rewrite that keeps the call linked is seen by the next lookup. -/
theorem find_call_update_call_some (id : Nat) (f : Call → Call) (hf : ∀ c, (f c).id = c.id)
    (cs : List Call) :
    find_call (update_call id (fun c => some (f c)) cs) id = (find_call cs id).map f := by
  induction cs with
  | nil => rfl
  | cons c cs ih =>
    rw [update_call_cons, find_call_cons]
    by_cases h : c.id = id
    · simp [h, find_call_cons, hf]
    · simp [h, find_call_cons, ih]

/-- With unique ids, a rewrite that may unlink the call is seen by the next lookup. -/
theorem find_call_update_call (id : Nat) (f : Call → Option Call)
    (hf : ∀ c c2, f c = some c2 → c2.id = c.id) (cs : List Call)
    (hu : (cs.map (fun c => c.id)).Nodup) :
    find_call (update_call id f cs) id = (find_call cs id).bind f := by
  induction cs with
  | nil => rfl
  | cons c cs ih =>
    simp only [List.map_cons, List.nodup_cons] at hu
    rw [update_call_cons, find_call_cons]
    by_cases h : c.id = id
    · simp only [h, if_true, Option.some_bind]
      cases hfc : f c with
      | none => exact find_call_none_of_not_mem cs id (h ▸ hu.1)
      | some c2 => simp [find_call_cons, hf c c2 hfc, h]
    · simp [h, find_call_cons, ih hu.2]

/-- Two rewrites of the same call compose. -/
theorem update_call_update_call_some (id : Nat) (f : Call → Call) (hf : ∀ c, (f c).id = c.id)
    (g : Call → Option Call) (cs : List Call) :
    update_call id g (update_call id (fun c => some (f c)) cs) =
      update_call id (fun c => g (f c)) cs := by
  induction cs with
  | nil => rfl
  | cons c cs ih =>
    by_cases h : c.id = id
    · simp [update_call_cons, h, hf]
    · simp [update_call_cons, h, ih]

theorem update_call_congr (id : Nat) (f g : Call → Option Call) (cs : List Call)
    (h : ∀ c, c.id = id → f c = g c) : update_call id f cs = update_call id g cs := by
  induction cs with
  | nil => rfl
  | cons c cs ih =>
    by_cases hc : c.id = id
    · simp [update_call_cons, hc, h c hc]
    · simp [update_call_cons, hc, ih]

/-! ## Legs in the world -/

@[simp] theorem World.log_calls (w : World) (e : Event) : (w.log e).calls = w.calls := rfl
@[simp] theorem World.log_conn (w : World) (e : Event) : (w.log e).conn = w.conn := rfl
@[simp] theorem World.log_trace (w : World) (e : Event) : (w.log e).trace = w.trace ++ [e] := rfl
@[simp] theorem World.log_write_results (w : World) (e : Event) :
    (w.log e).write_results = w.write_results := rfl
@[simp] theorem World.log_leg (w : World) (e : Event) (r : LegRef) :
    (w.log e).leg r = w.leg r := rfl

@[simp] theorem World.set_leg_conn (w : World) (r : LegRef) (l : Leg) :
    (w.set_leg r l).conn = w.conn := rfl
@[simp] theorem World.set_leg_trace (w : World) (r : LegRef) (l : Leg) :
    (w.set_leg r l).trace = w.trace := rfl
@[simp] theorem World.set_leg_write_results (w : World) (r : LegRef) (l : Leg) :
    (w.set_leg r l).write_results = w.write_results := rfl

/-- A store through a live leg pointer is read back. -/
theorem World.leg_set_leg (w : World) (r : LegRef) (l0 l : Leg) (h : w.leg r = some l0) :
    (w.set_leg r l).leg r = some l := by
  unfold World.leg at h ⊢
  unfold World.set_leg
  simp only
  rw [find_call_update_call_some r.call (fun c => c.setSlot r.slot (some l)) (by simp)]
  cases hc : find_call w.calls r.call with
  | none => simp [hc] at h
  | some c => simp

/-- A store through a leg pointer leaves the other leg of the call alone. -/
theorem World.leg_set_leg_other (w : World) (r : LegRef) (l : Leg) :
    (w.set_leg r l).leg ⟨r.call, r.slot.other⟩ = w.leg ⟨r.call, r.slot.other⟩ := by
  unfold World.leg
  unfold World.set_leg
  simp only
  rw [find_call_update_call_some r.call (fun c => c.setSlot r.slot (some l)) (by simp)]
  cases hc : find_call w.calls r.call <;> simp

/-- Two stores through the same pointer: the second one wins. -/
theorem World.set_leg_set_leg (w : World) (r : LegRef) (l l2 : Leg) :
    (w.set_leg r l).set_leg r l2 = w.set_leg r l2 := by
  unfold World.set_leg
  simp only
  rw [update_call_update_call_some r.call (fun c => c.setSlot r.slot (some l)) (by simp)]
  simp

theorem World.mncc_leg_of_leg (w : World) (r : LegRef) (l : MnccCallLeg)
    (h : w.leg r = some (.mncc l)) : w.mncc_leg r = .ok l := by
  simp [World.mncc_leg, h]

theorem upd_mncc_of_leg (w : World) (r : LegRef) (l : MnccCallLeg) (f : MnccCallLeg → MnccCallLeg)
    (h : w.leg r = some (.mncc l)) : upd_mncc r f w = .ok (w.set_leg r (.mncc (f l))) := by
  simp [upd_mncc, World.mncc_leg, h]

/-- Releasing a live leg: the registry afterwards. -/
theorem call_leg_release_of_leg (w : World) (r : LegRef) (l : Leg) (h : w.leg r = some l) :
    call_leg_release r w =
      .ok { w with calls := update_call r.call (fun c => c.release r.slot) w.calls } := by
  simp [call_leg_release, h]

/-- After a release the leg pointer dangles. -/
theorem leg_after_release (cs : List Call) (r : LegRef)
    (hu : (cs.map (fun c => c.id)).Nodup) :
    (find_call (update_call r.call (fun c => c.release r.slot) cs) r.call).bind
      (fun c => c.slot r.slot) = none := by
  rw [find_call_update_call r.call _ (fun c c2 h => Call.release_id c c2 r.slot h) cs hu]
  cases hc : find_call cs r.call with
  | none => rfl
  | some c =>
    simp only [Option.some_bind]
    cases hr : c.release r.slot with
    | none => rfl
    | some c2 => simp [Call.release_slot c c2 r.slot hr]

/-- The function `mncc_leg_release` on a live MNCC leg. -/
theorem mncc_leg_release_of_leg (w : World) (r : LegRef) (l : MnccCallLeg)
    (h : w.leg r = some (.mncc l)) :
    mncc_leg_release r w =
      .ok { w with calls := update_call r.call (fun c => c.release r.slot) w.calls } := by
  unfold mncc_leg_release
  rw [upd_mncc_of_leg w r l _ h]
  simp only [bind, Except.bind]
  rw [call_leg_release_of_leg _ r _ (World.leg_set_leg w r _ _ h)]
  unfold World.set_leg
  simp only
  rw [update_call_update_call_some r.call (fun c => c.setSlot r.slot _) (by simp)]
  simp

/-! ## Writes that succeed -/

theorem pop_result_ok (l : List Bool) (h : (pop_result l).1 = true) :
    pop_result l = (true, l.tail) := by
  cases l with
  | nil => rfl
  | cons b bs =>
    simp only [pop_result] at h
    simp [pop_result, h]

theorem mncc_write_ok (m : GsmMncc) (w : World) (h : w.WriteOk) :
    mncc_write m w = { w with write_results := w.write_results.tail,
                              trace := w.trace ++ [.write_mncc m] } := by
  unfold mncc_write
  rw [pop_result_ok _ h]
  rfl

theorem mncc_send_ok (t c : Nat) (w : World) (h : w.WriteOk) :
    mncc_send t c w =
      { w with write_results := w.write_results.tail,
               trace := w.trace ++ [.write_mncc { msg_type := t, callref := c }] } :=
  mncc_write_ok _ w h

theorem mncc_rtp_send_ok (t c : Nat) (w : World) (h : w.WriteOk) :
    mncc_rtp_send t c w =
      { w with write_results := w.write_results.tail,
               trace := w.trace ++ [.write_rtp { msg_type := t, callref := c }] } := by
  unfold mncc_rtp_send
  rw [pop_result_ok _ h]
  rfl

theorem ok_bind {α β : Type} (a : α) (k : α → Except Fault β) :
    (Except.ok a >>= k) = k a := rfl

theorem World.leg_mncc_send_ok (t c : Nat) (w : World) (r : LegRef) (hw : w.WriteOk) :
    (mncc_send t c w).leg r = w.leg r := by
  rw [mncc_send_ok t c w hw]; rfl

theorem World.WriteOk_set_leg (w : World) (r : LegRef) (l : Leg) (hw : w.WriteOk) :
    (w.set_leg r l).WriteOk := hw

/-! ## The function `mncc_call_leg_release`, case by case -/

theorem mncc_call_leg_release_not_ready (P : Build) (w : World) (r : LegRef) (l : MnccCallLeg)
    (h : w.leg r = some (.mncc l)) (hs : w.conn.state ≠ .MNCC_READY) :
    mncc_call_leg_release P r w =
      .ok { w with calls := update_call r.call (fun c => c.release r.slot) w.calls } := by
  unfold mncc_call_leg_release
  rw [World.mncc_leg_of_leg w r l h, ok_bind]
  simp [hs, mncc_leg_release_of_leg w r l h]

theorem mncc_call_leg_release_initial_mo (P : Build) (w : World) (r : LegRef) (l : MnccCallLeg)
    (h : w.leg r = some (.mncc l)) (hs : w.conn.state = .MNCC_READY)
    (hst : l.state = .MNCC_CC_INITIAL) (hd : l.dir = .MNCC_DIR_MO) (hw : w.WriteOk) :
    mncc_call_leg_release P r w =
      .ok { w with calls := update_call r.call (fun c => c.release r.slot) w.calls,
                   write_results := w.write_results.tail,
                   trace := w.trace ++
                     [.write_mncc { msg_type := P.MNCC_REJ_REQ, callref := l.callref }] } := by
  have h1 : (mncc_send P.MNCC_REJ_REQ l.callref w).leg r = some (.mncc l) := by
    rw [World.leg_mncc_send_ok _ _ w r hw]; exact h
  unfold mncc_call_leg_release
  rw [World.mncc_leg_of_leg w r l h, ok_bind]
  rw [if_neg (by simp [hs])]
  simp only [hst]
  rw [if_pos (by simp [hd])]
  rw [upd_mncc_of_leg _ r l _ h1, ok_bind]
  rw [mncc_leg_release_of_leg _ r _ (World.leg_set_leg _ r _ _ h1)]
  rw [mncc_send_ok _ _ w hw]
  unfold World.set_leg
  simp only
  rw [update_call_update_call_some r.call (fun c => c.setSlot r.slot _) (by simp)]
  simp

theorem mncc_call_leg_release_initial_mt (P : Build) (w : World) (r : LegRef) (l : MnccCallLeg)
    (h : w.leg r = some (.mncc l)) (hs : w.conn.state = .MNCC_READY)
    (hst : l.state = .MNCC_CC_INITIAL) (hd : l.dir = .MNCC_DIR_MT) (hw : w.WriteOk) :
    mncc_call_leg_release P r w =
      .ok { w.set_leg r (.mncc (l.releasing P.MNCC_REL_CNF)) with
                   write_results := w.write_results.tail,
                   trace := w.trace ++
                     [.write_mncc { msg_type := P.MNCC_REL_REQ, callref := l.callref }] } := by
  unfold mncc_call_leg_release
  rw [World.mncc_leg_of_leg w r l h, ok_bind]
  rw [if_neg (by simp [hs])]
  simp only [hst]
  rw [if_neg (by simp [hd])]
  rw [upd_mncc_of_leg w r l _ h, ok_bind]
  rw [upd_mncc_of_leg _ r _ _ (World.leg_set_leg w r _ _ h), ok_bind]
  rw [World.set_leg_set_leg]
  rw [World.mncc_leg_of_leg _ r _ (World.leg_set_leg w r _ _ h), ok_bind]
  rw [mncc_send_ok _ _ _ (World.WriteOk_set_leg w r _ hw)]
  rfl

theorem mncc_call_leg_release_active (P : Build) (w : World) (r : LegRef) (l : MnccCallLeg)
    (h : w.leg r = some (.mncc l)) (hs : w.conn.state = .MNCC_READY)
    (hst : l.state = .MNCC_CC_PROCEEDING ∨ l.state = .MNCC_CC_CONNECTED) (hw : w.WriteOk) :
    mncc_call_leg_release P r w =
      .ok { w.set_leg r (.mncc (l.releasing P.MNCC_REL_IND)) with
                   write_results := w.write_results.tail,
                   trace := w.trace ++
                     [.write_mncc { msg_type := P.MNCC_DISC_REQ, callref := l.callref }] } := by
  unfold mncc_call_leg_release
  rw [World.mncc_leg_of_leg w r l h, ok_bind]
  rw [if_neg (by simp [hs])]
  rcases hst with hst | hst <;>
  · simp only [hst]
    rw [upd_mncc_of_leg w r l _ h, ok_bind]
    rw [upd_mncc_of_leg _ r _ _ (World.leg_set_leg w r _ _ h), ok_bind]
    rw [World.set_leg_set_leg]
    rw [World.mncc_leg_of_leg _ r _ (World.leg_set_leg w r _ _ h), ok_bind]
    rw [mncc_send_ok _ _ _ (World.WriteOk_set_leg w r _ hw)]
    rfl

/-! ## Projections of the trace -/

theorem sent_frames_append (a b : List Event) :
    sent_frames (a ++ b) = sent_frames a ++ sent_frames b := by
  induction a with
  | nil => rfl
  | cons e es ih => cases e <;> simp [sent_frames, ih]

theorem released_legs_append (a b : List Event) :
    released_legs (a ++ b) = released_legs a ++ released_legs b := by
  induction a with
  | nil => rfl
  | cons e es ih => cases e <;> simp [released_legs, ih]

theorem routed_calls_append (a b : List Event) :
    routed_calls (a ++ b) = routed_calls a ++ routed_calls b := by
  induction a with
  | nil => rfl
  | cons e es ih => cases e <;> simp [routed_calls, ih]

theorem MnccCallLeg.releasing_of_in_release (l : MnccCallLeg) (t : Nat)
    (h : l.base.in_release = true) :
    l.releasing t = { l with cmd_timeout := some 5, rsp_wanted := t } := by
  obtain ⟨b, _, _, _, _, _, _, _, _⟩ := l
  obtain ⟨_, _, _, _, _, _, _, _, _⟩ := b
  simp only at h
  simp [MnccCallLeg.releasing, start_cmd_timer, h]

/-! ## Routing a call to SIP -/

/-- A rewrite of a call that keeps it linked, seen through a leg pointer of that call. -/
theorem leg_update_call_some (cs : List Call) (f : Call → Call) (hf : ∀ c, (f c).id = c.id)
    (r : LegRef) :
    (find_call (update_call r.call (fun c => some (f c)) cs) r.call).bind
        (fun c => c.slot r.slot) =
      (find_call cs r.call).bind (fun c => (f c).slot r.slot) := by
  rw [find_call_update_call_some r.call f hf]
  cases find_call cs r.call <;> rfl

/-- What `sip_create_remote_leg` does for a call with an `initial` leg: it
never faults, leaves the connection and the write oracle alone, and either
changes nothing in the registry and the trace (an allocation failed), or logs
one `nua_invite` and stores a SIP leg in the `remote` slot. -/
theorem sip_create_remote_leg_spec (P : Build) (call : Nat) (s d : CStr) (w : World)
    (c : Call) (other : Leg) (hc : find_call w.calls call = some c)
    (ho : c.initial = some other) :
    ∃ rc w', sip_create_remote_leg P call s d w = .ok (rc, w') ∧ w'.conn = w.conn ∧
      w'.write_results = w.write_results ∧
      ((w'.calls = w.calls ∧ w'.trace = w.trace) ∨
        (∃ leg h sf st sdp,
          w'.calls =
            update_call call (fun c => some (c.setSlot .remote (some (.sip leg)))) w.calls ∧
          leg.base.release_call = some .sip_release_call ∧
          w'.trace = w.trace ++ [.nua_invite h sf st sdp])) := by
  unfold sip_create_remote_leg
  rcases h1 : pop_result w.alloc_results with ⟨ok1, rest1⟩
  cases ok1 with
  | false => exact ⟨_, _, rfl, rfl, rfl, Or.inl ⟨rfl, rfl⟩⟩
  | true =>
    simp only [Bool.not_true, Bool.false_eq_true, if_false]
    rcases h2 : pop_result rest1 with ⟨ok2, rest2⟩
    cases ok2 with
    | false => exact ⟨_, _, rfl, rfl, rfl, Or.inl ⟨rfl, rfl⟩⟩
    | true =>
      simp only [Bool.not_true, Bool.false_eq_true, if_false]
      unfold send_invite
      simp only [hc, ho]
      exact ⟨_, _, rfl, rfl, rfl, Or.inr ⟨_, _, _, _, _, rfl, rfl, rfl⟩⟩

/-- What `app_route_call` does for a call with an `initial` leg. -/
theorem app_route_call_spec (P : Build) (call : Nat) (s d : CStr) (w : World)
    (other : Leg) (ho : w.leg ⟨call, .initial⟩ = some other) :
    ∃ w', app_route_call P call s d w = .ok w' ∧ w'.conn = w.conn ∧
      w'.write_results = w.write_results ∧
      w'.leg ⟨call, .initial⟩ = some other ∧
      sent_frames w'.trace = sent_frames w.trace ∧
      released_legs w'.trace = released_legs w.trace ∧
      routed_calls w'.trace = routed_calls w.trace ++ [(call, s, d)] := by
  unfold app_route_call
  have hleg : (find_call (update_call call
      (fun c => some { c with source := s, dest := d }) w.calls) call).bind
      (fun c => c.slot .initial) = some other := by
    rw [leg_update_call_some w.calls (fun c => { c with source := s, dest := d })
      (fun _ => rfl) ⟨call, .initial⟩]
    exact ho
  cases hc : find_call (update_call call
      (fun c => some { c with source := s, dest := d }) w.calls) call with
  | none => simp [hc] at hleg
  | some c =>
    rw [hc] at hleg
    obtain ⟨rc, w', he, h1, h2, h3⟩ := sip_create_remote_leg_spec P call s d
      { w.log (.app_route_call call s d) with
        calls := update_call call (fun c => some { c with source := s, dest := d })
          (w.log (.app_route_call call s d)).calls } c other hc hleg
    simp only [pure, Except.pure, bind, Except.bind, he]
    refine ⟨w', rfl, h1, h2, ?_, ?_⟩
    · rcases h3 with ⟨hcalls, _⟩ | ⟨leg, _, _, _, _, hcalls, _, _⟩
      · unfold World.leg
        rw [hcalls]
        simp only [hc, World.log_calls]
        exact hleg
      · unfold World.leg
        rw [hcalls]
        simp only [World.log_calls]
        rw [leg_update_call_some _ (fun c => c.setSlot .remote (some (.sip leg)))
          (by simp) ⟨call, .initial⟩]
        rw [hc]
        exact hleg
    · rcases h3 with ⟨_, htr⟩ | ⟨_, _, _, _, _, _, _, htr⟩ <;>
        simp [htr, sent_frames_append, released_legs_append, routed_calls_append,
          sent_frames, released_legs, routed_calls]

/-! ## RTP_CREATE -/

theorem World.leg_mncc_write_ok (m : GsmMncc) (w : World) (r : LegRef) (hw : w.WriteOk) :
    (mncc_write m w).leg r = w.leg r := by
  rw [mncc_write_ok m w hw]; rfl

/-- The handler `check_rtp_create` on a frame that finds a live MNCC leg: the
media is recorded, `stop_cmd_timer` runs, and the call is continued, whatever
`rsp_wanted` is. -/
theorem check_rtp_create_found (P : Build) (buf : ReadBuf) (rc : Nat) (w : World) (r : LegRef)
    (l : MnccCallLeg) (hrc : P.sizeof_gsm_mncc_rtp ≤ rc)
    (hfind : mncc_find_leg buf.rtp.callref w.calls = some r)
    (hleg : w.leg r = some (.mncc l)) :
    check_rtp_create P buf rc w =
      continue_call P r
        (w.set_leg r (.mncc (stop_cmd_timer (record_media l buf.rtp) P.MNCC_RTP_CREATE))) := by
  unfold check_rtp_create
  rw [if_neg (by omega)]
  simp only [hfind]
  rw [upd_mncc_of_leg w r l _ hleg, ok_bind]
  rw [upd_mncc_of_leg _ r _ _ (World.leg_set_leg w r _ _ hleg), ok_bind]
  rw [World.set_leg_set_leg]
  rfl

/-- The function `continue_mo_call` on a live leg in the `initial` slot, the
write succeeding. -/
theorem continue_mo_call_spec (P : Build) (w : World) (r : LegRef) (l : MnccCallLeg)
    (hleg : w.leg r = some (.mncc l)) (hslot : r.slot = .initial) (hw : w.WriteOk) :
    ∃ w', continue_mo_call P r w = .ok w' ∧ w'.conn = w.conn ∧
      w'.leg r = some (.mncc { l with state := .MNCC_CC_PROCEEDING }) ∧
      sent_frames w'.trace = sent_frames w.trace ++ [(P.MNCC_CALL_PROC_REQ, l.callref)] ∧
      released_legs w'.trace = released_legs w.trace ∧
      routed_calls w'.trace =
        routed_calls w.trace ++ [(r.call, mo_source w.app l, mo_dest l)] := by
  obtain ⟨call, slot⟩ := r
  simp only at hslot
  subst hslot
  unfold continue_mo_call
  rw [World.mncc_leg_of_leg w _ l hleg, ok_bind]
  dsimp only
  rw [mncc_send_ok _ _ w hw]
  have h1 : World.leg { w with
      write_results := w.write_results.tail,
      trace := w.trace ++
        [.write_mncc { msg_type := P.MNCC_CALL_PROC_REQ, callref := l.callref }] }
      ⟨call, .initial⟩ = some (.mncc l) := hleg
  rw [upd_mncc_of_leg _ _ l _ h1, ok_bind]
  have h2 := World.leg_set_leg _ ⟨call, .initial⟩ _
    (.mncc { l with state := .MNCC_CC_PROCEEDING }) h1
  rw [World.mncc_leg_of_leg _ _ _ h2, ok_bind]
  obtain ⟨w', he, hc, _, hl, hs, hr, hro⟩ :=
    app_route_call_spec P call (mo_source w.app l) (mo_dest l) _ _ h2
  refine ⟨w', he, ?_, hl, ?_, ?_, ?_⟩
  · rw [hc]; rfl
  · rw [hs, World.set_leg_trace]
    simp [sent_frames_append, sent_frames]
  · rw [hr, World.set_leg_trace]
    simp [released_legs_append, released_legs]
  · rw [hro, World.set_leg_trace]
    simp [routed_calls_append, routed_calls]

/-! ## Successful outcomes -/

theorem OkAll.ok {α : Type} {Q : α → Prop} {a : α} (h : Q a) :
    OkAll (Except.ok a : Except Fault α) Q := by
  intro b hb; cases hb; exact h

theorem OkAll.pure {α : Type} {Q : α → Prop} {a : α} (h : Q a) :
    OkAll (pure a : Except Fault α) Q := OkAll.ok h

theorem OkAll.error {α : Type} {Q : α → Prop} {e : Fault} :
    OkAll (Except.error e : Except Fault α) Q := by
  intro b hb; cases hb

theorem OkAll.throw {α : Type} {Q : α → Prop} {e : Fault} :
    OkAll (throw e : Except Fault α) Q := OkAll.error

theorem OkAll.bind {α β : Type} {x : Except Fault α} {f : α → Except Fault β}
    {Q : α → Prop} {R : β → Prop} (hx : OkAll x Q) (hf : ∀ a, Q a → OkAll (f a) R) :
    OkAll (x >>= f) R := by
  intro b hb
  cases x with
  | error e => cases hb
  | ok a => exact hf a (hx a rfl) b hb

theorem OkAll.mono {α : Type} {x : Except Fault α} {Q R : α → Prop} (hx : OkAll x Q)
    (h : ∀ a, Q a → R a) : OkAll x R := fun a ha => h a (hx a ha)

/-! ## The timer discipline is kept by every operation -/

theorem start_cmd_timer_inv (l : MnccCallLeg) (t : Nat) (ht : t ≠ 0) :
    (start_cmd_timer l t).TimerInv := fun _ => ht

theorem stop_cmd_timer_inv (l : MnccCallLeg) (got : Nat) (h : l.TimerInv) :
    (stop_cmd_timer l got).TimerInv := by
  unfold stop_cmd_timer
  split
  · exact h
  · intro hc; exact absurd rfl hc

theorem Call.TimerInv_setSlot (c : Call) (s : Slot) (l : Option Leg) (h : c.TimerInv)
    (hl : ∀ x, l = some x → x.TimerInv) : (c.setSlot s l).TimerInv := by
  intro s2 l2 h2
  cases s <;> cases s2 <;> simp [Call.setSlot, Call.slot] at h2
  · exact hl _ h2
  · exact h .remote l2 h2
  · exact h .initial l2 h2
  · exact hl _ h2

theorem Call.TimerInv_release (c c2 : Call) (s : Slot) (h : c.TimerInv)
    (h2 : c.release s = some c2) : c2.TimerInv := by
  unfold Call.release at h2
  simp only at h2
  split at h2
  · cases h2
  · cases h2
    exact Call.TimerInv_setSlot c s none h (fun x hx => by cases hx)

theorem TimerInv_update_call (id : Nat) (f : Call → Option Call) (cs : List Call)
    (h : ∀ c ∈ cs, c.TimerInv) (hf : ∀ c c2, c.TimerInv → f c = some c2 → c2.TimerInv) :
    ∀ c ∈ update_call id f cs, c.TimerInv := by
  induction cs with
  | nil => intro c hc; cases hc
  | cons c0 cs ih =>
    have h0 := h c0 (List.mem_cons_self _ _)
    have hrest : ∀ c ∈ cs, c.TimerInv := fun c hc => h c (List.mem_cons_of_mem _ hc)
    rw [update_call_cons]
    split
    · cases hfc : f c0 with
      | none => exact hrest
      | some c2 =>
        intro c hc
        simp only [List.mem_cons] at hc
        rcases hc with rfl | hc
        · exact hf c0 _ h0 hfc
        · exact hrest c hc
    · intro c hc
      simp only [List.mem_cons] at hc
      rcases hc with rfl | hc
      · exact h0
      · exact ih hrest c hc

theorem World.TimerInv_of_calls (w w2 : World) (h : w.TimerInv) (hc : w2.calls = w.calls) :
    w2.TimerInv := by
  unfold World.TimerInv; rw [hc]; exact h

theorem World.TimerInv_leg (w : World) (h : w.TimerInv) (r : LegRef) (l : Leg)
    (hl : w.leg r = some l) : l.TimerInv := by
  unfold World.leg at hl
  cases hc : find_call w.calls r.call with
  | none => simp [hc] at hl
  | some c =>
    rw [hc] at hl
    exact h c (List.mem_of_find?_eq_some hc) r.slot l hl

theorem World.TimerInv_set_leg (w : World) (h : w.TimerInv) (r : LegRef) (l : Leg)
    (hl : l.TimerInv) : (w.set_leg r l).TimerInv :=
  TimerInv_update_call _ _ _ h
    (fun c c2 hc h2 => by
      cases h2
      exact Call.TimerInv_setSlot c r.slot _ hc (fun x hx => by cases hx; exact hl))

theorem TimerInv_app_mncc_disconnected (w : World) (h : w.TimerInv) :
    (app_mncc_disconnected w).TimerInv := by
  intro c hc
  rw [app_mncc_disconnected_calls] at hc
  exact h c (List.mem_of_mem_filter hc)

theorem TimerInv_close_connection (w : World) (h : w.TimerInv) :
    (close_connection w).TimerInv := fun c hc =>
  h c ((close_connection_calls_sublist w).subset hc)

theorem TimerInv_mncc_write (m : GsmMncc) (w : World) (h : w.TimerInv) :
    (mncc_write m w).TimerInv := by
  unfold mncc_write
  rcases pop_result w.write_results with ⟨ok, rest⟩
  cases ok
  · exact TimerInv_close_connection _ h
  · exact h

theorem TimerInv_mncc_send (t c : Nat) (w : World) (h : w.TimerInv) :
    (mncc_send t c w).TimerInv := TimerInv_mncc_write _ w h

theorem TimerInv_mncc_rtp_send (t c : Nat) (w : World) (h : w.TimerInv) :
    (mncc_rtp_send t c w).TimerInv := by
  unfold mncc_rtp_send
  rcases pop_result w.write_results with ⟨ok, rest⟩
  cases ok
  · exact TimerInv_close_connection _ h
  · exact h

theorem deref_inv (w : World) (h : w.TimerInv) (r : LegRef) :
    OkAll (w.deref r) Leg.TimerInv := by
  intro l hl
  unfold World.deref at hl
  split at hl
  · cases hl; exact World.TimerInv_leg w h r _ (by assumption)
  · cases hl

theorem mncc_leg_inv (w : World) (h : w.TimerInv) (r : LegRef) :
    OkAll (w.mncc_leg r) MnccCallLeg.TimerInv := by
  intro l hl
  unfold World.mncc_leg at hl
  split at hl
  · cases hl; exact World.TimerInv_leg w h r (.mncc l) (by assumption)
  · cases hl
  · cases hl

theorem upd_mncc_inv (r : LegRef) (f : MnccCallLeg → MnccCallLeg) (w : World)
    (h : w.TimerInv) (hf : ∀ l, l.TimerInv → (f l).TimerInv) :
    OkAll (upd_mncc r f w) World.TimerInv := by
  intro w2 h2
  unfold upd_mncc at h2
  cases hl : w.mncc_leg r with
  | error e => rw [hl] at h2; cases h2
  | ok l =>
    rw [hl] at h2
    cases h2
    exact World.TimerInv_set_leg w h r _ (hf l (mncc_leg_inv w h r l hl))

theorem call_leg_release_inv (r : LegRef) (w : World) (h : w.TimerInv) :
    OkAll (call_leg_release r w) World.TimerInv := by
  intro w2 h2
  unfold call_leg_release at h2
  split at h2
  · cases h2
  · cases h2
    exact TimerInv_update_call _ _ _ h (fun c c2 hc hr => Call.TimerInv_release c c2 _ hc hr)

theorem mncc_leg_release_inv (r : LegRef) (w : World) (h : w.TimerInv) :
    OkAll (mncc_leg_release r w) World.TimerInv := by
  unfold mncc_leg_release
  exact OkAll.bind (upd_mncc_inv r _ w h (fun l _ hc => absurd rfl hc))
    (fun w1 h1 => call_leg_release_inv r w1 h1)

theorem call_leg_other_inv (r : LegRef) (w : World) :
    OkAll (call_leg_other r w) (fun _ => True) := fun _ _ => trivial

theorem send_rtp_connect_inv (P : Build) (leg other : LegRef) (w : World) (h : w.TimerInv) :
    OkAll (send_rtp_connect P leg other w) (fun p => p.2.TimerInv) := by
  unfold send_rtp_connect
  refine OkAll.bind (mncc_leg_inv w h leg) (fun l _ => ?_)
  refine OkAll.bind (deref_inv w h other) (fun o _ => ?_)
  rcases pop_result w.write_results with ⟨ok, rest⟩
  cases ok
  · exact OkAll.pure (TimerInv_close_connection _ h)
  · exact OkAll.pure h

theorem mncc_call_leg_connect_inv (P : Build) (hP : P.AwaitedNonzero) (r : LegRef) (w : World)
    (h : w.TimerInv) : OkAll (mncc_call_leg_connect P r w) World.TimerInv := by
  unfold mncc_call_leg_connect
  refine OkAll.bind (mncc_leg_inv w h r) (fun _ _ => ?_)
  refine OkAll.bind (call_leg_other_inv r w) (fun o _ => ?_)
  cases o with
  | none => exact OkAll.throw
  | some other =>
    refine OkAll.bind (send_rtp_connect_inv P r other w h) (fun p hp => ?_)
    obtain ⟨ok, w1⟩ := p
    cases ok
    · exact OkAll.pure hp
    · refine OkAll.bind (upd_mncc_inv r _ w1 hp
        (fun l _ => start_cmd_timer_inv l _ (hP _ (by simp [Build.awaited])))) (fun w2 h2 => ?_)
      refine OkAll.bind (mncc_leg_inv w2 h2 r) (fun l _ => ?_)
      exact OkAll.pure (TimerInv_mncc_send _ _ _ h2)

theorem mncc_call_leg_ring_inv (P : Build) (r : LegRef) (w : World)
    (h : w.TimerInv) : OkAll (mncc_call_leg_ring P r w) World.TimerInv := by
  unfold mncc_call_leg_ring
  refine OkAll.bind (mncc_leg_inv w h r) (fun l _ => ?_)
  have h1 := TimerInv_mncc_write
    { msg_type := P.MNCC_ALERT_REQ, callref := l.callref, fields := 0 ||| P.MNCC_F_PROGRESS,
      progress := { coding := 3, location := 1, descr := 8 } } w h
  refine OkAll.bind (call_leg_other_inv r _) (fun o _ => ?_)
  cases o with
  | none => exact OkAll.pure h1
  | some other =>
    refine OkAll.bind (deref_inv _ h1 other) (fun o _ => ?_)
    dsimp only
    split
    · refine OkAll.bind (send_rtp_connect_inv P r other _ h1) (fun p hp => ?_)
      exact OkAll.pure hp
    · exact OkAll.pure h1

theorem in_release_inv (l : MnccCallLeg) (h : l.TimerInv) :
    MnccCallLeg.TimerInv { l with base := { l.base with in_release := true } } := h

theorem mncc_call_leg_release_inv (P : Build) (hP : P.AwaitedNonzero) (r : LegRef) (w : World)
    (h : w.TimerInv) : OkAll (mncc_call_leg_release P r w) World.TimerInv := by
  unfold mncc_call_leg_release
  refine OkAll.bind (mncc_leg_inv w h r) (fun leg _ => ?_)
  split
  · exact mncc_leg_release_inv r w h
  · split
    · split
      · refine OkAll.bind (upd_mncc_inv r _ _ (TimerInv_mncc_send _ _ w h)
          (fun l _ hc => absurd rfl hc)) (fun w2 h2 => ?_)
        exact mncc_leg_release_inv r w2 h2
      · refine OkAll.bind (upd_mncc_inv r _ w h in_release_inv) (fun w1 h1 => ?_)
        refine OkAll.bind (upd_mncc_inv r _ w1 h1
          (fun l _ => start_cmd_timer_inv l _ (hP _ (by simp [Build.awaited])))) (fun w2 h2 => ?_)
        refine OkAll.bind (mncc_leg_inv w2 h2 r) (fun l _ => ?_)
        exact OkAll.pure (TimerInv_mncc_send _ _ _ h2)
    · refine OkAll.bind (upd_mncc_inv r _ w h in_release_inv) (fun w1 h1 => ?_)
      refine OkAll.bind (upd_mncc_inv r _ w1 h1
        (fun l _ => start_cmd_timer_inv l _ (hP _ (by simp [Build.awaited])))) (fun w2 h2 => ?_)
      refine OkAll.bind (mncc_leg_inv w2 h2 r) (fun l _ => ?_)
      exact OkAll.pure (TimerInv_mncc_send _ _ _ h2)
    · refine OkAll.bind (upd_mncc_inv r _ w h in_release_inv) (fun w1 h1 => ?_)
      refine OkAll.bind (upd_mncc_inv r _ w1 h1
        (fun l _ => start_cmd_timer_inv l _ (hP _ (by simp [Build.awaited])))) (fun w2 h2 => ?_)
      refine OkAll.bind (mncc_leg_inv w2 h2 r) (fun l _ => ?_)
      exact OkAll.pure (TimerInv_mncc_send _ _ _ h2)

theorem sip_release_call_inv (r : LegRef) (w : World) (h : w.TimerInv) :
    OkAll (sip_release_call r w) World.TimerInv := by
  unfold sip_release_call
  split
  · exact OkAll.error
  · exact OkAll.error
  · split
    · exact call_leg_release_inv r _ h
    · exact OkAll.ok h
    · exact OkAll.ok h

theorem call_fn_inv (P : Build) (hP : P.AwaitedNonzero) (f : Option LegFn) (r : LegRef)
    (w : World) (h : w.TimerInv) : OkAll (call_fn P f r w) World.TimerInv := by
  unfold call_fn
  split
  · exact OkAll.error
  · exact mncc_call_leg_connect_inv P hP r w h
  · exact mncc_call_leg_ring_inv P r w h
  · exact mncc_call_leg_release_inv P hP r w h
  · exact sip_release_call_inv r w h

theorem invoke_release_call_inv (P : Build) (hP : P.AwaitedNonzero) (r : LegRef)
    (w : World) (h : w.TimerInv) : OkAll (invoke_release_call P r w) World.TimerInv := by
  unfold invoke_release_call
  exact OkAll.bind (deref_inv w h r) (fun l _ => call_fn_inv P hP _ r _ h)

theorem invoke_ring_call_inv (P : Build) (hP : P.AwaitedNonzero) (r : LegRef)
    (w : World) (h : w.TimerInv) : OkAll (invoke_ring_call P r w) World.TimerInv := by
  unfold invoke_ring_call
  exact OkAll.bind (deref_inv w h r) (fun l _ => call_fn_inv P hP _ r _ h)

theorem invoke_connect_call_inv (P : Build) (hP : P.AwaitedNonzero) (r : LegRef)
    (w : World) (h : w.TimerInv) : OkAll (invoke_connect_call P r w) World.TimerInv := by
  unfold invoke_connect_call
  exact OkAll.bind (deref_inv w h r) (fun l _ => call_fn_inv P hP _ r _ h)

theorem release_other_inv (P : Build) (hP : P.AwaitedNonzero) (r : LegRef)
    (w : World) (h : w.TimerInv) : OkAll (release_other P r w) World.TimerInv := by
  unfold release_other
  refine OkAll.bind (call_leg_other_inv r w) (fun o _ => ?_)
  cases o with
  | none => exact OkAll.pure h
  | some other => exact invoke_release_call_inv P hP other w h

theorem cmd_timeout_inv (P : Build) (hP : P.AwaitedNonzero) (r : LegRef)
    (w : World) (h : w.TimerInv) : OkAll (cmd_timeout P r w) World.TimerInv := by
  unfold cmd_timeout
  exact OkAll.bind (release_other_inv P hP r w h) (fun w1 h1 => mncc_leg_release_inv r w1 h1)

theorem fire_cmd_timer_inv (P : Build) (hP : P.AwaitedNonzero) (r : LegRef)
    (w : World) (h : w.TimerInv) : OkAll (fire_cmd_timer P r w) World.TimerInv := by
  unfold fire_cmd_timer
  refine OkAll.bind (mncc_leg_inv w h r) (fun l _ => ?_)
  split
  · exact OkAll.pure h
  · exact OkAll.bind (upd_mncc_inv r _ w h (fun l _ hc => absurd rfl hc))
      (fun w1 h1 => cmd_timeout_inv P hP r w1 h1)

theorem send_invite_inv (P : Build) (call : Nat) (leg : SipCallLeg) (s d : CStr) (w : World)
    (h : w.TimerInv) : OkAll (send_invite P call leg s d w) (fun p => p.2.TimerInv) := by
  unfold send_invite
  split
  · exact OkAll.error
  · split
    · exact OkAll.error
    · refine OkAll.ok ?_
      exact TimerInv_update_call _ _ _ h (fun c c2 hc h2 => by
        cases h2
        exact Call.TimerInv_setSlot c .remote _ hc (fun x hx => by cases hx; trivial))

theorem sip_create_remote_leg_inv (P : Build) (call : Nat) (s d : CStr) (w : World)
    (h : w.TimerInv) : OkAll (sip_create_remote_leg P call s d w) (fun p => p.2.TimerInv) := by
  unfold sip_create_remote_leg
  rcases pop_result w.alloc_results with ⟨ok1, rest1⟩
  cases ok1
  · exact OkAll.ok h
  · dsimp only
    rcases pop_result rest1 with ⟨ok2, rest2⟩
    cases ok2
    · exact OkAll.ok h
    · exact send_invite_inv P call _ s d _ h

theorem app_route_call_inv (P : Build) (call : Nat) (s d : CStr) (w : World)
    (h : w.TimerInv) : OkAll (app_route_call P call s d w) World.TimerInv := by
  unfold app_route_call
  have h1 : World.TimerInv { w.log (.app_route_call call s d) with
      calls := update_call call (fun c => some { c with source := s, dest := d })
        (w.log (.app_route_call call s d)).calls } :=
    TimerInv_update_call _ _ _ h (fun c c2 hc h2 => by
      cases h2
      exact fun sl l hl => hc sl l (by cases sl <;> exact hl))
  refine OkAll.bind (sip_create_remote_leg_inv P call s d _ h1) (fun p hp => ?_)
  exact OkAll.pure hp

theorem continue_mo_call_inv (P : Build) (r : LegRef) (w : World)
    (h : w.TimerInv) : OkAll (continue_mo_call P r w) World.TimerInv := by
  unfold continue_mo_call
  refine OkAll.bind (mncc_leg_inv w h r) (fun l _ => ?_)
  refine OkAll.bind (upd_mncc_inv r _ _ (TimerInv_mncc_send _ _ w h) (fun l hl => hl))
    (fun w2 h2 => ?_)
  refine OkAll.bind (mncc_leg_inv w2 h2 r) (fun l2 _ => ?_)
  exact app_route_call_inv P _ _ _ w2 h2

theorem Leg.TimerInv_setBase (l : Leg) (b : CallLeg) (h : l.TimerInv) :
    (l.setBase b).TimerInv := by
  cases l with
  | mncc m => exact h
  | sip _ => trivial

theorem continue_mt_call_inv (r : LegRef) (w : World)
    (h : w.TimerInv) : OkAll (continue_mt_call r w) World.TimerInv := by
  unfold continue_mt_call
  refine OkAll.bind (call_leg_other_inv r w) (fun o _ => ?_)
  cases o with
  | none => exact OkAll.pure h
  | some other =>
    refine OkAll.bind (deref_inv w h r) (fun l _ => ?_)
    refine OkAll.bind (deref_inv w h other) (fun o ho => ?_)
    exact OkAll.pure (World.TimerInv_set_leg w h other _ (Leg.TimerInv_setBase o _ ho))

theorem continue_call_inv (P : Build) (r : LegRef) (w : World)
    (h : w.TimerInv) : OkAll (continue_call P r w) World.TimerInv := by
  unfold continue_call
  refine OkAll.bind (mncc_leg_inv w h r) (fun l _ => ?_)
  split
  · exact continue_mo_call_inv P r w h
  · exact continue_mt_call_inv r w h

theorem check_rtp_connect_inv (P : Build) (hP : P.AwaitedNonzero) (buf : ReadBuf) (rc : Nat)
    (w : World) (h : w.TimerInv) : OkAll (check_rtp_connect P buf rc w) World.TimerInv := by
  unfold check_rtp_connect
  split
  · exact OkAll.pure (TimerInv_close_connection w h)
  · dsimp only
    split
    · exact OkAll.pure (TimerInv_mncc_send _ _ w h)
    · split
      · exact OkAll.pure h
      · exact OkAll.bind (release_other_inv P hP _ w h)
          (fun w1 h1 => invoke_release_call_inv P hP _ w1 h1)

theorem record_media_inv (rtp : GsmMnccRtp) (l : MnccCallLeg) (h : l.TimerInv) :
    MnccCallLeg.TimerInv { l with base := { l.base with
      ip := rtp.ip, port := rtp.port, payload_type := rtp.payload_type,
      payload_msg_type := rtp.payload_msg_type } } := h

theorem check_rtp_create_inv (P : Build) (buf : ReadBuf) (rc : Nat)
    (w : World) (h : w.TimerInv) : OkAll (check_rtp_create P buf rc w) World.TimerInv := by
  unfold check_rtp_create
  split
  · exact OkAll.pure (TimerInv_close_connection w h)
  · dsimp only
    split
    · exact OkAll.pure (TimerInv_mncc_send _ _ w h)
    · refine OkAll.bind (upd_mncc_inv _ _ w h (record_media_inv buf.rtp)) (fun w1 h1 => ?_)
      refine OkAll.bind (upd_mncc_inv _ _ w1 h1 (fun l hl => stop_cmd_timer_inv l _ hl))
        (fun w2 h2 => ?_)
      exact continue_call_inv P _ w2 h2

theorem TimerInv_call_mncc_create (w : World) (h : w.TimerInv) :
    (call_mncc_create w).2.TimerInv := by
  unfold call_mncc_create
  rcases pop_result w.alloc_results with ⟨ok, rest⟩
  cases ok
  · exact h
  · intro c hc
    have hc2 : c = { id := w.last_call_id + 1, initial := some (.mncc {}) } ∨ c ∈ w.calls :=
      List.mem_cons.mp hc
    rcases hc2 with hc2 | hc2
    · intro s l hl
      rw [hc2] at hl
      cases s <;> simp [Call.slot] at hl
      subst hl
      exact fun hc => absurd rfl hc
    · exact h c hc2

theorem check_setup_inv (P : Build) (hP : P.AwaitedNonzero) (buf : ReadBuf) (rc : Nat)
    (w : World) (h : w.TimerInv) : OkAll (check_setup P buf rc w) World.TimerInv := by
  unfold check_setup
  split
  · exact OkAll.pure (TimerInv_close_connection w h)
  · dsimp only
    split
    · exact OkAll.pure (TimerInv_mncc_send _ _ w h)
    · split
      · exact OkAll.pure (TimerInv_mncc_send _ _ w h)
      · split
        · exact OkAll.pure (TimerInv_mncc_send _ _ w h)
        · have hc := TimerInv_call_mncc_create w h
          split
          · rename_i w1 heq
            rw [heq] at hc
            exact OkAll.pure (TimerInv_mncc_send _ _ w1 hc)
          · rename_i call w1 heq
            rw [heq] at hc
            refine OkAll.bind (upd_mncc_inv _ _ w1 hc (fun l hl => hl)) (fun w2 h2 => ?_)
            refine OkAll.bind (upd_mncc_inv _ _ w2 h2
              (fun l _ => start_cmd_timer_inv l _ (hP _ (by simp [Build.awaited]))))
              (fun w3 h3 => ?_)
            exact OkAll.pure (TimerInv_mncc_rtp_send _ _ w3 h3)

theorem TimerInv_find_leg (P : Build) (buf : ReadBuf) (rc : Nat) (w : World) (h : w.TimerInv) :
    (find_leg P buf rc w).2.TimerInv := by
  unfold find_leg
  split
  · exact TimerInv_close_connection w h
  · exact h

theorem check_disc_ind_inv (P : Build) (hP : P.AwaitedNonzero) (buf : ReadBuf) (rc : Nat)
    (w : World) (h : w.TimerInv) : OkAll (check_disc_ind P buf rc w) World.TimerInv := by
  have hf := TimerInv_find_leg P buf rc w h
  unfold check_disc_ind
  split
  all_goals (rename_i heq; rw [heq] at hf)
  · exact OkAll.pure hf
  · refine OkAll.bind (upd_mncc_inv _ _ _ hf in_release_inv) (fun w1 h1 => ?_)
    refine OkAll.bind (upd_mncc_inv _ _ w1 h1
      (fun l _ => start_cmd_timer_inv l _ (hP _ (by simp [Build.awaited])))) (fun w2 h2 => ?_)
    refine OkAll.bind (mncc_leg_inv w2 h2 _) (fun l _ => ?_)
    exact release_other_inv P hP _ _ (TimerInv_mncc_send _ _ w2 h2)

theorem check_rel_ind_inv (P : Build) (hP : P.AwaitedNonzero) (buf : ReadBuf) (rc : Nat)
    (w : World) (h : w.TimerInv) : OkAll (check_rel_ind P buf rc w) World.TimerInv := by
  have hf := TimerInv_find_leg P buf rc w h
  unfold check_rel_ind
  split
  all_goals (rename_i heq; rw [heq] at hf)
  · exact OkAll.pure hf
  · refine OkAll.bind (mncc_leg_inv _ hf _) (fun l _ => ?_)
    refine OkAll.bind ?_ (fun w1 h1 => mncc_leg_release_inv _ w1 h1)
    split
    · exact upd_mncc_inv _ _ _ hf (fun l hl => stop_cmd_timer_inv l _ hl)
    · exact release_other_inv P hP _ _ hf

theorem check_rel_cnf_inv (P : Build) (buf : ReadBuf) (rc : Nat)
    (w : World) (h : w.TimerInv) : OkAll (check_rel_cnf P buf rc w) World.TimerInv := by
  have hf := TimerInv_find_leg P buf rc w h
  unfold check_rel_cnf
  split
  all_goals (rename_i heq; rw [heq] at hf)
  · exact OkAll.pure hf
  · exact OkAll.bind (upd_mncc_inv _ _ _ hf (fun l hl => stop_cmd_timer_inv l _ hl))
      (fun w1 h1 => mncc_leg_release_inv _ w1 h1)

theorem check_stp_cmpl_ind_inv (P : Build) (buf : ReadBuf) (rc : Nat)
    (w : World) (h : w.TimerInv) : OkAll (check_stp_cmpl_ind P buf rc w) World.TimerInv := by
  have hf := TimerInv_find_leg P buf rc w h
  unfold check_stp_cmpl_ind
  split
  all_goals (rename_i heq; rw [heq] at hf)
  · exact OkAll.pure hf
  · exact OkAll.bind (upd_mncc_inv _ _ _ hf (fun l hl => stop_cmd_timer_inv l _ hl))
      (fun w1 h1 => upd_mncc_inv _ _ w1 h1 (fun l hl => hl))

theorem check_rej_ind_inv (P : Build) (hP : P.AwaitedNonzero) (buf : ReadBuf) (rc : Nat)
    (w : World) (h : w.TimerInv) : OkAll (check_rej_ind P buf rc w) World.TimerInv := by
  have hf := TimerInv_find_leg P buf rc w h
  unfold check_rej_ind
  split
  all_goals (rename_i heq; rw [heq] at hf)
  · exact OkAll.pure hf
  · exact OkAll.bind (release_other_inv P hP _ _ hf)
      (fun w1 h1 => mncc_leg_release_inv _ w1 h1)

theorem check_cnf_ind_inv (P : Build) (hP : P.AwaitedNonzero) (buf : ReadBuf) (rc : Nat)
    (w : World) (h : w.TimerInv) : OkAll (check_cnf_ind P buf rc w) World.TimerInv := by
  have hf := TimerInv_find_leg P buf rc w h
  unfold check_cnf_ind
  split
  all_goals (rename_i heq; rw [heq] at hf)
  · exact OkAll.pure hf
  · refine OkAll.bind (upd_mncc_inv _ _ _ hf
      (fun l _ => start_cmd_timer_inv l _ (hP _ (by simp [Build.awaited])))) (fun w1 h1 => ?_)
    exact OkAll.pure (TimerInv_mncc_rtp_send _ _ w1 h1)

theorem check_alrt_ind_inv (P : Build) (hP : P.AwaitedNonzero) (buf : ReadBuf) (rc : Nat)
    (w : World) (h : w.TimerInv) : OkAll (check_alrt_ind P buf rc w) World.TimerInv := by
  have hf := TimerInv_find_leg P buf rc w h
  unfold check_alrt_ind
  split
  all_goals (rename_i heq; rw [heq] at hf)
  · exact OkAll.pure hf
  · refine OkAll.bind (call_leg_other_inv _ _) (fun o _ => ?_)
    cases o with
    | none => exact mncc_call_leg_release_inv P hP _ _ hf
    | some other => exact invoke_ring_call_inv P hP other _ hf

theorem check_hold_ind_inv (P : Build) (buf : ReadBuf) (rc : Nat)
    (w : World) (h : w.TimerInv) : OkAll (check_hold_ind P buf rc w) World.TimerInv := by
  have hf := TimerInv_find_leg P buf rc w h
  unfold check_hold_ind
  split
  all_goals (rename_i heq; rw [heq] at hf)
  · exact OkAll.pure hf
  · refine OkAll.bind (mncc_leg_inv _ hf _) (fun l _ => ?_)
    exact OkAll.pure (TimerInv_mncc_send _ _ _ hf)

theorem check_stp_cnf_inv (P : Build) (hP : P.AwaitedNonzero) (buf : ReadBuf) (rc : Nat)
    (w : World) (h : w.TimerInv) : OkAll (check_stp_cnf P buf rc w) World.TimerInv := by
  have hf := TimerInv_find_leg P buf rc w h
  unfold check_stp_cnf
  split
  all_goals (rename_i heq; rw [heq] at hf)
  · exact OkAll.pure hf
  · refine OkAll.bind (call_leg_other_inv _ _) (fun o _ => ?_)
    cases o with
    | none => exact mncc_call_leg_release_inv P hP _ _ hf
    | some other =>
      refine OkAll.bind (send_rtp_connect_inv P _ other _ hf) (fun p hp => ?_)
      obtain ⟨ok, w1⟩ := p
      cases ok
      · exact OkAll.pure hp
      · refine OkAll.bind (upd_mncc_inv _ _ w1 hp (fun l hl => hl)) (fun w2 h2 => ?_)
        refine OkAll.bind (mncc_leg_inv w2 h2 _) (fun l _ => ?_)
        exact invoke_connect_call_inv P hP other _ (TimerInv_mncc_send _ _ w2 h2)

theorem check_dtmf_start_inv (P : Build) (buf : ReadBuf) (rc : Nat)
    (w : World) (h : w.TimerInv) : OkAll (check_dtmf_start P buf rc w) World.TimerInv := by
  have hf := TimerInv_find_leg P buf rc w h
  unfold check_dtmf_start
  split
  all_goals (rename_i heq; rw [heq] at hf)
  · exact OkAll.pure hf
  · dsimp only
    refine OkAll.bind (Q := World.TimerInv) ?_ (fun w1 h1 => ?_)
    · refine OkAll.bind (call_leg_other_inv _ _) (fun o _ => ?_)
      cases o with
      | none => exact OkAll.pure hf
      | some other =>
        refine OkAll.bind (deref_inv _ hf other) (fun o _ => ?_)
        dsimp only
        split
        · exact OkAll.pure hf
        · exact OkAll.pure hf
    · refine OkAll.bind (mncc_leg_inv w1 h1 _) (fun l _ => ?_)
      exact OkAll.pure (TimerInv_mncc_write _ w1 h1)

theorem check_dtmf_stop_inv (P : Build) (buf : ReadBuf) (rc : Nat)
    (w : World) (h : w.TimerInv) : OkAll (check_dtmf_stop P buf rc w) World.TimerInv := by
  have hf := TimerInv_find_leg P buf rc w h
  unfold check_dtmf_stop
  split
  all_goals (rename_i heq; rw [heq] at hf)
  · exact OkAll.pure hf
  · dsimp only
    refine OkAll.bind (mncc_leg_inv _ hf _) (fun l _ => ?_)
    exact OkAll.pure (TimerInv_mncc_write _ _ hf)

theorem TimerInv_check_hello (P : Build) (buf : ReadBuf) (rc : Nat) (w : World)
    (h : w.TimerInv) : (check_hello P buf rc w).TimerInv := by
  unfold check_hello
  split
  · exact TimerInv_close_connection w h
  · split
    · exact TimerInv_close_connection w h
    · exact h

/-- Every read handled by `mncc_data` keeps the timer discipline. -/
theorem mncc_data_inv (P : Build) (hP : P.AwaitedNonzero) (buf : ReadBuf)
    (w : World) (h : w.TimerInv) : OkAll (mncc_data P buf w) World.TimerInv := by
  unfold mncc_data
  by_cases h0 : buf.rc ≤ 0
  · rw [if_pos h0]; exact OkAll.pure (TimerInv_close_connection w h)
  rw [if_neg h0]
  by_cases h4 : buf.rc ≤ 4
  · rw [if_pos h4]; exact OkAll.pure (TimerInv_close_connection w h)
  rw [if_neg h4]
  dsimp only
  by_cases ht : buf.msg_type = P.MNCC_SOCKET_HELLO
  · rw [if_pos ht]; exact OkAll.pure (TimerInv_check_hello P buf _ w h)
  rw [if_neg ht]
  clear ht
  by_cases ht : buf.msg_type = P.MNCC_SETUP_IND
  · rw [if_pos ht]; exact check_setup_inv P hP buf _ w h
  rw [if_neg ht]
  clear ht
  by_cases ht : buf.msg_type = P.MNCC_RTP_CREATE
  · rw [if_pos ht]; exact check_rtp_create_inv P buf _ w h
  rw [if_neg ht]
  clear ht
  by_cases ht : buf.msg_type = P.MNCC_RTP_CONNECT
  · rw [if_pos ht]; exact check_rtp_connect_inv P hP buf _ w h
  rw [if_neg ht]
  clear ht
  by_cases ht : buf.msg_type = P.MNCC_DISC_IND
  · rw [if_pos ht]; exact check_disc_ind_inv P hP buf _ w h
  rw [if_neg ht]
  clear ht
  by_cases ht : buf.msg_type = P.MNCC_REL_IND
  · rw [if_pos ht]; exact check_rel_ind_inv P hP buf _ w h
  rw [if_neg ht]
  clear ht
  by_cases ht : buf.msg_type = P.MNCC_REJ_IND
  · rw [if_pos ht]; exact check_rej_ind_inv P hP buf _ w h
  rw [if_neg ht]
  clear ht
  by_cases ht : buf.msg_type = P.MNCC_REL_CNF
  · rw [if_pos ht]; exact check_rel_cnf_inv P buf _ w h
  rw [if_neg ht]
  clear ht
  by_cases ht : buf.msg_type = P.MNCC_SETUP_COMPL_IND
  · rw [if_pos ht]; exact check_stp_cmpl_ind_inv P buf _ w h
  rw [if_neg ht]
  clear ht
  by_cases ht : buf.msg_type = P.MNCC_SETUP_CNF
  · rw [if_pos ht]; exact check_stp_cnf_inv P hP buf _ w h
  rw [if_neg ht]
  clear ht
  by_cases ht : buf.msg_type = P.MNCC_CALL_CONF_IND
  · rw [if_pos ht]; exact check_cnf_ind_inv P hP buf _ w h
  rw [if_neg ht]
  clear ht
  by_cases ht : buf.msg_type = P.MNCC_ALERT_IND
  · rw [if_pos ht]; exact check_alrt_ind_inv P hP buf _ w h
  rw [if_neg ht]
  clear ht
  by_cases ht : buf.msg_type = P.MNCC_HOLD_IND
  · rw [if_pos ht]; exact check_hold_ind_inv P buf _ w h
  rw [if_neg ht]
  clear ht
  by_cases ht : buf.msg_type = P.MNCC_START_DTMF_IND
  · rw [if_pos ht]; exact check_dtmf_start_inv P buf _ w h
  rw [if_neg ht]
  clear ht
  by_cases ht : buf.msg_type = P.MNCC_STOP_DTMF_IND
  · rw [if_pos ht]; exact check_dtmf_stop_inv P buf _ w h
  rw [if_neg ht]
  clear ht
  exact OkAll.pure h

/-- The timer discipline holds in every reachable state. -/
theorem Reachable.timerInv (P : Build) (hP : P.AwaitedNonzero) (w : World)
    (h : Reachable P w) : w.TimerInv := by
  induction h with
  | start w h0 => intro c hc; rw [h0] at hc; cases hc
  | data w w' buf _ he ih => exact mncc_data_inv P hP buf w ih w' he
  | timer_fires w w' leg _ he ih => exact fire_cmd_timer_inv P hP leg w ih w' he
  | capability w w' f leg _ he ih => exact call_fn_inv P hP (some f) leg w ih w' he
  | start_cmd_timer w w' leg t _ ht he ih =>
    exact upd_mncc_inv leg _ w ih (fun l _ => start_cmd_timer_inv l t (hP t ht)) w' he
  | stop_cmd_timer w w' leg got _ he ih =>
    exact upd_mncc_inv leg _ w ih (fun l hl => stop_cmd_timer_inv l got hl) w' he

/-! ## Lookup by callref -/

/-- What `mncc_find_leg` returns, on one list node: the slot of the first MNCC
leg of the call with this callref. -/
theorem mncc_find_leg_cons (callref : Nat) (c : Call) (cs : List Call) (r : LegRef)
    (h : mncc_find_leg callref (c :: cs) = some r) :
    (r.call = c.id ∧ ∃ l, c.slot r.slot = some (.mncc l) ∧ l.callref = callref) ∨
    mncc_find_leg callref cs = some r := by
  unfold mncc_find_leg at h
  split at h
  · rename_i l hi
    split at h
    · rename_i hc
      cases h
      exact Or.inl ⟨rfl, l, hi, by simpa using hc⟩
    · split at h
      · rename_i l2 hr
        split at h
        · rename_i hc
          cases h
          exact Or.inl ⟨rfl, l2, hr, by simpa using hc⟩
        · exact Or.inr h
      · exact Or.inr h
  · split at h
    · rename_i l2 hr
      split at h
      · rename_i hc
        cases h
        exact Or.inl ⟨rfl, l2, hr, by simpa using hc⟩
      · exact Or.inr h
    · exact Or.inr h

theorem mncc_find_leg_mem (callref : Nat) (cs : List Call) (r : LegRef)
    (h : mncc_find_leg callref cs = some r) : r.call ∈ cs.map (fun c => c.id) := by
  induction cs with
  | nil => cases h
  | cons c cs ih =>
    rcases mncc_find_leg_cons callref c cs r h with ⟨hc, _⟩ | h2
    · rw [List.map_cons, hc]
      exact List.mem_cons_self _ _
    · exact List.mem_cons_of_mem _ (ih h2)

theorem mncc_find_leg_slot (callref : Nat) (cs : List Call) (r : LegRef)
    (hu : (cs.map (fun c => c.id)).Nodup) (h : mncc_find_leg callref cs = some r) :
    ∃ l, (find_call cs r.call).bind (fun c => c.slot r.slot) = some (.mncc l) ∧
      l.callref = callref := by
  induction cs with
  | nil => cases h
  | cons c cs ih =>
    simp only [List.map_cons, List.nodup_cons] at hu
    rcases mncc_find_leg_cons callref c cs r h with ⟨hc, l, hl, hcr⟩ | h2
    · refine ⟨l, ?_, hcr⟩
      rw [find_call_cons, if_pos hc.symm]
      exact hl
    · obtain ⟨l, hl, hcr⟩ := ih hu.2 h2
      refine ⟨l, ?_, hcr⟩
      have hne : c.id ≠ r.call := fun e => hu.1 (e ▸ mncc_find_leg_mem callref cs r h2)
      rw [find_call_cons, if_neg hne]
      exact hl

/-- In a registry with unique ids the pointer `mncc_find_leg` returns is live:
it points to an MNCC leg with the callref asked for. -/
theorem mncc_find_leg_leg (callref : Nat) (w : World) (r : LegRef) (hu : w.UniqueIds)
    (h : mncc_find_leg callref w.calls = some r) :
    ∃ l, w.leg r = some (.mncc l) ∧ l.callref = callref :=
  mncc_find_leg_slot callref w.calls r hu h

/-! ## The peer leg and `send_rtp_connect` -/

theorem call_leg_other_some (w : World) (r : LegRef) (l o : Leg) (h : w.leg r = some l)
    (ho : w.leg ⟨r.call, r.slot.other⟩ = some o) :
    call_leg_other r w = .ok (some ⟨r.call, r.slot.other⟩) := by
  simp [call_leg_other, h, ho]

theorem call_leg_other_none (w : World) (r : LegRef) (l : Leg) (h : w.leg r = some l)
    (ho : w.leg ⟨r.call, r.slot.other⟩ = none) :
    call_leg_other r w = .ok none := by
  simp [call_leg_other, h, ho]

theorem World.deref_of_leg (w : World) (r : LegRef) (l : Leg) (h : w.leg r = some l) :
    w.deref r = .ok l := by
  simp [World.deref, h]

theorem send_rtp_connect_ok (P : Build) (w : World) (r other : LegRef) (l : MnccCallLeg)
    (o : Leg) (h : w.leg r = some (.mncc l)) (ho : w.leg other = some o) (hw : w.WriteOk) :
    send_rtp_connect P r other w =
      .ok (true, { w with
        write_results := w.write_results.tail,
        trace := w.trace ++
          [.write_rtp { msg_type := P.MNCC_RTP_CONNECT, callref := l.callref,
                        ip := htonl P o.base.ip, port := o.base.port,
                        payload_type := o.base.payload_type }] }) := by
  unfold send_rtp_connect
  rw [World.mncc_leg_of_leg w r l h, ok_bind, World.deref_of_leg w other o ho, ok_bind]
  dsimp only
  rw [pop_result_ok _ hw]
  rfl

/-! ## Releasing the peer leg -/

theorem find_call_id (cs : List Call) (id : Nat) (c : Call) (h : find_call cs id = some c) :
    c.id = id := by
  have := List.find?_some h
  simpa using this

/-- The call a pointer denotes after `update_call` rewrote it. -/
theorem find_call_update_call_of_find (id : Nat) (f : Call → Option Call) (cs : List Call)
    (c c2 : Call) (hc : find_call cs id = some c) (hf : f c = some c2) (hid : c2.id = id) :
    find_call (update_call id f cs) id = some c2 := by
  induction cs with
  | nil => simp at hc
  | cons d cs ih =>
    rw [find_call_cons] at hc
    rw [update_call_cons]
    by_cases hd : d.id = id
    · rw [if_pos hd] at hc
      cases hc
      rw [if_pos hd, hf]
      simp only
      rw [find_call_cons, if_pos hid]
    · rw [if_neg hd] at hc
      rw [if_neg hd, find_call_cons, if_neg hd]
      exact ih hc

theorem update_call_ids_sublist (id : Nat) (f : Call → Option Call)
    (hf : ∀ c c2, f c = some c2 → c2.id = c.id) (cs : List Call) :
    ((update_call id f cs).map (fun c => c.id)).Sublist (cs.map (fun c => c.id)) := by
  induction cs with
  | nil => exact List.Sublist.refl _
  | cons d cs ih =>
    rw [update_call_cons]
    by_cases hd : d.id = id
    · rw [if_pos hd]
      cases hfd : f d with
      | none =>
        simp only [List.map_cons]
        exact List.sublist_cons_self _ _
      | some d2 =>
        simp only [List.map_cons, hf d d2 hfd]
        exact List.Sublist.refl _
    · rw [if_neg hd]
      simp only [List.map_cons]
      exact List.Sublist.cons₂ _ ih

theorem Call.release_other_of_slot (c : Call) (s : Slot) (l : Leg) (h : c.slot s = some l) :
    c.release s.other = some (c.setSlot s.other none) := by
  cases s <;> simp [Call.slot] at h <;> simp [Call.release, Call.setSlot, Slot.other, h]

theorem Call.slot_setSlot_of_other (c : Call) (s : Slot) (l : Option Leg) :
    (c.setSlot s.other l).slot s = c.slot s := by cases s <;> rfl

/-- A live leg stays as it is when the other leg of its call is released. -/
theorem World.leg_release_other (w : World) (r : LegRef) (l : Leg) (h : w.leg r = some l) :
    World.leg { w with calls := update_call r.call (fun c => c.release r.slot.other) w.calls } r
      = some l := by
  unfold World.leg at h ⊢
  cases hc : find_call w.calls r.call with
  | none => simp [hc] at h
  | some c =>
    rw [hc] at h
    simp only [Option.bind] at h
    have hr := Call.release_other_of_slot c r.slot l h
    have hid : (c.setSlot r.slot.other none).id = r.call := by
      rw [Call.setSlot_id]
      exact find_call_id _ _ _ hc
    simp only
    rw [find_call_update_call_of_find r.call _ w.calls c _ hc hr hid]
    simp only [Option.bind]
    rw [Call.slot_setSlot_of_other]
    exact h

theorem World.UniqueIds_release (w : World) (r : LegRef) (hu : w.UniqueIds) :
    World.UniqueIds { w with calls := update_call r.call (fun c => c.release r.slot) w.calls } :=
  List.Nodup.sublist
    (update_call_ids_sublist r.call _ (fun c c2 h => Call.release_id c c2 r.slot h) w.calls) hu

theorem World.UniqueIds_set_leg (w : World) (r : LegRef) (l : Leg) (hu : w.UniqueIds) :
    (w.set_leg r l).UniqueIds :=
  List.Nodup.sublist
    (update_call_ids_sublist r.call _
      (fun c c2 h => by cases h; exact Call.setSlot_id c r.slot (some l)) w.calls) hu
/-! ## Lookup by callref after an update of one call -/

/-- The loop of `mncc_find_leg`, one list node at a time. -/
theorem mncc_find_leg_cons_eq (callref : Nat) (c : Call) (cs : List Call) :
    mncc_find_leg callref (c :: cs) =
      match mncc_find_leg callref [c] with
      | some r => some r
      | none => mncc_find_leg callref cs := by
  simp only [mncc_find_leg]
  repeat' split
  all_goals simp_all

theorem mncc_find_leg_update_call (callref id : Nat) (f : Call → Option Call) (cs : List Call)
    (c c2 : Call) (hc : find_call cs id = some c) (hf : f c = some c2)
    (h : mncc_find_leg callref [c2] = mncc_find_leg callref [c]) :
    mncc_find_leg callref (update_call id f cs) = mncc_find_leg callref cs := by
  induction cs with
  | nil => simp at hc
  | cons d cs ih =>
    rw [find_call_cons] at hc
    rw [update_call_cons]
    by_cases hd : d.id = id
    · rw [if_pos hd] at hc
      cases hc
      rw [if_pos hd, hf]
      simp only
      rw [mncc_find_leg_cons_eq callref c2, mncc_find_leg_cons_eq callref c, h]
    · rw [if_neg hd] at hc
      rw [if_neg hd, mncc_find_leg_cons_eq callref d, mncc_find_leg_cons_eq callref d cs,
        ih hc]

/-- A store into an MNCC leg that keeps its callref does not change what
`mncc_find_leg` finds on the node. -/
theorem mncc_find_leg_setSlot (callref : Nat) (c : Call) (s : Slot) (l l2 : MnccCallLeg)
    (h : c.slot s = some (.mncc l)) (hl : l2.callref = l.callref) :
    mncc_find_leg callref [c.setSlot s (some (.mncc l2))] = mncc_find_leg callref [c] := by
  cases s
  · simp only [Call.slot] at h
    simp only [mncc_find_leg, Call.setSlot, h, hl]
  · simp only [Call.slot] at h
    simp only [mncc_find_leg, Call.setSlot, h, hl]

/-- Clearing a slot that holds no MNCC leg does not change what `mncc_find_leg`
finds on the node. -/
theorem mncc_find_leg_clear (callref : Nat) (c : Call) (s : Slot)
    (h : ∀ l, c.slot s ≠ some (.mncc l)) :
    mncc_find_leg callref [c.setSlot s none] = mncc_find_leg callref [c] := by
  cases s
  · simp only [Call.slot] at h
    simp only [mncc_find_leg, Call.setSlot]
  · simp only [Call.slot] at h
    simp only [mncc_find_leg, Call.setSlot]

theorem mncc_find_leg_set_leg (callref : Nat) (w : World) (r : LegRef) (l l2 : MnccCallLeg)
    (h : w.leg r = some (.mncc l)) (hl : l2.callref = l.callref) :
    mncc_find_leg callref (w.set_leg r (.mncc l2)).calls = mncc_find_leg callref w.calls := by
  unfold World.leg at h
  cases hc : find_call w.calls r.call with
  | none => simp [hc] at h
  | some c =>
    rw [hc] at h
    simp only [Option.bind] at h
    exact mncc_find_leg_update_call callref r.call _ w.calls c _ hc rfl
      (mncc_find_leg_setSlot callref c r.slot l l2 h hl)

/-! ## The function `release_other` with a SIP peer -/

theorem sip_release_call_spec (w : World) (o : LegRef) (s : SipCallLeg)
    (h : w.leg o = some (.sip s)) :
    ∃ w1, sip_release_call o w = .ok w1 ∧ w1.conn = w.conn ∧
      w1.write_results = w.write_results ∧
      sent_frames w1.trace = sent_frames w.trace ∧
      released_legs w1.trace = released_legs w.trace ∧
      (w1.calls = w.calls ∨
        w1.calls = update_call o.call (fun c => c.release o.slot) w.calls) := by
  unfold sip_release_call
  rw [h]
  simp only
  rcases (show s.state = .SIP_CC_INITIAL ∨ s.state = .SIP_CC_DLG_CNFD ∨
      s.state = .SIP_CC_CONNECTED from by cases s.state <;> simp) with hs | hs | hs
  · rw [hs]
    simp only
    have h1 : (w.log (.nua_handle_destroy s.nua_handle)).leg o = some (.sip s) := h
    rw [call_leg_release_of_leg _ o _ h1]
    refine ⟨_, rfl, rfl, rfl, ?_, ?_, Or.inr rfl⟩
    · simp [sent_frames_append, sent_frames]
    · simp [released_legs_append, released_legs]
  · rw [hs]
    refine ⟨_, rfl, rfl, rfl, ?_, ?_, Or.inl rfl⟩
    · simp [sent_frames_append, sent_frames]
    · simp [released_legs_append, released_legs]
  · rw [hs]
    refine ⟨_, rfl, rfl, rfl, ?_, ?_, Or.inl rfl⟩
    · simp [sent_frames_append, sent_frames]
    · simp [released_legs_append, released_legs]

/-- The function `release_other` for a live MNCC leg whose peer is absent or a
SIP leg: it returns; `release_call` of the peer, if there is one, has been
invoked once; no frame was written; the leg itself, the connection, the write
oracle and the lookup by callref are as before. -/
theorem release_other_spec (P : Build) (w : World) (r : LegRef) (l : MnccCallLeg)
    (hleg : w.leg r = some (.mncc l)) (hpeer : w.SipPeer r) :
    ∃ w1, release_other P r w = .ok w1 ∧ w1.conn = w.conn ∧
      w1.write_results = w.write_results ∧
      w1.leg r = some (.mncc l) ∧
      sent_frames w1.trace = sent_frames w.trace ∧
      released_legs w1.trace = released_legs w.trace ++ w.peers r ∧
      (∀ callref, mncc_find_leg callref w1.calls = mncc_find_leg callref w.calls) ∧
      (w.UniqueIds → w1.UniqueIds) := by
  unfold World.SipPeer at hpeer
  unfold release_other World.peers
  cases ho : w.leg ⟨r.call, r.slot.other⟩ with
  | none =>
    rw [call_leg_other_none w r _ hleg ho, ok_bind]
    exact ⟨w, rfl, rfl, rfl, hleg, rfl, by simp, fun _ => rfl, fun hu => hu⟩
  | some o =>
    rw [ho] at hpeer
    cases o with
    | mncc x => exact absurd hpeer (by simp)
    | sip s =>
      simp only at hpeer
      rw [call_leg_other_some w r _ _ hleg ho, ok_bind]
      simp only
      unfold invoke_release_call
      rw [World.deref_of_leg w _ _ ho, ok_bind]
      simp only [Leg.base, hpeer, call_fn]
      have ho1 : (w.log (.release_call ⟨r.call, r.slot.other⟩)).leg ⟨r.call, r.slot.other⟩
          = some (.sip s) := ho
      obtain ⟨w1, he, hc, hwr, hsf, hrl, hcalls⟩ := sip_release_call_spec _ _ s ho1
      refine ⟨w1, he, hc, hwr, ?_, ?_, ?_, ?_, ?_⟩
      · rcases hcalls with hcs | hcs
        · unfold World.leg at hleg ⊢
          rw [hcs]
          exact hleg
        · have := World.leg_release_other w r _ hleg
          unfold World.leg at this ⊢
          rw [hcs]
          exact this
      · rw [hsf]
        simp [sent_frames_append, sent_frames]
      · rw [hrl]
        simp [released_legs_append, released_legs]
      · intro callref
        rcases hcalls with hcs | hcs
        · rw [hcs]
          rfl
        · rw [hcs]
          simp only [World.log_calls]
          unfold World.leg at hleg
          cases hfc : find_call w.calls r.call with
          | none => simp [hfc] at hleg
          | some c =>
            rw [hfc] at hleg
            simp only [Option.bind] at hleg
            have hos : c.slot r.slot.other = some (.sip s) := by
              unfold World.leg at ho
              rw [hfc] at ho
              exact ho
            exact mncc_find_leg_update_call callref r.call _ w.calls c _ hfc
              (Call.release_other_of_slot c r.slot _ hleg)
              (mncc_find_leg_clear callref c r.slot.other (by simp [hos]))
      · intro hu
        rcases hcalls with hcs | hcs
        · unfold World.UniqueIds at hu ⊢
          rw [hcs]
          exact hu
        · have := World.UniqueIds_release w ⟨r.call, r.slot.other⟩ hu
          unfold World.UniqueIds at this ⊢
          rw [hcs]
          exact this

/-! ## Destroying a leg -/

/-- The function `mncc_leg_release` on a live MNCC leg: it returns, writes
nothing, and in a registry with unique ids the leg is gone afterwards. -/
theorem mncc_leg_release_spec (w : World) (r : LegRef) (l : MnccCallLeg)
    (h : w.leg r = some (.mncc l)) :
    ∃ w2, mncc_leg_release r w = .ok w2 ∧ w2.trace = w.trace ∧ w2.conn = w.conn ∧
      w2.write_results = w.write_results ∧ (w.UniqueIds → w2.leg r = none) := by
  refine ⟨_, mncc_leg_release_of_leg w r l h, rfl, rfl, rfl, ?_⟩
  intro hu
  exact leg_after_release w.calls r hu

theorem World.peers_congr (w w2 : World) (r : LegRef)
    (h : w2.leg ⟨r.call, r.slot.other⟩ = w.leg ⟨r.call, r.slot.other⟩) :
    w2.peers r = w.peers r := by
  unfold World.peers
  rw [h]

theorem World.SipPeer_congr (w w2 : World) (r : LegRef)
    (h : w2.leg ⟨r.call, r.slot.other⟩ = w.leg ⟨r.call, r.slot.other⟩) (hp : w.SipPeer r) :
    w2.SipPeer r := by
  unfold World.SipPeer at hp ⊢
  rw [h]
  exact hp

theorem check_rel_cnf_found (P : Build) (buf : ReadBuf) (rc : Nat) (w : World) (r : LegRef)
    (l : MnccCallLeg) (hrc : rc = P.sizeof_gsm_mncc)
    (hfind : mncc_find_leg buf.mncc.callref w.calls = some r)
    (hleg : w.leg r = some (.mncc l)) :
    ∃ w2, check_rel_cnf P buf rc w = .ok w2 ∧ w2.trace = w.trace ∧ w2.conn = w.conn ∧
      (w.UniqueIds → w2.leg r = none) := by
  unfold check_rel_cnf find_leg
  simp only [hrc, bne_self_eq_false, Bool.false_eq_true, if_false, hfind]
  rw [upd_mncc_of_leg w r l _ hleg, ok_bind]
  have h1 := World.leg_set_leg w r _ (.mncc (stop_cmd_timer l P.MNCC_REL_CNF)) hleg
  obtain ⟨w2, he, ht, hc, _, hg⟩ := mncc_leg_release_spec _ r _ h1
  exact ⟨w2, he, ht, hc, fun hu => hg (World.UniqueIds_set_leg w r _ hu)⟩

/-- The function `mncc_call_leg_release` on a live MNCC leg with the write
succeeding: it returns, and invokes no `release_call` itself. -/
theorem mncc_call_leg_release_total (P : Build) (w : World) (r : LegRef) (l : MnccCallLeg)
    (h : w.leg r = some (.mncc l)) (hw : w.WriteOk) :
    ∃ w', mncc_call_leg_release P r w = .ok w' ∧
      released_legs w'.trace = released_legs w.trace := by
  by_cases hs : w.conn.state = .MNCC_READY
  · rcases (show l.state = .MNCC_CC_INITIAL ∨ l.state = .MNCC_CC_PROCEEDING ∨
        l.state = .MNCC_CC_CONNECTED from by cases l.state <;> simp) with hst | hst | hst
    · rcases (show l.dir = .MNCC_DIR_MO ∨ l.dir = .MNCC_DIR_MT from by
          cases l.dir <;> simp) with hd | hd
      · refine ⟨_, mncc_call_leg_release_initial_mo P w r l h hs hst hd hw, ?_⟩
        simp [released_legs_append, released_legs]
      · refine ⟨_, mncc_call_leg_release_initial_mt P w r l h hs hst hd hw, ?_⟩
        simp [released_legs_append, released_legs]
    · refine ⟨_, mncc_call_leg_release_active P w r l h hs (Or.inl hst) hw, ?_⟩
      simp [released_legs_append, released_legs]
    · refine ⟨_, mncc_call_leg_release_active P w r l h hs (Or.inr hst) hw, ?_⟩
      simp [released_legs_append, released_legs]
  · exact ⟨_, mncc_call_leg_release_not_ready P w r l h hs, rfl⟩

/-! ## The loops of `extract_sdp` -/

theorem strcasecmp_ne_zero (a b : CStr) :
    (strcasecmp a b != 0) = !(a.map Char.toLower == b.map Char.toLower) := by
  unfold strcasecmp
  by_cases h : a.map Char.toLower = b.map Char.toLower
  · simp [h]
  · simp [h]

theorem extract_conn_eq (P : Build) (u : Nat) (cs : List SdpConnection) :
    extract_conn P u cs =
      (cs.find? is_ip4).map (fun c => (P.inet_aton c.c_address).getD u) := by
  induction cs with
  | nil => rfl
  | cons c cs ih =>
    unfold extract_conn
    rw [List.find?_cons]
    cases hb : is_ip4 c
    · have h2 : (c.c_addrtype != .sdp_addr_ip4) = true := by
        unfold is_ip4 at hb
        simp [bne, hb]
      simp only [h2, if_true]
      exact ih
    · have h2 : (c.c_addrtype != .sdp_addr_ip4) = false := by
        unfold is_ip4 at hb
        simp [bne, hb]
      simp [h2]

theorem extract_map_eq (wanted : CStr) (ms : List SdpRtpmap) :
    extract_map wanted ms = (ms.find? (rtpmap_matches wanted)).map (fun rm => rm.rm_pt) := by
  induction ms with
  | nil => rfl
  | cons m ms ih =>
    unfold extract_map
    rw [List.find?_cons, strcasecmp_ne_zero]
    cases hb : rtpmap_matches wanted m
    · have h2 := hb
      unfold rtpmap_matches at h2
      simp only [h2, Bool.not_false, if_true]
      exact ih
    · have h2 := hb
      unfold rtpmap_matches at h2
      simp [h2]

theorem extract_map_isSome (wanted : CStr) (ms : List SdpRtpmap) :
    (extract_map wanted ms).isSome = ms.any (rtpmap_matches wanted) := by
  rw [extract_map_eq, Option.isSome_map', Bool.eq_iff_iff]
  simp [List.find?_isSome, List.any_eq_true]

theorem extract_media_eq (wanted : CStr) (ms : List SdpMedia) :
    extract_media wanted ms =
      (ms.find? (media_matches wanted)).bind
        (fun m => (m.m_rtpmaps.find? (rtpmap_matches wanted)).map
          (fun rm => (m.m_port, rm.rm_pt))) := by
  induction ms with
  | nil => rfl
  | cons m ms ih =>
    unfold extract_media
    rw [List.find?_cons]
    cases hp : (m.m_proto == .sdp_proto_rtp)
    · have hm : media_matches wanted m = false := by simp [media_matches, hp]
      simp only [bne, hp, Bool.not_false, if_true, hm]
      exact ih
    · cases ht : (m.m_type == .sdp_media_audio)
      · have hm : media_matches wanted m = false := by simp [media_matches, ht]
        simp only [bne, hp, ht, Bool.not_true, Bool.not_false, Bool.false_eq_true, if_false,
          if_true, hm]
        exact ih
      · simp only [bne, hp, ht, Bool.not_true, Bool.false_eq_true, if_false]
        cases he : extract_map wanted m.m_rtpmaps with
        | none =>
          have ha : m.m_rtpmaps.any (rtpmap_matches wanted) = false := by
            rw [← extract_map_isSome, he]
            rfl
          have hm : media_matches wanted m = false := by simp [media_matches, ha]
          simp only [hm]
          exact ih
        | some pt =>
          have ha : m.m_rtpmaps.any (rtpmap_matches wanted) = true := by
            rw [← extract_map_isSome, he]
            rfl
          have hm : media_matches wanted m = true := by simp [media_matches, hp, ht, ha]
          rw [extract_map_eq] at he
          cases hf : m.m_rtpmaps.find? (rtpmap_matches wanted) with
          | none => simp [hf] at he
          | some rm =>
            rw [hf] at he
            simp only [Option.map_some', Option.some.injEq] at he
            simp [hm, hf, he]

theorem find_isSome_eq_any {α : Type} (p : α → Bool) (l : List α) :
    (l.find? p).isSome = l.any p := by
  rw [Bool.eq_iff_iff]
  simp [List.find?_isSome, List.any_eq_true]

/-- The four ways through `extract_sdp` on a parsed session. -/
theorem extract_sdp_session (P : Build) (leg : SipCallLeg) (sip : SipT) (sdp : SdpSession)
    (h : sip.payload = .session sdp) :
    extract_sdp P leg sip =
      match extract_conn P sip.addr_uninit sdp.sdp_connection,
            extract_media leg.wanted_codec sdp.sdp_media with
      | some ip, some (port, pt) =>
        (true, { leg with base := { leg.base with ip := ip, port := port, payload_type := pt } })
      | some ip, none => (false, { leg with base := { leg.base with ip := ip } })
      | none, some (port, pt) =>
        (false, { leg with base := { leg.base with port := port, payload_type := pt } })
      | none, none => (false, leg) := by
  unfold extract_sdp
  rw [h]
  cases hc : extract_conn P sip.addr_uninit sdp.sdp_connection <;>
    cases hm : extract_media leg.wanted_codec sdp.sdp_media <;> simp [hc, hm]

/-- What `extract_sdp` leaves on the leg, on a parsed session: each field a
search found is overwritten, each other field is as before; and when the
function returns false one of the two searches found nothing. -/
theorem extract_sdp_fields (P : Build) (leg : SipCallLeg) (sip : SipT) (sdp : SdpSession)
    (h : sip.payload = .session sdp) :
    ((extract_sdp P leg sip).1 = false →
      (sdp.sdp_connection.find? is_ip4 = none ∨
        sdp.sdp_media.find? (media_matches leg.wanted_codec) = none)) ∧
    (sdp.sdp_connection.find? is_ip4 = none →
      (extract_sdp P leg sip).2.base.ip = leg.base.ip) ∧
    (∀ c, sdp.sdp_connection.find? is_ip4 = some c →
      (extract_sdp P leg sip).2.base.ip = (P.inet_aton c.c_address).getD sip.addr_uninit) ∧
    (sdp.sdp_media.find? (media_matches leg.wanted_codec) = none →
      (extract_sdp P leg sip).2.base.port = leg.base.port ∧
      (extract_sdp P leg sip).2.base.payload_type = leg.base.payload_type) ∧
    (∀ m rm, sdp.sdp_media.find? (media_matches leg.wanted_codec) = some m →
      m.m_rtpmaps.find? (rtpmap_matches leg.wanted_codec) = some rm →
      (extract_sdp P leg sip).2.base.port = m.m_port ∧
      (extract_sdp P leg sip).2.base.payload_type = rm.rm_pt) := by
  rw [extract_sdp_session P leg sip sdp h, extract_conn_eq, extract_media_eq]
  cases hc : sdp.sdp_connection.find? is_ip4 with
  | none =>
    cases hm : sdp.sdp_media.find? (media_matches leg.wanted_codec) with
    | none => simp
    | some m =>
      cases hr : m.m_rtpmaps.find? (rtpmap_matches leg.wanted_codec) with
      | none =>
        simp [hr]
        intro m1 rm1 h1 h2
        subst h1
        rw [hr] at h2
        cases h2
      | some rm =>
        simp [hr]
        intro m1 rm1 h1 h2
        subst h1
        rw [hr] at h2
        cases h2
        exact ⟨rfl, rfl⟩
  | some c =>
    cases hm : sdp.sdp_media.find? (media_matches leg.wanted_codec) with
    | none => simp
    | some m =>
      cases hr : m.m_rtpmaps.find? (rtpmap_matches leg.wanted_codec) with
      | none =>
        have hmm : media_matches leg.wanted_codec m = true := List.find?_some hm
        have ha : m.m_rtpmaps.any (rtpmap_matches leg.wanted_codec) = true := by
          unfold media_matches at hmm
          simp only [Bool.and_eq_true] at hmm
          exact hmm.2
        rw [← find_isSome_eq_any, hr] at ha
        cases ha
      | some rm =>
        simp [hr]
        intro m1 rm1 h1 h2
        subst h1
        rw [hr] at h2
        cases h2
        exact ⟨rfl, rfl⟩

/-- The fields of a SIP leg that `extract_sdp` never writes. -/
theorem extract_sdp_other_fields (P : Build) (leg : SipCallLeg) (sip : SipT) :
    (extract_sdp P leg sip).2.state = leg.state ∧
    (extract_sdp P leg sip).2.nua_handle = leg.nua_handle ∧
    (extract_sdp P leg sip).2.wanted_codec = leg.wanted_codec ∧
    (extract_sdp P leg sip).2.base.release_call = leg.base.release_call := by
  cases hp : sip.payload with
  | absent => simp [extract_sdp, hp]
  | parse_failed => simp [extract_sdp, hp]
  | no_session => simp [extract_sdp, hp]
  | session sdp =>
    rw [extract_sdp_session P leg sip sdp hp]
    cases extract_conn P sip.addr_uninit sdp.sdp_connection <;>
      cases extract_media leg.wanted_codec sdp.sdp_media <;> simp

/-! ## The SDP offer -/

/-- What `mncc_create_remote_leg` does when the allocation and the write
succeed: it returns 0, writes exactly one frame, the SETUP_REQ `setup_req`,
and links the MT leg `mt_leg` as `remote` of the call. -/
theorem mncc_create_remote_leg_ok (P : Build) (call : Nat) (w : World) (c : Call)
    (hc : find_call w.calls call = some c) (ha : w.AllocOk) (hw : w.WriteOk) :
    ∃ w', mncc_create_remote_leg P call w = .ok (0, w') ∧
      w'.trace = w.trace ++ [.write_mncc (setup_req P w.app.use_imsi_as_id c)] ∧
      w'.calls = update_call call
        (fun c => some (c.setSlot .remote (some (.mncc (mt_leg c.id))))) w.calls ∧
      w'.conn = w.conn := by
  unfold mncc_create_remote_leg
  rw [pop_result_ok _ ha]
  simp only [Bool.not_true, Bool.false_eq_true, if_false, hc]
  rw [pop_result_ok _ hw]
  simp only [Bool.not_true, Bool.false_eq_true, if_false]
  refine ⟨_, rfl, ?_, ?_, rfl⟩
  · simp only [World.log, setup_req]
  · apply update_call_congr
    intro c2 h2
    have hid : c.id = call := by
      have := List.find?_some hc
      simpa using this
    simp only [mt_leg, hid, h2]

/-! ## The outbound SIP leg -/

theorem World.leg_of_find (w : World) (call : Nat) (s : Slot) (c : Call)
    (hc : find_call w.calls call = some c) : w.leg ⟨call, s⟩ = c.slot s := by
  unfold World.leg
  rw [hc]
  rfl

/-- What `sip_create_remote_leg` does when both allocations succeed: it returns
0 and links a new SIP leg on the next handle as `remote` of the call, whatever
`remote` was. -/
theorem sip_create_remote_leg_ok (P : Build) (call : Nat) (s d : CStr) (w : World)
    (c : Call) (other : Leg) (hc : find_call w.calls call = some c)
    (ho : c.initial = some other) (ha : w.AllocOk2) :
    ∃ w', sip_create_remote_leg P call s d w = .ok (0, w') ∧
      w'.calls = update_call call
        (fun c => some (c.setSlot .remote (some (.sip (new_sip_leg P w.next_handle other)))))
        w.calls ∧
      w'.leg ⟨call, .remote⟩ = some (.sip (new_sip_leg P w.next_handle other)) ∧
      w'.leg ⟨call, .initial⟩ = some other ∧
      w'.conn = w.conn ∧ w'.next_handle = w.next_handle + 1 := by
  unfold sip_create_remote_leg
  rw [pop_result_ok _ ha.1]
  simp only [Bool.not_true, Bool.false_eq_true, if_false]
  rw [pop_result_ok _ ha.2]
  simp only [Bool.not_true, Bool.false_eq_true, if_false]
  unfold send_invite
  simp only [hc, ho]
  have hid : c.id = call := find_call_id _ _ _ hc
  have hf : find_call
      (update_call call
        (fun c => some (c.setSlot .remote (some (.sip (new_sip_leg P w.next_handle other)))))
        w.calls) call
      = some (c.setSlot .remote (some (.sip (new_sip_leg P w.next_handle other)))) :=
    find_call_update_call_of_find call _ w.calls c _ hc rfl (by rw [Call.setSlot_id]; exact hid)
  refine ⟨_, rfl, rfl, ?_, ?_, rfl, rfl⟩
  · unfold World.leg
    simp only [World.log]
    rw [show (fun (c : Call) => some (c.setSlot .remote (some (.sip
        { base := { release_call := some .sip_release_call }, nua_handle := w.next_handle,
          wanted_codec := P.app_media_name other.base.payload_msg_type,
          state := .SIP_CC_INITIAL })))) =
      (fun c => some (c.setSlot .remote (some (.sip (new_sip_leg P w.next_handle other)))))
      from rfl, hf]
    rfl
  · unfold World.leg
    simp only [World.log]
    rw [show (fun (c : Call) => some (c.setSlot .remote (some (.sip
        { base := { release_call := some .sip_release_call }, nua_handle := w.next_handle,
          wanted_codec := P.app_media_name other.base.payload_msg_type,
          state := .SIP_CC_INITIAL })))) =
      (fun c => some (c.setSlot .remote (some (.sip (new_sip_leg P w.next_handle other)))))
      from rfl, hf]
    exact ho
theorem World.leg_find (w : World) (r : LegRef) (l : Leg) (h : w.leg r = some l) :
    ∃ c, find_call w.calls r.call = some c ∧ c.slot r.slot = some l := by
  unfold World.leg at h
  cases hc : find_call w.calls r.call with
  | none => simp [hc] at h
  | some c =>
    rw [hc] at h
    exact ⟨c, rfl, h⟩

/-- The function `app_route_call` when both allocations succeed: the new SIP
leg becomes `remote` of the call, whatever `remote` was. -/
theorem app_route_call_remote (P : Build) (call : Nat) (s d : CStr) (w : World)
    (other : Leg) (ho : w.leg ⟨call, .initial⟩ = some other) (ha : w.AllocOk2) :
    ∃ w', app_route_call P call s d w = .ok w' ∧
      w'.leg ⟨call, .remote⟩ = some (.sip (new_sip_leg P w.next_handle other)) ∧
      w'.leg ⟨call, .initial⟩ = some other ∧ w'.conn = w.conn := by
  obtain ⟨c, hc, hi⟩ := World.leg_find w _ _ ho
  simp only at hc
  have hid : c.id = call := find_call_id _ _ _ hc
  unfold app_route_call
  have hf : find_call
      (update_call call (fun c => some { c with source := s, dest := d })
        (w.log (.app_route_call call s d)).calls) call
      = some { c with source := s, dest := d } :=
    find_call_update_call_of_find call _ w.calls c _ hc rfl hid
  obtain ⟨w', he, _, hr, hin, hcn, _⟩ := sip_create_remote_leg_ok P call s d
    { w.log (.app_route_call call s d) with
      calls := update_call call (fun c => some { c with source := s, dest := d })
        (w.log (.app_route_call call s d)).calls }
    { c with source := s, dest := d } other hf hi ha
  simp only [bind, Except.bind, he, pure, Except.pure]
  exact ⟨w', rfl, hr, hin, hcn⟩

/-- The function `continue_mo_call` when the write and both allocations
succeed: the new SIP leg becomes `remote` of the call, whatever `remote` was. -/
theorem continue_mo_call_remote (P : Build) (w : World) (r : LegRef) (l : MnccCallLeg)
    (hleg : w.leg r = some (.mncc l)) (hslot : r.slot = .initial) (hw : w.WriteOk)
    (ha : w.AllocOk2) :
    ∃ w', continue_mo_call P r w = .ok w' ∧
      w'.leg ⟨r.call, .remote⟩ = some (.sip (new_sip_leg P w.next_handle (.mncc l))) ∧
      w'.conn = w.conn := by
  obtain ⟨call, slot⟩ := r
  simp only at hslot
  subst hslot
  unfold continue_mo_call
  rw [World.mncc_leg_of_leg w _ l hleg, ok_bind]
  dsimp only
  rw [mncc_send_ok _ _ w hw]
  have h1 : World.leg { w with
      write_results := w.write_results.tail,
      trace := w.trace ++
        [.write_mncc { msg_type := P.MNCC_CALL_PROC_REQ, callref := l.callref }] }
      ⟨call, .initial⟩ = some (.mncc l) := hleg
  rw [upd_mncc_of_leg _ _ l _ h1, ok_bind]
  have h2 := World.leg_set_leg _ ⟨call, .initial⟩ _
    (.mncc { l with state := .MNCC_CC_PROCEEDING }) h1
  rw [World.mncc_leg_of_leg _ _ _ h2, ok_bind]
  obtain ⟨w', he, hr, _, hc⟩ := app_route_call_remote P call (mo_source w.app l) (mo_dest l)
    _ _ h2 ha
  exact ⟨w', he, hr, hc⟩

/-! ## The answer to the INVITE -/

theorem non_frames_append (a b : List Event) :
    non_frames (a ++ b) = non_frames a ++ non_frames b := by
  induction a with
  | nil => rfl
  | cons e es ih => cases e <;> simp [non_frames, ih]

theorem World.sip_leg_of_leg (w : World) (r : LegRef) (l : SipCallLeg)
    (h : w.leg r = some (.sip l)) : w.sip_leg r = .ok l := by
  simp [World.sip_leg, h]

/-- The sub-state of the leg plays no part in `extract_sdp`. -/
theorem extract_sdp_with_state (P : Build) (leg : SipCallLeg) (sip : SipT) (st : SipCcState) :
    extract_sdp P { leg with state := st } sip =
      ((extract_sdp P leg sip).1, { (extract_sdp P leg sip).2 with state := st }) := by
  cases hp : sip.payload with
  | absent => simp [extract_sdp, hp]
  | parse_failed => simp [extract_sdp, hp]
  | no_session => simp [extract_sdp, hp]
  | session sdp =>
    rw [extract_sdp_session P leg sip sdp hp, extract_sdp_session P _ sip sdp hp]
    cases extract_conn P sip.addr_uninit sdp.sdp_connection <;>
      cases extract_media leg.wanted_codec sdp.sdp_media <;> simp

/-- The function `mncc_call_leg_release` on a live MNCC leg with the write
succeeding: it returns, hands nothing to the SIP stack and invokes no
capability, and leaves the other leg of the call and the connection alone. -/
theorem mncc_call_leg_release_keeps_peer (P : Build) (w : World) (o : LegRef)
    (m : MnccCallLeg) (h : w.leg o = some (.mncc m)) (hw : w.WriteOk) :
    ∃ w', mncc_call_leg_release P o w = .ok w' ∧
      non_frames w'.trace = non_frames w.trace ∧
      (∀ x, w.leg ⟨o.call, o.slot.other⟩ = some x → w'.leg ⟨o.call, o.slot.other⟩ = some x) ∧
      (w.UniqueIds → w'.UniqueIds) ∧ w'.conn = w.conn := by
  have hrel : ∀ x, w.leg ⟨o.call, o.slot.other⟩ = some x →
      World.leg { w with calls := update_call o.call (fun c => c.release o.slot) w.calls }
        ⟨o.call, o.slot.other⟩ = some x := by
    intro x hx
    obtain ⟨call, slot⟩ := o
    cases slot
    · exact World.leg_release_other w ⟨call, .remote⟩ x hx
    · exact World.leg_release_other w ⟨call, .initial⟩ x hx
  have hset : ∀ (l : Leg) x, w.leg ⟨o.call, o.slot.other⟩ = some x →
      (w.set_leg o l).leg ⟨o.call, o.slot.other⟩ = some x := by
    intro l x hx
    rw [World.leg_set_leg_other]
    exact hx
  by_cases hs : w.conn.state = .MNCC_READY
  · rcases (show m.state = .MNCC_CC_INITIAL ∨ m.state = .MNCC_CC_PROCEEDING ∨
        m.state = .MNCC_CC_CONNECTED from by cases m.state <;> simp) with hst | hst | hst
    · rcases (show m.dir = .MNCC_DIR_MO ∨ m.dir = .MNCC_DIR_MT from by
          cases m.dir <;> simp) with hd | hd
      · refine ⟨_, mncc_call_leg_release_initial_mo P w o m h hs hst hd hw, ?_, hrel,
          fun hu => World.UniqueIds_release w o hu, rfl⟩
        simp [non_frames_append, non_frames]
      · refine ⟨_, mncc_call_leg_release_initial_mt P w o m h hs hst hd hw, ?_, hset _,
          fun hu => World.UniqueIds_set_leg w o _ hu, rfl⟩
        simp [non_frames_append, non_frames]
    · refine ⟨_, mncc_call_leg_release_active P w o m h hs (Or.inl hst) hw, ?_, hset _,
        fun hu => World.UniqueIds_set_leg w o _ hu, rfl⟩
      simp [non_frames_append, non_frames]
    · refine ⟨_, mncc_call_leg_release_active P w o m h hs (Or.inr hst) hw, ?_, hset _,
        fun hu => World.UniqueIds_set_leg w o _ hu, rfl⟩
      simp [non_frames_append, non_frames]
  · exact ⟨_, mncc_call_leg_release_not_ready P w o m h hs, rfl, hrel,
      fun hu => World.UniqueIds_release w o hu, rfl⟩

/-- The function `call_connect` when `extract_sdp` fails, for a SIP leg whose
peer is an MNCC leg: one CANCEL, then `release_call` of the peer; the SIP leg
stays, as `extract_sdp` left it. -/
theorem call_connect_failed (P : Build) (w : World) (r : LegRef) (s : SipCallLeg)
    (m : MnccCallLeg) (sip : SipT) (hleg : w.leg r = some (.sip s))
    (hpeer : w.leg ⟨r.call, r.slot.other⟩ = some (.mncc m))
    (hrel : m.base.release_call = some .mncc_call_leg_release) (hw : w.WriteOk)
    (hf : (extract_sdp P s sip).1 = false) :
    ∃ w', call_connect P r sip w = .ok w' ∧
      w'.leg r = some (.sip (extract_sdp P s sip).2) ∧
      non_frames w'.trace = non_frames w.trace ++
        [.nua_cancel s.nua_handle, .release_call ⟨r.call, r.slot.other⟩] ∧
      w'.conn = w.conn ∧ (w.UniqueIds → w'.UniqueIds) := by
  unfold call_connect
  rw [call_leg_other_some w r _ _ hleg hpeer, ok_bind, World.sip_leg_of_leg w r s hleg, ok_bind]
  simp only
  rcases hx : extract_sdp P s sip with ⟨ok, l1⟩
  rw [hx] at hf
  simp only at hf
  subst hf
  simp only [Bool.not_false, if_true]
  have hh : l1.nua_handle = s.nua_handle := by
    have := (extract_sdp_other_fields P s sip).2.1
    rw [hx] at this
    exact this
  have ho : ((w.set_leg r (.sip l1)).log (.nua_cancel l1.nua_handle)).leg
      ⟨r.call, r.slot.other⟩ = some (.mncc m) := by
    rw [World.log_leg, World.leg_set_leg_other]
    exact hpeer
  unfold invoke_release_call
  rw [World.deref_of_leg _ _ _ ho, ok_bind]
  simp only [Leg.base, hrel, call_fn]
  have ho2 : (((w.set_leg r (.sip l1)).log (.nua_cancel l1.nua_handle)).log
      (.release_call ⟨r.call, r.slot.other⟩)).leg ⟨r.call, r.slot.other⟩
        = some (.mncc m) := ho
  obtain ⟨w', he, hnf, hkeep, hu, hc⟩ :=
    mncc_call_leg_release_keeps_peer P _ ⟨r.call, r.slot.other⟩ m ho2 hw
  have hr : (((w.set_leg r (.sip l1)).log (.nua_cancel l1.nua_handle)).log
      (.release_call ⟨r.call, r.slot.other⟩)).leg r = some (.sip l1) := by
    rw [World.log_leg, World.log_leg]
    exact World.leg_set_leg w r _ _ hleg
  refine ⟨w', he, ?_, ?_, ?_, ?_⟩
  · obtain ⟨call, slot⟩ := r
    cases slot
    · exact hkeep _ hr
    · exact hkeep _ hr
  · rw [hnf, hh]
    simp [non_frames_append, non_frames]
  · rw [hc]
    rfl
  · intro hu0
    exact hu (World.UniqueIds_set_leg w r _ hu0)

/-! ## A SETUP_IND that is accepted -/

/-- The switch of `mncc_data` passes a SETUP_IND of more than 4 bytes to
`check_setup`, whatever the state of the connection. -/
theorem mncc_data_setup_ind (P : Build) (hP : P.LabelsDistinct) (buf : ReadBuf) (w : World)
    (h4 : 4 < buf.rc) (ht : buf.msg_type = P.MNCC_SETUP_IND) :
    mncc_data P buf w = check_setup P buf buf.rc.toNat w := by
  unfold mncc_data
  have h0 : ¬ buf.rc ≤ 0 := by omega
  have h4 : ¬ buf.rc ≤ 4 := by omega
  simp only [h0, h4, if_false]
  simp only [Build.LabelsDistinct, Build.dispatched, List.nodup_cons, List.mem_cons,
    List.mem_singleton, not_or, List.not_mem_nil, not_false_eq_true, List.nodup_nil,
    and_true] at hP
  simp [ht, hP, Ne.symm]

/-- What `check_setup` does with a SETUP_IND of the right size that has CALLED
and CALLING present and the called plan ISDN, the allocation and the write
succeeding: one new call with the MO leg of the frame, one RTP_CREATE, the
connection untouched. -/
theorem check_setup_accepts (P : Build) (buf : ReadBuf) (rc : Nat) (w : World)
    (hrc : rc = P.sizeof_gsm_mncc)
    (hcalled : buf.mncc.fields &&& P.MNCC_F_CALLED ≠ 0)
    (hcalling : buf.mncc.fields &&& P.MNCC_F_CALLING ≠ 0)
    (hplan : buf.mncc.called.plan = GSM340_PLAN_ISDN)
    (ha : w.AllocOk) (hw : w.WriteOk) :
    ∃ w', check_setup P buf rc w = .ok w' ∧
      w'.calls = { id := w.last_call_id + 1,
                   initial := some (.mncc (setup_leg P buf.mncc)) } :: w.calls ∧
      w'.trace = w.trace ++
        [.write_rtp { msg_type := P.MNCC_RTP_CREATE, callref := buf.mncc.callref }] ∧
      w'.conn = w.conn := by
  unfold check_setup
  simp only [hrc, bne_self_eq_false, Bool.false_eq_true, if_false]
  rw [if_neg (by simpa using hcalled), if_neg (by simpa using hcalling),
    if_neg (by simp [continue_setup, hplan])]
  have hcreate : call_mncc_create w =
      (some (w.last_call_id + 1),
       { w with alloc_results := w.alloc_results.tail, last_call_id := w.last_call_id + 1,
                calls := { id := w.last_call_id + 1, initial := some (.mncc {}) } :: w.calls }) := by
    unfold call_mncc_create
    rw [pop_result_ok _ ha]
    rfl
  rw [hcreate]
  simp only
  have hl : ∀ (l : MnccCallLeg) (w1 : World) (cs : List Call),
      w1.calls = { id := w.last_call_id + 1, initial := some (.mncc l) } :: cs →
      w1.leg ⟨w.last_call_id + 1, .initial⟩ = some (.mncc l) := by
    intro l w1 cs h
    simp [World.leg, h, find_call_cons, Call.slot]
  rw [upd_mncc_of_leg _ _ _ _ (hl _ _ _ rfl), ok_bind]
  rw [upd_mncc_of_leg _ _ _ _ (World.leg_set_leg _ _ _ _ (hl _ _ _ rfl)), ok_bind]
  rw [World.set_leg_set_leg]
  simp only [pure, Except.pure]
  refine ⟨_, rfl, ?_, ?_, ?_⟩
  · rw [mncc_rtp_send_ok _ _ _ (by exact hw)]
    simp [World.set_leg, update_call_cons, Call.setSlot, setup_leg, start_cmd_timer]
  · rw [mncc_rtp_send_ok _ _ _ (by exact hw)]
    rfl
  · rw [mncc_rtp_send_ok _ _ _ (by exact hw)]
    rfl

/-! # The claims -/


/-! ## C1: frame-length exactness -/

/-- C1, the claim fails: in the sample build an RTP_CREATE response that is one
byte longer than `struct gsm_mncc_rtp` is dispatched by `mncc_data`, its length
differs from the struct size, and yet the connection is not closed: it stays
READY with no reconnect scheduled, and the frame is processed (the leg that
awaits it moves on to PROCEEDING). -/
theorem c1_long_rtp_frame_not_closed :
    longRtpCreate42.msg_type ∈ sampleBuild.dispatched ∧
    longRtpCreate42.msg_type = sampleBuild.MNCC_RTP_CREATE ∧
    longRtpCreate42.rc ≠ sampleBuild.sizeof_gsm_mncc_rtp ∧
    mncc_data sampleBuild setupInd42 readyWorld = .ok afterSetup ∧
    ∃ w' l, mncc_data sampleBuild longRtpCreate42 afterSetup = .ok w' ∧
      w'.conn.state = .MNCC_READY ∧ w'.conn.reconnect = none ∧
      w'.leg ⟨1, .initial⟩ = some (.mncc l) ∧ l.state = .MNCC_CC_PROCEEDING :=
  ⟨by decide, by decide, by decide, rfl, _, _, rfl, rfl, rfl, rfl, rfl⟩

/-- C1, as amended: a frame of a dispatched type closes the connection (state
DISCONNECTED, reconnect scheduled in 5 s) when it is a hello or `gsm_mncc`
control frame of any length other than its struct size, or an RTP_CREATE /
RTP_CONNECT frame shorter than `struct gsm_mncc_rtp`. -/
theorem c1_wrong_length_closes (P : Build) (hP : P.LabelsDistinct) (buf : ReadBuf) (w : World)
    (h : (buf.msg_type = P.MNCC_SOCKET_HELLO ∧ buf.rc ≠ P.sizeof_gsm_mncc_hello) ∨
         (buf.msg_type ∈ P.control_types ∧ buf.rc ≠ P.sizeof_gsm_mncc) ∨
         (buf.msg_type ∈ P.rtp_types ∧ buf.rc < P.sizeof_gsm_mncc_rtp)) :
    ∃ w', mncc_data P buf w = .ok w' ∧
      w'.conn.state = .MNCC_DISCONNECTED ∧ w'.conn.reconnect = some 5 :=
  ⟨close_connection w, mncc_data_wrong_length P hP buf w h, by simp, by simp⟩

/-- C1, the amended claim at a concrete input: a DISC_IND of 1027 bytes in the
sample build. -/
theorem c1_wrong_length_closes_witness :
    sampleBuild.LabelsDistinct ∧
    ∃ w', mncc_data sampleBuild { ctrl 0x010f 42 with rc := 1027 } readyWorld = .ok w' ∧
      w'.conn.state = .MNCC_DISCONNECTED ∧ w'.conn.reconnect = some 5 :=
  ⟨by decide, c1_wrong_length_closes sampleBuild (by decide) { ctrl 0x010f 42 with rc := 1027 }
    readyWorld (Or.inr (Or.inl ⟨by decide, by decide⟩))⟩

/-! ## C2: frames other than hello in WAIT_VERSION -/

/-- C2, the claim fails: with the connection in WAIT_VERSION a well-formed
SETUP_IND (not a hello) does not close the connection; the state stays
WAIT_VERSION, no reconnect is scheduled and a call is created. -/
theorem c2_setup_accepted_in_wait_version :
    waitWorld.conn.state = .MNCC_WAIT_VERSION ∧
    setupInd42.msg_type ≠ sampleBuild.MNCC_SOCKET_HELLO ∧
    waitWorld.calls = [] ∧
    ∃ w', mncc_data sampleBuild setupInd42 waitWorld = .ok w' ∧
      w'.conn.state = .MNCC_WAIT_VERSION ∧ w'.conn.reconnect = none ∧
      w'.calls.length = 1 :=
  ⟨rfl, by decide, rfl, _, rfl, rfl, rfl, rfl⟩

/-- C2, as amended: with the connection in WAIT_VERSION, a received frame
closes the connection (state DISCONNECTED, reconnect scheduled, no call or leg
created or modified: the registry afterwards is a sublist of the one before,
the disconnect callback only releases calls) when it is at most 4 bytes long
or fails the length check of its type; a frame of a type that is not
dispatched is ignored and leaves the whole state, WAIT_VERSION included, as it
was; and a SETUP_IND of the right size with CALLED and CALLING present and the
called plan ISDN, the allocation and the write succeeding, is accepted: one
call with the MO leg of the frame is created, exactly one RTP_CREATE is sent,
and the connection is left as it was, in WAIT_VERSION. -/
theorem c2_wait_version_non_hello (P : Build) (hP : P.LabelsDistinct) (buf : ReadBuf)
    (w : World) (hs : w.conn.state = .MNCC_WAIT_VERSION) :
    ((buf.rc ≤ 4 ∨ (buf.msg_type ∈ P.control_types ∧ buf.rc ≠ P.sizeof_gsm_mncc) ∨
        (buf.msg_type ∈ P.rtp_types ∧ buf.rc < P.sizeof_gsm_mncc_rtp)) →
      ∃ w', mncc_data P buf w = .ok w' ∧ w'.conn.state = .MNCC_DISCONNECTED ∧
        w'.conn.reconnect = some 5 ∧ w'.calls.Sublist w.calls) ∧
    (4 < buf.rc → buf.msg_type ∉ P.dispatched →
      ∃ w', mncc_data P buf w = .ok w' ∧ w' = w ∧ w'.conn.state = .MNCC_WAIT_VERSION) ∧
    (4 < buf.rc → buf.msg_type = P.MNCC_SETUP_IND → buf.rc = P.sizeof_gsm_mncc →
      buf.mncc.fields &&& P.MNCC_F_CALLED ≠ 0 → buf.mncc.fields &&& P.MNCC_F_CALLING ≠ 0 →
      buf.mncc.called.plan = GSM340_PLAN_ISDN → w.AllocOk → w.WriteOk →
      ∃ w', mncc_data P buf w = .ok w' ∧
        w'.conn = w.conn ∧ w'.conn.state = .MNCC_WAIT_VERSION ∧
        w'.calls = { id := w.last_call_id + 1,
                     initial := some (.mncc (setup_leg P buf.mncc)) } :: w.calls ∧
        w'.trace = w.trace ++
          [.write_rtp { msg_type := P.MNCC_RTP_CREATE, callref := buf.mncc.callref }]) := by
  refine ⟨fun h => ?_, fun h4 ht => ⟨w, mncc_data_undispatched P buf w h4 ht, rfl, hs⟩, ?_⟩
  · refine ⟨close_connection w, ?_, by simp, by simp, close_connection_calls_sublist w⟩
    rcases h with h | h | h
    · unfold mncc_data
      by_cases h0 : buf.rc ≤ 0
      · simp [h0, pure, Except.pure]
      · simp [h0, h, pure, Except.pure]
    · exact mncc_data_wrong_length P hP buf w (Or.inr (Or.inl h))
    · exact mncc_data_wrong_length P hP buf w (Or.inr (Or.inr h))
  · intro h4 ht hrc hcalled hcalling hplan ha hw
    have hn : buf.rc.toNat = P.sizeof_gsm_mncc := by omega
    obtain ⟨w', he, hcs, htr, hc⟩ :=
      check_setup_accepts P buf buf.rc.toNat w hn hcalled hcalling hplan ha hw
    refine ⟨w', ?_, hc, ?_, hcs, htr⟩
    · rw [mncc_data_setup_ind P hP buf w h4 ht]
      exact he
    · rw [hc]
      exact hs

/-- C2, the amended claim at concrete inputs, on the waiting connection of the
sample build: a DISC_IND of 1027 bytes closes the connection, a frame of the
type 0x0999, which is no case label, is ignored, and the SETUP_IND `setupInd42`
is accepted. -/
theorem c2_wait_version_non_hello_witness :
    sampleBuild.LabelsDistinct ∧ waitWorld.conn.state = .MNCC_WAIT_VERSION ∧
    (∃ w', mncc_data sampleBuild { ctrl 0x010f 42 with rc := 1027 } waitWorld = .ok w' ∧
      w'.conn.state = .MNCC_DISCONNECTED ∧ w'.conn.reconnect = some 5 ∧
      w'.calls.Sublist waitWorld.calls) ∧
    (∃ w', mncc_data sampleBuild (ctrl 0x0999 42) waitWorld = .ok w' ∧ w' = waitWorld ∧
      w'.conn.state = .MNCC_WAIT_VERSION) ∧
    (∃ w', mncc_data sampleBuild setupInd42 waitWorld = .ok w' ∧
      w'.conn = waitWorld.conn ∧ w'.conn.state = .MNCC_WAIT_VERSION ∧
      w'.calls = { id := waitWorld.last_call_id + 1,
                   initial := some (.mncc (setup_leg sampleBuild setupInd42.mncc)) }
                 :: waitWorld.calls ∧
      w'.trace = waitWorld.trace ++
        [.write_rtp { msg_type := sampleBuild.MNCC_RTP_CREATE,
                      callref := setupInd42.mncc.callref }]) :=
  ⟨by decide, rfl,
    (c2_wait_version_non_hello sampleBuild (by decide) { ctrl 0x010f 42 with rc := 1027 }
      waitWorld rfl).1 (Or.inr (Or.inl ⟨by decide, by decide⟩)),
    (c2_wait_version_non_hello sampleBuild (by decide) (ctrl 0x0999 42) waitWorld rfl).2.1
      (by decide) (by decide),
    (c2_wait_version_non_hello sampleBuild (by decide) setupInd42 waitWorld rfl).2.2
      (by decide) rfl rfl (by decide) (by decide) rfl (by decide) (by decide)⟩

/-! ## C3: a single outstanding response -/

/-- C3, the claim fails: after SETUP_IND and the awaited RTP_CREATE response
(a state reached through the frame handlers, `start_cmd_timer` and
`stop_cmd_timer`) the MO leg has `rsp_wanted` set, to RTP_CREATE, while its
response timer is not scheduled: `stop_cmd_timer` deletes the timer and leaves
`rsp_wanted` as it is. -/
theorem c3_rsp_wanted_set_without_timer :
    Reachable sampleBuild afterRtpCreate ∧
    ∃ l, afterRtpCreate.leg ⟨1, .initial⟩ = some (.mncc l) ∧
      l.rsp_wanted = sampleBuild.MNCC_RTP_CREATE ∧ l.rsp_wanted ≠ 0 ∧
      l.cmd_timeout = none :=
  ⟨Reachable.data afterSetup afterRtpCreate rtpCreate42
      (Reachable.data readyWorld afterSetup setupInd42 (Reachable.start readyWorld rfl) rfl) rfl,
    _, rfl, rfl, by decide, rfl⟩

/-- C3, as amended: in every state reached through the frame handlers, timer
fires, the leg capabilities, `start_cmd_timer` and `stop_cmd_timer`, an MNCC
leg whose response timer is scheduled has `rsp_wanted` set (non-zero).  (The
converse is what fails: the timer is deleted without clearing `rsp_wanted`.) -/
theorem c3_timer_implies_rsp_wanted (P : Build) (hP : P.AwaitedNonzero) (w : World)
    (h : Reachable P w) (r : LegRef) (l : MnccCallLeg) (hl : w.leg r = some (.mncc l))
    (ht : l.cmd_timeout ≠ none) : l.rsp_wanted ≠ 0 :=
  World.TimerInv_leg w (Reachable.timerInv P hP w h) r (.mncc l) hl ht

/-- C3, the amended claim at a concrete input: the MO leg after SETUP_IND. -/
theorem c3_timer_implies_rsp_wanted_witness :
    sampleBuild.AwaitedNonzero ∧ Reachable sampleBuild afterSetup ∧
    afterSetup.leg ⟨1, .initial⟩ = some (.mncc moLeg) ∧ moLeg.cmd_timeout ≠ none ∧
    moLeg.rsp_wanted ≠ 0 :=
  ⟨by decide, Reachable.data readyWorld afterSetup setupInd42 (Reachable.start readyWorld rfl) rfl,
    rfl, by decide,
    c3_timer_implies_rsp_wanted sampleBuild (by decide) afterSetup
      (Reachable.data readyWorld afterSetup setupInd42 (Reachable.start readyWorld rfl) rfl)
      ⟨1, .initial⟩ moLeg rfl (by decide)⟩

/-! ## C4: a response that is not the awaited one -/

/-- C4, the claim fails.  (1) The MO leg in INITIAL awaits RTP_CREATE and a
SETUP_COMPL_IND for it arrives: the frame is not dropped, the sub-state
becomes CONNECTED.  (2) An MO leg in PROCEEDING awaits SETUP_COMPL_IND and an
RTP_CREATE for it arrives: a CALL_PROC_REQ is sent and the call is routed
again. -/
theorem c4_unexpected_response_not_dropped :
    (sampleBuild.MNCC_SETUP_COMPL_IND ≠ moLeg.rsp_wanted ∧
      moLeg.state = .MNCC_CC_INITIAL ∧
      ∃ w', mncc_data sampleBuild (ctrl 0x0106 42) (worldWith (.mncc moLeg) none) = .ok w' ∧
        w'.leg ⟨1, .initial⟩ = some (.mncc { moLeg with state := .MNCC_CC_CONNECTED })) ∧
    (sampleBuild.MNCC_RTP_CREATE ≠ connectingLeg.rsp_wanted ∧
      ∃ w', mncc_data sampleBuild rtpCreate42 (worldWith (.mncc connectingLeg) none) = .ok w' ∧
        sent_frames w'.trace = [(sampleBuild.MNCC_CALL_PROC_REQ, 42)] ∧
        routed_calls w'.trace = [(1, "200".toList, "101".toList)]) :=
  ⟨⟨by decide, rfl, _, rfl, rfl⟩, ⟨by decide, _, rfl, rfl, rfl⟩⟩

/-- C4, as amended: for a response frame of type RTP_CREATE or SETUP_COMPL_IND
that finds a live MNCC leg whose `rsp_wanted` is another type, the mismatch
only keeps the timer: `cmd_timeout` and `rsp_wanted` stay as they were.  The
handler still acts on the frame: SETUP_COMPL_IND sets the sub-state CONNECTED
and sends nothing; RTP_CREATE records the media and continues the call as for
an awaited response (for an MO leg in the `initial` slot, the write succeeding:
one CALL_PROC_REQ is sent and the sub-state becomes PROCEEDING). -/
theorem c4_unexpected_response (P : Build) (buf : ReadBuf) (rc : Nat) (w : World) (r : LegRef)
    (l : MnccCallLeg) (hleg : w.leg r = some (.mncc l)) :
    (rc = P.sizeof_gsm_mncc → mncc_find_leg buf.mncc.callref w.calls = some r →
      l.rsp_wanted ≠ P.MNCC_SETUP_COMPL_IND →
      ∃ w', check_stp_cmpl_ind P buf rc w = .ok w' ∧ w'.trace = w.trace ∧
        w'.leg r = some (.mncc { l with state := .MNCC_CC_CONNECTED })) ∧
    (P.sizeof_gsm_mncc_rtp ≤ rc → mncc_find_leg buf.rtp.callref w.calls = some r →
      l.rsp_wanted ≠ P.MNCC_RTP_CREATE →
      check_rtp_create P buf rc w =
        continue_call P r (w.set_leg r (.mncc (record_media l buf.rtp))) ∧
      (l.dir = .MNCC_DIR_MO → r.slot = .initial → w.WriteOk →
        ∃ w', check_rtp_create P buf rc w = .ok w' ∧
          w'.leg r =
            some (.mncc { record_media l buf.rtp with state := .MNCC_CC_PROCEEDING }) ∧
          sent_frames w'.trace =
            sent_frames w.trace ++ [(P.MNCC_CALL_PROC_REQ, l.callref)])) := by
  refine ⟨fun hrc hfind hne => ?_, fun hrc hfind hne => ?_⟩
  · unfold check_stp_cmpl_ind find_leg
    rw [if_neg (by simp [hrc])]
    simp only [hfind]
    rw [upd_mncc_of_leg w r l _ hleg, ok_bind]
    rw [upd_mncc_of_leg _ r _ _ (World.leg_set_leg w r _ _ hleg)]
    rw [World.set_leg_set_leg]
    have hstop : stop_cmd_timer l P.MNCC_SETUP_COMPL_IND = l := by
      simp [stop_cmd_timer, hne]
    rw [hstop]
    exact ⟨_, rfl, rfl, World.leg_set_leg w r _ _ hleg⟩
  · have hstop : stop_cmd_timer (record_media l buf.rtp) P.MNCC_RTP_CREATE =
        record_media l buf.rtp := by
      simp [stop_cmd_timer, record_media, hne]
    have heq := check_rtp_create_found P buf rc w r l hrc hfind hleg
    rw [hstop] at heq
    refine ⟨heq, fun hdir hslot hw => ?_⟩
    rw [heq]
    have h1 := World.leg_set_leg w r _ (.mncc (record_media l buf.rtp)) hleg
    unfold continue_call
    rw [World.mncc_leg_of_leg _ r _ h1, ok_bind]
    rw [if_pos (by simp [record_media, hdir])]
    obtain ⟨w', he, _, hl, hs, _, _⟩ := continue_mo_call_spec P _ r _ h1 hslot hw
    exact ⟨w', he, hl, hs⟩

/-- C4, the amended claim at a concrete input: the SETUP_COMPL_IND of the
counterexample. -/
theorem c4_unexpected_response_witness :
    (worldWith (.mncc moLeg) none).leg ⟨1, .initial⟩ = some (.mncc moLeg) ∧
    moLeg.rsp_wanted ≠ sampleBuild.MNCC_SETUP_COMPL_IND ∧
    ∃ w', check_stp_cmpl_ind sampleBuild (ctrl 0x0106 42) 1028 (worldWith (.mncc moLeg) none)
        = .ok w' ∧
      w'.trace = (worldWith (.mncc moLeg) none).trace ∧
      w'.leg ⟨1, .initial⟩ = some (.mncc { moLeg with state := .MNCC_CC_CONNECTED }) :=
  ⟨rfl, by decide,
    (c4_unexpected_response sampleBuild (ctrl 0x0106 42) 1028 (worldWith (.mncc moLeg) none)
      ⟨1, .initial⟩ moLeg rfl).1 rfl rfl (by decide)⟩

/-! ## C5: the release cascade -/

/-- C5, the code at the failing input: leg A (MNCC, connected) is bridged to
leg B (SIP, connected).  A DISC_IND for A invokes the `release_call` of B once;
the response timer of A then fires (no REL_CNF came) and `cmd_timeout` invokes
the `release_call` of B a second time: two BYE requests are made on the handle
of B, and B is still in the registry afterwards. -/
theorem c5_timer_after_disc_ind_releases_peer_again :
    ∃ w1 w2, mncc_data sampleBuild (ctrl 0x010f 42) bridgedWorld = .ok w1 ∧
      released_legs w1.trace = [⟨1, .remote⟩] ∧
      fire_cmd_timer sampleBuild ⟨1, .initial⟩ w1 = .ok w2 ∧
      released_legs w2.trace = [⟨1, .remote⟩, ⟨1, .remote⟩] ∧
      w2.trace.filter (fun e => e == .nua_bye 1) = [.nua_bye 1, .nua_bye 1] ∧
      w2.leg ⟨1, .initial⟩ = none ∧
      w2.leg ⟨1, .remote⟩ = some (.sip sipLeg) :=
  ⟨_, _, rfl, rfl, rfl, rfl, rfl, rfl, rfl⟩

/-! ## C6: a second release of a leg that is in release -/

/-- C6, the claim fails: a connected leg with `in_release = true` that waits
for REL_CNF, on a READY connection; `mncc_call_leg_release` is accepted: it
sends a DISC_REQ and changes `rsp_wanted` from REL_CNF to REL_IND. -/
theorem c6_release_accepted_in_release :
    (worldWith (.mncc releasingLeg) none).conn.state = .MNCC_READY ∧
    releasingLeg.base.in_release = true ∧
    releasingLeg.rsp_wanted = sampleBuild.MNCC_REL_CNF ∧
    (worldWith (.mncc releasingLeg) none).trace = [] ∧
    ∃ w', mncc_call_leg_release sampleBuild ⟨1, .initial⟩ (worldWith (.mncc releasingLeg) none)
        = .ok w' ∧
      sent_frames w'.trace = [(sampleBuild.MNCC_DISC_REQ, 42)] ∧
      w'.leg ⟨1, .initial⟩ =
        some (.mncc { releasingLeg with rsp_wanted := sampleBuild.MNCC_REL_IND }) :=
  ⟨rfl, rfl, rfl, rfl, _, rfl, rfl, rfl⟩

/-- C6, as amended: `mncc_call_leg_release` does not consult `in_release`.
For a leg with `in_release = true` on a READY connection (the write
succeeding) the release is accepted as a first one would be: exactly one frame
is sent (REJ_REQ, REL_REQ or DISC_REQ by sub-state and direction), and a leg
that is kept (any case but INITIAL and MO) has its timer re-armed and
`rsp_wanted` set to REL_CNF (INITIAL) or REL_IND (PROCEEDING, CONNECTED), with
sub-state and `in_release` as before. -/
theorem c6_release_ignores_in_release (P : Build) (w : World) (r : LegRef) (l : MnccCallLeg)
    (h : w.leg r = some (.mncc l)) (hs : w.conn.state = .MNCC_READY)
    (hr : l.base.in_release = true) (hw : w.WriteOk) :
    ∃ w', mncc_call_leg_release P r w = .ok w' ∧
      sent_frames w'.trace = sent_frames w.trace ++ [(release_request P l, l.callref)] ∧
      (¬ (l.state = .MNCC_CC_INITIAL ∧ l.dir = .MNCC_DIR_MO) →
        w'.leg r =
          some (.mncc { l with cmd_timeout := some 5, rsp_wanted := release_awaits P l })) := by
  have hcase : l.state = .MNCC_CC_INITIAL ∨ l.state = .MNCC_CC_PROCEEDING ∨
      l.state = .MNCC_CC_CONNECTED := by cases l.state <;> simp
  have hdir : l.dir = .MNCC_DIR_MO ∨ l.dir = .MNCC_DIR_MT := by cases l.dir <;> simp
  rcases hcase with hst | hst | hst
  · rcases hdir with hd | hd
    · refine ⟨_, mncc_call_leg_release_initial_mo P w r l h hs hst hd hw, ?_, ?_⟩
      · simp [sent_frames_append, sent_frames, release_request, hst, hd]
      · intro hn; exact absurd ⟨hst, hd⟩ hn
    · refine ⟨_, mncc_call_leg_release_initial_mt P w r l h hs hst hd hw, ?_, ?_⟩
      · simp [sent_frames_append, sent_frames, release_request, hst, hd]
      · intro _
        have e : release_awaits P l = P.MNCC_REL_CNF := by simp [release_awaits, hst]
        rw [e, ← MnccCallLeg.releasing_of_in_release l _ hr]
        exact World.leg_set_leg w r _ _ h
  · refine ⟨_, mncc_call_leg_release_active P w r l h hs (Or.inl hst) hw, ?_, ?_⟩
    · simp [sent_frames_append, sent_frames, release_request, hst]
    · intro _
      have e : release_awaits P l = P.MNCC_REL_IND := by simp [release_awaits, hst]
      rw [e, ← MnccCallLeg.releasing_of_in_release l _ hr]
      exact World.leg_set_leg w r _ _ h
  · refine ⟨_, mncc_call_leg_release_active P w r l h hs (Or.inr hst) hw, ?_, ?_⟩
    · simp [sent_frames_append, sent_frames, release_request, hst]
    · intro _
      have e : release_awaits P l = P.MNCC_REL_IND := by simp [release_awaits, hst]
      rw [e, ← MnccCallLeg.releasing_of_in_release l _ hr]
      exact World.leg_set_leg w r _ _ h

/-- C6, the amended claim at a concrete input: the leg of the counterexample. -/
theorem c6_release_ignores_in_release_witness :
    (worldWith (.mncc releasingLeg) none).leg ⟨1, .initial⟩ = some (.mncc releasingLeg) ∧
    (worldWith (.mncc releasingLeg) none).conn.state = .MNCC_READY ∧
    releasingLeg.base.in_release = true ∧
    (worldWith (.mncc releasingLeg) none).WriteOk ∧
    ∃ w', mncc_call_leg_release sampleBuild ⟨1, .initial⟩ (worldWith (.mncc releasingLeg) none)
        = .ok w' ∧
      sent_frames w'.trace = sent_frames (worldWith (.mncc releasingLeg) none).trace ++
        [(release_request sampleBuild releasingLeg, releasingLeg.callref)] ∧
      (¬ (releasingLeg.state = .MNCC_CC_INITIAL ∧ releasingLeg.dir = .MNCC_DIR_MO) →
        w'.leg ⟨1, .initial⟩ =
          some (.mncc { releasingLeg with
                          cmd_timeout := some 5,
                          rsp_wanted := release_awaits sampleBuild releasingLeg })) :=
  ⟨rfl, rfl, rfl, by decide,
    c6_release_ignores_in_release sampleBuild (worldWith (.mncc releasingLeg) none)
      ⟨1, .initial⟩ releasingLeg rfl rfl rfl (by decide)⟩

/-! ## C7: the table of `mncc_call_leg_release` -/

/-- C7: `mncc_call_leg_release` on a live MNCC leg.
* Connection not READY: the leg is destroyed and nothing is sent.
* READY, INITIAL, MO: exactly one REJ_REQ with the callref of the leg is sent
  and the leg (its timer with it) is destroyed.
* READY, INITIAL, MT: `in_release` is set, `rsp_wanted = REL_CNF` with the
  timer armed, exactly one REL_REQ is sent, the leg is kept.
* READY, PROCEEDING or CONNECTED: `in_release` is set, `rsp_wanted = REL_IND`
  with the timer armed, exactly one DISC_REQ is sent, the leg is kept.
In the READY rows the write on the socket succeeds; "destroyed" is read in a
registry with unique ids. -/
theorem c7_release_table (P : Build) (w : World) (r : LegRef) (l : MnccCallLeg)
    (h : w.leg r = some (.mncc l)) :
    (w.conn.state ≠ .MNCC_READY →
      ∃ w', mncc_call_leg_release P r w = .ok w' ∧ w'.trace = w.trace ∧
        (w.UniqueIds → w'.leg r = none)) ∧
    (w.conn.state = .MNCC_READY → w.WriteOk →
      (l.state = .MNCC_CC_INITIAL → l.dir = .MNCC_DIR_MO →
        ∃ w', mncc_call_leg_release P r w = .ok w' ∧
          w'.trace = w.trace ++
            [.write_mncc { msg_type := P.MNCC_REJ_REQ, callref := l.callref }] ∧
          (w.UniqueIds → w'.leg r = none)) ∧
      (l.state = .MNCC_CC_INITIAL → l.dir = .MNCC_DIR_MT →
        ∃ w', mncc_call_leg_release P r w = .ok w' ∧
          w'.trace = w.trace ++
            [.write_mncc { msg_type := P.MNCC_REL_REQ, callref := l.callref }] ∧
          w'.leg r = some (.mncc { l with base := { l.base with in_release := true },
                                          rsp_wanted := P.MNCC_REL_CNF,
                                          cmd_timeout := some 5 })) ∧
      (l.state = .MNCC_CC_PROCEEDING ∨ l.state = .MNCC_CC_CONNECTED →
        ∃ w', mncc_call_leg_release P r w = .ok w' ∧
          w'.trace = w.trace ++
            [.write_mncc { msg_type := P.MNCC_DISC_REQ, callref := l.callref }] ∧
          w'.leg r = some (.mncc { l with base := { l.base with in_release := true },
                                          rsp_wanted := P.MNCC_REL_IND,
                                          cmd_timeout := some 5 }))) := by
  refine ⟨fun hs => ?_, fun hs hw => ⟨fun hst hd => ?_, fun hst hd => ?_, fun hst => ?_⟩⟩
  · exact ⟨_, mncc_call_leg_release_not_ready P w r l h hs, rfl,
      fun hu => leg_after_release w.calls r hu⟩
  · exact ⟨_, mncc_call_leg_release_initial_mo P w r l h hs hst hd hw, rfl,
      fun hu => leg_after_release w.calls r hu⟩
  · exact ⟨_, mncc_call_leg_release_initial_mt P w r l h hs hst hd hw, rfl,
      World.leg_set_leg w r _ _ h⟩
  · exact ⟨_, mncc_call_leg_release_active P w r l h hs hst hw, rfl,
      World.leg_set_leg w r _ _ h⟩

/-- C7 at a concrete input: the MO leg in INITIAL of the sample world, on a
READY connection: one REJ_REQ for callref 42 is sent and the leg is gone. -/
theorem c7_release_table_witness :
    (worldWith (.mncc moLeg) none).leg ⟨1, .initial⟩ = some (.mncc moLeg) ∧
    (worldWith (.mncc moLeg) none).conn.state = .MNCC_READY ∧
    (worldWith (.mncc moLeg) none).WriteOk ∧
    moLeg.state = .MNCC_CC_INITIAL ∧ moLeg.dir = .MNCC_DIR_MO ∧
    ∃ w', mncc_call_leg_release sampleBuild ⟨1, .initial⟩ (worldWith (.mncc moLeg) none)
        = .ok w' ∧
      w'.trace = (worldWith (.mncc moLeg) none).trace ++
        [.write_mncc { msg_type := sampleBuild.MNCC_REJ_REQ, callref := moLeg.callref }] ∧
      ((worldWith (.mncc moLeg) none).UniqueIds → w'.leg ⟨1, .initial⟩ = none) :=
  ⟨rfl, rfl, by decide, rfl, rfl,
    ((c7_release_table sampleBuild (worldWith (.mncc moLeg) none) ⟨1, .initial⟩ moLeg rfl).2
      rfl (by decide)).1 rfl rfl⟩

/-! ## C8 and C9: SETUP_IND -/

/-- C8: a SETUP_IND of the right size without the CALLED bit, without the
CALLING bit, or with a called numbering plan other than ISDN: `check_setup`
sends exactly one REJ_REQ with the callref of the frame (the write succeeding)
and allocates nothing: the registry, with every leg and timer in it, and the id
counter are unchanged. -/
theorem c8_setup_rejected (P : Build) (buf : ReadBuf) (rc : Nat) (w : World)
    (hrc : rc = P.sizeof_gsm_mncc)
    (hbad : buf.mncc.fields &&& P.MNCC_F_CALLED = 0 ∨ buf.mncc.fields &&& P.MNCC_F_CALLING = 0 ∨
      buf.mncc.called.plan ≠ GSM340_PLAN_ISDN)
    (hw : w.WriteOk) :
    ∃ w', check_setup P buf rc w = .ok w' ∧
      w'.trace = w.trace ++
        [.write_mncc { msg_type := P.MNCC_REJ_REQ, callref := buf.mncc.callref }] ∧
      w'.calls = w.calls ∧ w'.last_call_id = w.last_call_id ∧ w'.conn = w.conn := by
  refine ⟨mncc_send P.MNCC_REJ_REQ buf.mncc.callref w, ?_, ?_⟩
  · unfold check_setup
    by_cases h1 : buf.mncc.fields &&& P.MNCC_F_CALLED = 0
    · simp [hrc, h1, pure, Except.pure]
    by_cases h2 : buf.mncc.fields &&& P.MNCC_F_CALLING = 0
    · simp [hrc, h1, h2, pure, Except.pure]
    have h3 : buf.mncc.called.plan ≠ GSM340_PLAN_ISDN := by
      rcases hbad with h | h | h
      · exact absurd h h1
      · exact absurd h h2
      · exact h
    simp [hrc, h1, h2, h3, continue_setup, pure, Except.pure]
  · rw [mncc_send_ok _ _ w hw]
    exact ⟨rfl, rfl, rfl, rfl⟩

/-- C8 at a concrete input: a SETUP_IND with an empty `fields` bitmap. -/
theorem c8_setup_rejected_witness :
    (1028 : Nat) = sampleBuild.sizeof_gsm_mncc ∧
    ((ctrl 0x0102 42).mncc.fields &&& sampleBuild.MNCC_F_CALLED = 0 ∨
      (ctrl 0x0102 42).mncc.fields &&& sampleBuild.MNCC_F_CALLING = 0 ∨
      (ctrl 0x0102 42).mncc.called.plan ≠ GSM340_PLAN_ISDN) ∧
    readyWorld.WriteOk ∧
    ∃ w', check_setup sampleBuild (ctrl 0x0102 42) 1028 readyWorld = .ok w' ∧
      w'.trace = readyWorld.trace ++
        [.write_mncc { msg_type := sampleBuild.MNCC_REJ_REQ,
                       callref := (ctrl 0x0102 42).mncc.callref }] ∧
      w'.calls = readyWorld.calls ∧ w'.last_call_id = readyWorld.last_call_id ∧
      w'.conn = readyWorld.conn :=
  ⟨rfl, by decide, by decide,
    c8_setup_rejected sampleBuild (ctrl 0x0102 42) 1028 readyWorld rfl (by decide) (by decide)⟩

theorem call_mncc_create_ok (w : World) (h : w.AllocOk) :
    call_mncc_create w =
      (some (w.last_call_id + 1),
       { w with alloc_results := w.alloc_results.tail, last_call_id := w.last_call_id + 1,
                calls := { id := w.last_call_id + 1, initial := some (.mncc {}) } :: w.calls }) := by
  unfold call_mncc_create
  rw [pop_result_ok _ h]
  rfl

/-- C9: a SETUP_IND of the right size with CALLED and CALLING present and the
called plan ISDN, the call allocation and the write succeeding: `check_setup`
links exactly one new call, whose `initial` is an MNCC leg with the callref of
the frame, direction MO, sub-state INITIAL, the called and calling address and
the IMSI of the frame, `rsp_wanted = RTP_CREATE` and the timer armed; and it
sends exactly one RTP_CREATE frame with that callref. -/
theorem c9_setup_creates_call (P : Build) (buf : ReadBuf) (rc : Nat) (w : World)
    (hrc : rc = P.sizeof_gsm_mncc)
    (hcalled : buf.mncc.fields &&& P.MNCC_F_CALLED ≠ 0)
    (hcalling : buf.mncc.fields &&& P.MNCC_F_CALLING ≠ 0)
    (hplan : buf.mncc.called.plan = GSM340_PLAN_ISDN)
    (ha : w.AllocOk) (hw : w.WriteOk) :
    ∃ w', check_setup P buf rc w = .ok w' ∧
      w'.calls = { id := w.last_call_id + 1,
                   initial := some (.mncc (setup_leg P buf.mncc)) } :: w.calls ∧
      w'.trace = w.trace ++
        [.write_rtp { msg_type := P.MNCC_RTP_CREATE, callref := buf.mncc.callref }] ∧
      w'.conn = w.conn := by
  unfold check_setup
  simp only [hrc, bne_self_eq_false, Bool.false_eq_true, if_false]
  rw [if_neg (by simpa using hcalled), if_neg (by simpa using hcalling),
    if_neg (by simp [continue_setup, hplan])]
  rw [call_mncc_create_ok w ha]
  simp only
  have hl : ∀ (l : MnccCallLeg) (w1 : World) (cs : List Call),
      w1.calls = { id := w.last_call_id + 1, initial := some (.mncc l) } :: cs →
      w1.leg ⟨w.last_call_id + 1, .initial⟩ = some (.mncc l) := by
    intro l w1 cs h
    simp [World.leg, h, find_call_cons, Call.slot]
  rw [upd_mncc_of_leg _ _ _ _ (hl _ _ _ rfl), ok_bind]
  rw [upd_mncc_of_leg _ _ _ _ (World.leg_set_leg _ _ _ _ (hl _ _ _ rfl)), ok_bind]
  rw [World.set_leg_set_leg]
  simp only [pure, Except.pure]
  refine ⟨_, rfl, ?_, ?_, ?_⟩
  · rw [mncc_rtp_send_ok _ _ _ (by exact hw)]
    simp [World.set_leg, update_call_cons, Call.setSlot, setup_leg, start_cmd_timer]
  · rw [mncc_rtp_send_ok _ _ _ (by exact hw)]
    rfl
  · rw [mncc_rtp_send_ok _ _ _ (by exact hw)]
    rfl

/-- C9 at a concrete input: `setupInd42` on the ready, empty process. -/
theorem c9_setup_creates_call_witness :
    (1028 : Nat) = sampleBuild.sizeof_gsm_mncc ∧
    setupInd42.mncc.fields &&& sampleBuild.MNCC_F_CALLED ≠ 0 ∧
    setupInd42.mncc.fields &&& sampleBuild.MNCC_F_CALLING ≠ 0 ∧
    setupInd42.mncc.called.plan = GSM340_PLAN_ISDN ∧
    readyWorld.AllocOk ∧ readyWorld.WriteOk ∧
    ∃ w', check_setup sampleBuild setupInd42 1028 readyWorld = .ok w' ∧
      w'.calls = { id := readyWorld.last_call_id + 1,
                   initial := some (.mncc (setup_leg sampleBuild setupInd42.mncc)) }
                 :: readyWorld.calls ∧
      w'.trace = readyWorld.trace ++
        [.write_rtp { msg_type := sampleBuild.MNCC_RTP_CREATE,
                      callref := setupInd42.mncc.callref }] ∧
      w'.conn = readyWorld.conn :=
  ⟨rfl, by decide, by decide, rfl, by decide, by decide,
    c9_setup_creates_call sampleBuild setupInd42 1028 readyWorld rfl (by decide) (by decide)
      rfl (by decide) (by decide)⟩

/-! ## C10: the RTP_CREATE response for an MO leg -/

/-- C10: an MO leg (in the `initial` slot, where `check_setup` puts it) that
awaits RTP_CREATE, and an RTP_CREATE response that finds it, the write
succeeding: `check_rtp_create` records ip, port, payload type and payload
message type of the frame on the leg, stops the timer, sends exactly one
CALL_PROC_REQ with the callref of the leg, sets the sub-state PROCEEDING and
invokes `app_route_call` exactly once, for the call of the leg (with the
source and dest that `continue_mo_call` computes).  In a registry with unique
ids the callref of the leg is the callref of the frame. -/
theorem c10_rtp_create_continues_mo (P : Build) (buf : ReadBuf) (rc : Nat) (w : World)
    (r : LegRef) (l : MnccCallLeg) (hrc : P.sizeof_gsm_mncc_rtp ≤ rc)
    (hfind : mncc_find_leg buf.rtp.callref w.calls = some r)
    (hleg : w.leg r = some (.mncc l)) (hslot : r.slot = .initial)
    (hdir : l.dir = .MNCC_DIR_MO) (hwant : l.rsp_wanted = P.MNCC_RTP_CREATE)
    (hw : w.WriteOk) :
    ∃ w', check_rtp_create P buf rc w = .ok w' ∧
      w'.leg r = some (.mncc { record_media l buf.rtp with
                                 cmd_timeout := none, state := .MNCC_CC_PROCEEDING }) ∧
      sent_frames w'.trace = sent_frames w.trace ++ [(P.MNCC_CALL_PROC_REQ, l.callref)] ∧
      routed_calls w'.trace =
        routed_calls w.trace ++ [(r.call, mo_source w.app l, mo_dest l)] ∧
      w'.conn = w.conn ∧ (w.UniqueIds → l.callref = buf.rtp.callref) := by
  have hcr : w.UniqueIds → l.callref = buf.rtp.callref := by
    intro hu
    obtain ⟨l2, hl2, hc2⟩ := mncc_find_leg_leg buf.rtp.callref w r hu hfind
    rw [hleg] at hl2
    cases hl2
    exact hc2
  rw [check_rtp_create_found P buf rc w r l hrc hfind hleg]
  have hstop : stop_cmd_timer (record_media l buf.rtp) P.MNCC_RTP_CREATE =
      { record_media l buf.rtp with cmd_timeout := none } := by
    simp [stop_cmd_timer, record_media, hwant]
  rw [hstop]
  have h1 := World.leg_set_leg w r _
    (.mncc { record_media l buf.rtp with cmd_timeout := none }) hleg
  unfold continue_call
  rw [World.mncc_leg_of_leg _ r _ h1, ok_bind]
  rw [if_pos (by simp [record_media, hdir])]
  obtain ⟨w', he, hc, hl, hs, _, hro⟩ := continue_mo_call_spec P _ r _ h1 hslot hw
  exact ⟨w', he, hl, hs, hro, hc, hcr⟩

/-- C10 at a concrete input: the MO leg of the sample world and `rtpCreate42`. -/
theorem c10_rtp_create_continues_mo_witness :
    sampleBuild.sizeof_gsm_mncc_rtp ≤ 24 ∧
    mncc_find_leg rtpCreate42.rtp.callref (worldWith (.mncc moLeg) none).calls
      = some ⟨1, .initial⟩ ∧
    (worldWith (.mncc moLeg) none).leg ⟨1, .initial⟩ = some (.mncc moLeg) ∧
    moLeg.dir = .MNCC_DIR_MO ∧ moLeg.rsp_wanted = sampleBuild.MNCC_RTP_CREATE ∧
    (worldWith (.mncc moLeg) none).WriteOk ∧
    ∃ w',
      check_rtp_create sampleBuild rtpCreate42 24 (worldWith (.mncc moLeg) none) = .ok w' ∧
      w'.leg ⟨1, .initial⟩ = some (.mncc { record_media moLeg rtpCreate42.rtp with
                                 cmd_timeout := none, state := .MNCC_CC_PROCEEDING }) ∧
      sent_frames w'.trace = sent_frames (worldWith (.mncc moLeg) none).trace ++
        [(sampleBuild.MNCC_CALL_PROC_REQ, moLeg.callref)] ∧
      routed_calls w'.trace = routed_calls (worldWith (.mncc moLeg) none).trace ++
        [(1, mo_source (worldWith (.mncc moLeg) none).app moLeg, mo_dest moLeg)] ∧
      w'.conn = (worldWith (.mncc moLeg) none).conn ∧
      ((worldWith (.mncc moLeg) none).UniqueIds → moLeg.callref = rtpCreate42.rtp.callref) :=
  ⟨by decide, rfl, rfl, rfl, rfl, by decide,
    c10_rtp_create_continues_mo sampleBuild rtpCreate42 24 (worldWith (.mncc moLeg) none)
      ⟨1, .initial⟩ moLeg (by decide) rfl rfl rfl rfl rfl (by decide)⟩

/-! ## C11: source and dest of a routed MO call -/

/-- C11: for a live MO leg (in the `initial` slot, where `check_setup` puts
it), the write succeeding, `continue_mo_call` returns and invokes
`app_route_call` exactly once, for the call of the leg, with
dest = "+" followed by the first 32 characters of `called.number` when
`called.type` is international and the first 32 characters of `called.number`
otherwise, and with source = the first 16 characters of the IMSI when
`use_imsi_as_id` is true and the first 32 characters of `calling.number`
otherwise. -/
theorem c11_mo_route_source_dest (P : Build) (w : World) (r : LegRef) (l : MnccCallLeg)
    (hleg : w.leg r = some (.mncc l)) (hslot : r.slot = .initial) (hw : w.WriteOk) :
    ∃ w', continue_mo_call P r w = .ok w' ∧
      routed_calls w'.trace = routed_calls w.trace ++
        [(r.call,
          (if w.app.use_imsi_as_id = true then l.imsi.take 16 else l.calling.number.take 32),
          (if l.called.type = GSM340_TYPE_INTERNATIONAL then '+' :: l.called.number.take 32
           else l.called.number.take 32))] := by
  obtain ⟨w', he, _, _, _, _, hro⟩ := continue_mo_call_spec P w r l hleg hslot hw
  refine ⟨w', he, ?_⟩
  rw [hro]
  simp [mo_source, mo_dest]

/-- C11 at a concrete input: the leg with an international called address, in
a process configured with `use_imsi_as_id`: the call is routed from the first
16 characters of the IMSI to "+4915112345". -/
theorem c11_mo_route_source_dest_witness :
    ({ worldWith (.mncc intlLeg) none with app := { use_imsi_as_id := true } } : World).leg
      ⟨1, .initial⟩ = some (.mncc intlLeg) ∧
    ({ worldWith (.mncc intlLeg) none with app := { use_imsi_as_id := true } } : World).WriteOk ∧
    ∃ w', continue_mo_call sampleBuild ⟨1, .initial⟩
        { worldWith (.mncc intlLeg) none with app := { use_imsi_as_id := true } } = .ok w' ∧
      routed_calls w'.trace = [(1, "262011234567890".toList, "+4915112345".toList)] :=
  ⟨rfl, by decide,
    c11_mo_route_source_dest sampleBuild
      { worldWith (.mncc intlLeg) none with app := { use_imsi_as_id := true } }
      ⟨1, .initial⟩ intlLeg rfl rfl (by decide)⟩

/-! ## C12: connect_call of an MNCC leg -/

/-- C12, the claim fails: in the sample build (a little-endian host) the peer
leg stores ip 0x0A000002, port 20000, payload type 8, and `connect_call` of
the MNCC leg writes an RTP_CONNECT frame whose ip is 0x0200000A, the four
bytes of the stored value reversed; port and payload type are as stored. -/
theorem c12_rtp_connect_ip_converted :
    answeredWorld.leg ⟨1, .initial⟩ = some (.mncc proceedingLeg) ∧
    answeredWorld.leg ⟨1, .remote⟩ = some (.sip sipLeg) ∧
    sipLeg.base.ip = 0x0A000002 ∧ sipLeg.base.port = 20000 ∧ sipLeg.base.payload_type = 8 ∧
    answeredWorld.WriteOk2 ∧
    ∃ w' m, mncc_call_leg_connect sampleBuild ⟨1, .initial⟩ answeredWorld = .ok w' ∧
      w'.trace = [.write_rtp m, .write_mncc { msg_type := 0x0103, callref := 42 }] ∧
      m.msg_type = sampleBuild.MNCC_RTP_CONNECT ∧ m.callref = 42 ∧
      m.ip = 0x0200000A ∧ m.ip ≠ sipLeg.base.ip ∧ m.port = 20000 ∧ m.payload_type = 8 :=
  ⟨rfl, rfl, rfl, rfl, rfl, by decide, _, _, rfl, rfl, rfl, rfl, rfl, by decide, rfl, rfl⟩

/-- C12, as amended: for a live MNCC leg with a peer leg, both writes
succeeding, `mncc_call_leg_connect` writes exactly two frames, in this order:
one RTP_CONNECT with the callref of the leg, `htonl` of the ip stored on the
peer leg, and the port and payload type stored on the peer leg; then one
SETUP_RSP with the callref.  It leaves `rsp_wanted` = SETUP_COMPL_IND with the
timer armed, and the connection as it was.  On a big-endian host `htonl`
returns the stored 32-bit value; on a little-endian host it reverses its four
bytes. -/
theorem c12_connect_frames (P : Build) (w : World) (r : LegRef) (l : MnccCallLeg) (o : Leg)
    (hleg : w.leg r = some (.mncc l)) (hpeer : w.leg ⟨r.call, r.slot.other⟩ = some o)
    (hw : w.WriteOk2) :
    ∃ w', mncc_call_leg_connect P r w = .ok w' ∧
      w'.trace = w.trace ++
        [.write_rtp { msg_type := P.MNCC_RTP_CONNECT, callref := l.callref,
                      ip := htonl P o.base.ip, port := o.base.port,
                      payload_type := o.base.payload_type },
         .write_mncc { msg_type := P.MNCC_SETUP_RSP, callref := l.callref }] ∧
      w'.leg r = some (.mncc { l with rsp_wanted := P.MNCC_SETUP_COMPL_IND,
                                      cmd_timeout := some 5 }) ∧
      w'.conn = w.conn ∧
      (P.big_endian = true → o.base.ip < 4294967296 → htonl P o.base.ip = o.base.ip) ∧
      (P.big_endian = false → htonl P o.base.ip = bswap32 o.base.ip) := by
  unfold mncc_call_leg_connect
  rw [World.mncc_leg_of_leg w r l hleg, ok_bind,
    call_leg_other_some w r _ o hleg hpeer, ok_bind]
  dsimp only
  rw [send_rtp_connect_ok P w r _ l o hleg hpeer hw.1, ok_bind]
  dsimp only
  simp only [Bool.not_true, Bool.false_eq_true, if_false]
  have h1 : World.leg { w with
      write_results := w.write_results.tail,
      trace := w.trace ++
        [.write_rtp { msg_type := P.MNCC_RTP_CONNECT, callref := l.callref,
                      ip := htonl P o.base.ip, port := o.base.port,
                      payload_type := o.base.payload_type }] } r = some (.mncc l) := hleg
  rw [upd_mncc_of_leg _ r l _ h1, ok_bind]
  have h2 := World.leg_set_leg _ r _ (.mncc (start_cmd_timer l P.MNCC_SETUP_COMPL_IND)) h1
  rw [World.mncc_leg_of_leg _ r _ h2, ok_bind]
  have hw2 : World.WriteOk (World.set_leg { w with
      write_results := w.write_results.tail,
      trace := w.trace ++
        [.write_rtp { msg_type := P.MNCC_RTP_CONNECT, callref := l.callref,
                      ip := htonl P o.base.ip, port := o.base.port,
                      payload_type := o.base.payload_type }] } r
      (.mncc (start_cmd_timer l P.MNCC_SETUP_COMPL_IND))) := hw.2
  refine ⟨_, rfl, ?_, ?_, ?_, ?_, ?_⟩
  · rw [mncc_send_ok _ _ _ hw2]
    simp [start_cmd_timer]
  · rw [World.leg_mncc_send_ok _ _ _ r hw2, h2]
    rfl
  · rw [mncc_send_ok _ _ _ hw2]
    rfl
  · intro hb hlt
    simp [htonl, hb, Nat.mod_eq_of_lt hlt]
  · intro hb
    simp [htonl, hb]

/-- C12, the amended claim at a concrete input: the leg being set up and its
SIP peer, in the sample build. -/
theorem c12_connect_frames_witness :
    answeredWorld.leg ⟨1, .initial⟩ = some (.mncc proceedingLeg) ∧
    answeredWorld.leg ⟨1, .remote⟩ = some (.sip sipLeg) ∧ answeredWorld.WriteOk2 ∧
    ∃ w', mncc_call_leg_connect sampleBuild ⟨1, .initial⟩ answeredWorld = .ok w' ∧
      w'.trace = answeredWorld.trace ++
        [.write_rtp { msg_type := sampleBuild.MNCC_RTP_CONNECT, callref := proceedingLeg.callref,
                      ip := htonl sampleBuild (Leg.sip sipLeg).base.ip,
                      port := (Leg.sip sipLeg).base.port,
                      payload_type := (Leg.sip sipLeg).base.payload_type },
         .write_mncc { msg_type := sampleBuild.MNCC_SETUP_RSP,
                       callref := proceedingLeg.callref }] ∧
      w'.leg ⟨1, .initial⟩ =
        some (.mncc { proceedingLeg with rsp_wanted := sampleBuild.MNCC_SETUP_COMPL_IND,
                                         cmd_timeout := some 5 }) ∧
      w'.conn = answeredWorld.conn ∧
      (sampleBuild.big_endian = true → (Leg.sip sipLeg).base.ip < 4294967296 →
        htonl sampleBuild (Leg.sip sipLeg).base.ip = (Leg.sip sipLeg).base.ip) ∧
      (sampleBuild.big_endian = false →
        htonl sampleBuild (Leg.sip sipLeg).base.ip = bswap32 (Leg.sip sipLeg).base.ip) :=
  ⟨rfl, rfl, by decide,
    c12_connect_frames sampleBuild answeredWorld ⟨1, .initial⟩ proceedingLeg (.sip sipLeg)
      rfl rfl (by decide)⟩

/-! ## C13: DISC_IND, then REL_CNF -/

/-- C13: a DISC_IND of the right size that finds a live MNCC leg, the write
succeeding.  `check_disc_ind` sets `in_release` on the leg, sets `rsp_wanted`
= REL_CNF with the timer armed, writes exactly one REL_REQ with the callref of
the leg, and then runs `release_other`: with a peer leg that is the call site
`release_call` of the peer, invoked once; without a peer nothing more happens.
When the peer is absent or a SIP leg the handler returns, with `release_call`
of the peer invoked exactly once and no other frame written; and a REL_CNF
with the same callref that follows then finds the leg, stops its timer and
destroys it without writing a frame and without touching the connection. -/
theorem c13_disc_ind_then_rel_cnf (P : Build) (buf : ReadBuf) (rc : Nat) (w : World)
    (r : LegRef) (l : MnccCallLeg) (hrc : rc = P.sizeof_gsm_mncc)
    (hfind : mncc_find_leg buf.mncc.callref w.calls = some r)
    (hleg : w.leg r = some (.mncc l)) (hw : w.WriteOk) :
    (∃ w3, check_disc_ind P buf rc w = release_other P r w3 ∧
      w3.leg r = some (.mncc { l with base := { l.base with in_release := true },
                                      rsp_wanted := P.MNCC_REL_CNF, cmd_timeout := some 5 }) ∧
      w3.trace = w.trace ++
        [.write_mncc { msg_type := P.MNCC_REL_REQ, callref := l.callref }] ∧
      w3.conn = w.conn ∧
      (w.leg ⟨r.call, r.slot.other⟩ = none → release_other P r w3 = .ok w3) ∧
      ((w.leg ⟨r.call, r.slot.other⟩).isSome = true →
        release_other P r w3 = invoke_release_call P ⟨r.call, r.slot.other⟩ w3)) ∧
    (w.SipPeer r →
      ∃ w1, check_disc_ind P buf rc w = .ok w1 ∧
        w1.leg r = some (.mncc { l with base := { l.base with in_release := true },
                                        rsp_wanted := P.MNCC_REL_CNF,
                                        cmd_timeout := some 5 }) ∧
        sent_frames w1.trace = sent_frames w.trace ++ [(P.MNCC_REL_REQ, l.callref)] ∧
        released_legs w1.trace = released_legs w.trace ++ w.peers r ∧
        w1.conn = w.conn ∧
        (stop_cmd_timer (l.releasing P.MNCC_REL_CNF) P.MNCC_REL_CNF).cmd_timeout = none ∧
        ∀ buf2 : ReadBuf, buf2.mncc.callref = buf.mncc.callref →
          ∃ w2, check_rel_cnf P buf2 rc w1 = .ok w2 ∧ w2.trace = w1.trace ∧
            w2.conn = w1.conn ∧ (w.UniqueIds → w2.leg r = none)) := by
  have hrel : l.releasing P.MNCC_REL_CNF =
      { l with base := { l.base with in_release := true },
               rsp_wanted := P.MNCC_REL_CNF, cmd_timeout := some 5 } := rfl
  have hother : World.leg
      { w.set_leg r (.mncc (l.releasing P.MNCC_REL_CNF)) with
        write_results := w.write_results.tail,
        trace := w.trace ++
          [.write_mncc { msg_type := P.MNCC_REL_REQ, callref := l.callref }] }
      ⟨r.call, r.slot.other⟩ = w.leg ⟨r.call, r.slot.other⟩ :=
    World.leg_set_leg_other w r _
  have h3 : World.leg
      { w.set_leg r (.mncc (l.releasing P.MNCC_REL_CNF)) with
        write_results := w.write_results.tail,
        trace := w.trace ++
          [.write_mncc { msg_type := P.MNCC_REL_REQ, callref := l.callref }] } r
      = some (.mncc (l.releasing P.MNCC_REL_CNF)) :=
    World.leg_set_leg w r _ _ hleg
  have heq : check_disc_ind P buf rc w = release_other P r
      { w.set_leg r (.mncc (l.releasing P.MNCC_REL_CNF)) with
        write_results := w.write_results.tail,
        trace := w.trace ++
          [.write_mncc { msg_type := P.MNCC_REL_REQ, callref := l.callref }] } := by
    unfold check_disc_ind find_leg
    simp only [hrc, bne_self_eq_false, Bool.false_eq_true, if_false, hfind]
    rw [upd_mncc_of_leg w r l _ hleg, ok_bind]
    have h1 := World.leg_set_leg w r _
      (.mncc { l with base := { l.base with in_release := true } }) hleg
    rw [upd_mncc_of_leg _ r _ _ h1, ok_bind, World.set_leg_set_leg]
    have h2 := World.leg_set_leg w r _
      (.mncc (start_cmd_timer { l with base := { l.base with in_release := true } }
        P.MNCC_REL_CNF)) hleg
    rw [World.mncc_leg_of_leg _ r _ h2, ok_bind]
    dsimp only
    rw [mncc_send_ok _ _ _ (World.WriteOk_set_leg w r _ hw)]
    rfl
  refine ⟨⟨_, heq, ?_, rfl, rfl, ?_, ?_⟩, ?_⟩
  · rw [h3, hrel]
  · intro hn
    unfold release_other
    rw [call_leg_other_none _ r _ h3 (hother.trans hn), ok_bind]
    rfl
  · intro hs
    obtain ⟨o, ho⟩ := Option.isSome_iff_exists.mp hs
    unfold release_other
    rw [call_leg_other_some _ r _ o h3 (hother.trans ho), ok_bind]
  · intro hpeer
    obtain ⟨w1, he, hc, _, hl, hsf, hrl, hfl, hu1⟩ :=
      release_other_spec P _ r _ h3 (World.SipPeer_congr w _ r hother hpeer)
    refine ⟨w1, heq.trans he, ?_, ?_, ?_, ?_, ?_, ?_⟩
    · rw [hl, hrel]
    · rw [hsf]
      simp [sent_frames_append, sent_frames]
    · rw [hrl, World.peers_congr w _ r hother]
      simp [released_legs_append, released_legs]
    · rw [hc]
      rfl
    · simp [stop_cmd_timer, MnccCallLeg.releasing, start_cmd_timer]
    · intro buf2 hb
      have hf2 : mncc_find_leg buf2.mncc.callref w1.calls = some r := by
        rw [hfl, hb]
        show mncc_find_leg buf.mncc.callref
          (w.set_leg r (.mncc (l.releasing P.MNCC_REL_CNF))).calls = some r
        rw [mncc_find_leg_set_leg buf.mncc.callref w r l (l.releasing P.MNCC_REL_CNF) hleg rfl]
        exact hfind
      obtain ⟨w2, he2, ht2, hc2, hg2⟩ := check_rel_cnf_found P buf2 rc w1 r _ hrc hf2 hl
      exact ⟨w2, he2, ht2, hc2,
        fun hu => hg2 (hu1 (World.UniqueIds_set_leg w r _ hu))⟩

/-- C13 at a concrete input: a DISC_IND for callref 42 on the bridged call,
whose peer is the connected SIP leg, and the REL_CNF that follows. -/
theorem c13_disc_ind_then_rel_cnf_witness :
    (1028 : Nat) = sampleBuild.sizeof_gsm_mncc ∧
    mncc_find_leg (ctrl 0x010f 42).mncc.callref bridgedWorld.calls = some ⟨1, .initial⟩ ∧
    bridgedWorld.leg ⟨1, .initial⟩ = some (.mncc connectedLeg) ∧ bridgedWorld.WriteOk ∧
    bridgedWorld.SipPeer ⟨1, .initial⟩ ∧ bridgedWorld.UniqueIds ∧
    ∃ w1, check_disc_ind sampleBuild (ctrl 0x010f 42) 1028 bridgedWorld = .ok w1 ∧
      sent_frames w1.trace = [(0x0110, 42)] ∧ released_legs w1.trace = [⟨1, .remote⟩] ∧
      ∃ w2, check_rel_cnf sampleBuild (ctrl 0x0112 42) 1028 w1 = .ok w2 ∧
        w2.trace = w1.trace ∧ w2.leg ⟨1, .initial⟩ = none :=
  ⟨rfl, rfl, rfl, by decide, by decide, by decide,
    match (c13_disc_ind_then_rel_cnf sampleBuild (ctrl 0x010f 42) 1028 bridgedWorld
      ⟨1, .initial⟩ connectedLeg rfl rfl rfl (by decide)).2 (by decide) with
    | ⟨w1, he, _, hsf, hrl, _, _, hcnf⟩ =>
      match hcnf (ctrl 0x0112 42) rfl with
      | ⟨w2, he2, ht2, _, hg2⟩ => ⟨w1, he, hsf, hrl, w2, he2, ht2, hg2 (by decide)⟩⟩

/-! ## C14: the response timer fires -/

/-- C14: `cmd_timeout` for a live MNCC leg.  With a peer leg, the call site
`release_call` of the peer runs first and `mncc_leg_release` of this leg
after it.  When the peer is absent or a SIP leg the callback returns:
`release_call` of the peer (if there is one) has been invoked exactly once,
on a state in which this leg was still live; then this leg was destroyed; no
frame was written on the MNCC socket, and the connection (its state included)
is as before. -/
theorem c14_cmd_timeout (P : Build) (w : World) (r : LegRef) (l : MnccCallLeg)
    (hleg : w.leg r = some (.mncc l)) :
    ((w.leg ⟨r.call, r.slot.other⟩).isSome = true →
      cmd_timeout P r w =
        invoke_release_call P ⟨r.call, r.slot.other⟩ w >>= mncc_leg_release r) ∧
    (w.SipPeer r →
      ∃ w1 w', release_other P r w = .ok w1 ∧ w1.leg r = some (.mncc l) ∧
        released_legs w1.trace = released_legs w.trace ++ w.peers r ∧
        mncc_leg_release r w1 = .ok w' ∧ cmd_timeout P r w = .ok w' ∧
        released_legs w'.trace = released_legs w.trace ++ w.peers r ∧
        sent_frames w'.trace = sent_frames w.trace ∧
        w'.conn = w.conn ∧ (w.UniqueIds → w'.leg r = none)) := by
  refine ⟨?_, ?_⟩
  · intro hs
    obtain ⟨o, ho⟩ := Option.isSome_iff_exists.mp hs
    unfold cmd_timeout release_other
    rw [call_leg_other_some w r _ o hleg ho, ok_bind]
  · intro hpeer
    obtain ⟨w1, he, hc, _, hl, hsf, hrl, _, hu1⟩ := release_other_spec P w r l hleg hpeer
    obtain ⟨w', he2, ht2, hc2, _, hg2⟩ := mncc_leg_release_spec w1 r l hl
    refine ⟨w1, w', he, hl, hrl, he2, ?_, ?_, ?_, ?_, ?_⟩
    · unfold cmd_timeout
      rw [he, ok_bind]
      exact he2
    · rw [ht2, hrl]
    · rw [ht2, hsf]
    · rw [hc2, hc]
    · intro hu
      exact hg2 (hu1 hu)

/-- C14 at a concrete input: the timer of leg A, armed for SETUP_COMPL_IND,
fires while the call is bridged to the SIP leg. -/
theorem c14_cmd_timeout_witness :
    (worldWith (.mncc connectingLeg) (some (.sip sipLeg))).leg ⟨1, .initial⟩
      = some (.mncc connectingLeg) ∧
    connectingLeg.cmd_timeout = some 5 ∧
    (worldWith (.mncc connectingLeg) (some (.sip sipLeg))).SipPeer ⟨1, .initial⟩ ∧
    (worldWith (.mncc connectingLeg) (some (.sip sipLeg))).UniqueIds ∧
    ∃ w', cmd_timeout sampleBuild ⟨1, .initial⟩
        (worldWith (.mncc connectingLeg) (some (.sip sipLeg))) = .ok w' ∧
      released_legs w'.trace = [⟨1, .remote⟩] ∧ sent_frames w'.trace = [] ∧
      w'.conn = (worldWith (.mncc connectingLeg) (some (.sip sipLeg))).conn ∧
      w'.leg ⟨1, .initial⟩ = none :=
  ⟨rfl, rfl, by decide, by decide,
    match (c14_cmd_timeout sampleBuild (worldWith (.mncc connectingLeg) (some (.sip sipLeg)))
      ⟨1, .initial⟩ connectingLeg rfl).2 (by decide) with
    | ⟨_, w', _, _, _, _, he, hrl, hsf, hc, hg⟩ => ⟨w', he, hrl, hsf, hc, hg (by decide)⟩⟩

/-! ## C15: the RTP_CONNECT response -/

/-- C15: an RTP_CONNECT response that is not shorter than `struct gsm_mncc_rtp`
and finds a live MNCC leg.  If ip, port or payload type of the frame is
non-zero, `check_rtp_connect` leaves the whole state as it was: no frame, no
change of a leg or call.  If all three are zero, it runs `release_other` and
then the call site `release_call` of this leg; when the peer is absent or a SIP
leg, this leg carries `mncc_call_leg_release` and the write succeeds, the
handler returns with `release_call` invoked exactly once for the peer (if
there is one) and then exactly once for this leg. -/
theorem c15_rtp_connect_response (P : Build) (buf : ReadBuf) (rc : Nat) (w : World)
    (r : LegRef) (l : MnccCallLeg) (hrc : P.sizeof_gsm_mncc_rtp ≤ rc)
    (hfind : mncc_find_leg buf.rtp.callref w.calls = some r)
    (hleg : w.leg r = some (.mncc l)) :
    (buf.rtp.ip ≠ 0 ∨ buf.rtp.port ≠ 0 ∨ buf.rtp.payload_type ≠ 0 →
      check_rtp_connect P buf rc w = .ok w) ∧
    (buf.rtp.ip = 0 ∧ buf.rtp.port = 0 ∧ buf.rtp.payload_type = 0 →
      check_rtp_connect P buf rc w = (release_other P r w >>= invoke_release_call P r) ∧
      (w.SipPeer r → l.base.release_call = some .mncc_call_leg_release → w.WriteOk →
        ∃ w', check_rtp_connect P buf rc w = .ok w' ∧
          released_legs w'.trace = released_legs w.trace ++ w.peers r ++ [r])) := by
  have hlt : ¬ rc < P.sizeof_gsm_mncc_rtp := by omega
  refine ⟨?_, ?_⟩
  · intro h
    unfold check_rtp_connect
    rw [if_neg hlt]
    simp only [hfind]
    rw [if_pos (by
      rcases h with h | h | h
      · simp [h]
      · simp [h]
      · simp [h])]
    rfl
  · rintro ⟨hip, hport, hpt⟩
    have heq : check_rtp_connect P buf rc w =
        (release_other P r w >>= invoke_release_call P r) := by
      unfold check_rtp_connect
      rw [if_neg hlt]
      simp only [hfind]
      rw [if_neg (by simp [hip, hport, hpt])]
    refine ⟨heq, ?_⟩
    intro hpeer hfn hw
    obtain ⟨w1, he, _, hwr, hl, _, hrl, _, _⟩ := release_other_spec P w r l hleg hpeer
    have hl1 : (w1.log (.release_call r)).leg r = some (.mncc l) := hl
    have hw1 : (w1.log (.release_call r)).WriteOk := by
      unfold World.WriteOk
      rw [World.log_write_results, hwr]
      exact hw
    obtain ⟨w', he2, hrl2⟩ := mncc_call_leg_release_total P _ r l hl1 hw1
    refine ⟨w', ?_, ?_⟩
    · rw [heq, he, ok_bind]
      unfold invoke_release_call
      rw [World.deref_of_leg w1 r _ hl, ok_bind]
      simp only [Leg.base, hfn, call_fn]
      exact he2
    · rw [hrl2, World.log_trace, released_legs_append, hrl]
      simp [released_legs]

/-- C15 at concrete inputs on the bridged call: the response with the media
endpoint of the MSC changes nothing, and the all-zero response releases the
SIP leg and then the MNCC leg, once each. -/
theorem c15_rtp_connect_response_witness :
    sampleBuild.sizeof_gsm_mncc_rtp ≤ 24 ∧
    mncc_find_leg 42 bridgedWorld.calls = some ⟨1, .initial⟩ ∧
    bridgedWorld.leg ⟨1, .initial⟩ = some (.mncc connectedLeg) ∧
    bridgedWorld.SipPeer ⟨1, .initial⟩ ∧ bridgedWorld.WriteOk ∧
    check_rtp_connect sampleBuild (rtpConnect 42 0x0A000001 16384 8) 24 bridgedWorld
      = .ok bridgedWorld ∧
    ∃ w', check_rtp_connect sampleBuild (rtpConnect 42 0 0 0) 24 bridgedWorld = .ok w' ∧
      released_legs w'.trace = [⟨1, .remote⟩, ⟨1, .initial⟩] :=
  ⟨by decide, rfl, rfl, by decide, by decide,
    (c15_rtp_connect_response sampleBuild (rtpConnect 42 0x0A000001 16384 8) 24 bridgedWorld
      ⟨1, .initial⟩ connectedLeg (by decide) rfl rfl).1 (Or.inl (by decide)),
    ((c15_rtp_connect_response sampleBuild (rtpConnect 42 0 0 0) 24 bridgedWorld
      ⟨1, .initial⟩ connectedLeg (by decide) rfl rfl).2 ⟨rfl, rfl, rfl⟩).2
      (by decide) rfl (by decide)⟩

/-! ## C16: the disconnect callback of the application -/

/-- C17: a hello frame is handled by `check_hello`.  When its length is the
size of `struct gsm_mncc_hello` and its version is `MNCC_SOCK_VERSION`, the
connection state becomes READY and nothing else changes.  When the length or
the version differs, the connection is closed: the descriptor is closed, the
state is DISCONNECTED, the reconnect timer is scheduled in 5 s, and the
callback `on_disconnect` (installed by `app_setup`) is invoked exactly once. -/
theorem c17_hello (P : Build) (buf : ReadBuf) (rc : Nat) (w : World) :
    (4 < buf.rc → buf.msg_type = P.MNCC_SOCKET_HELLO →
      mncc_data P buf w = .ok (check_hello P buf buf.rc.toNat w)) ∧
    (rc = P.sizeof_gsm_mncc_hello → buf.hello.version = P.MNCC_SOCK_VERSION →
      check_hello P buf rc w = { w with conn := { w.conn with state := .MNCC_READY } }) ∧
    (rc ≠ P.sizeof_gsm_mncc_hello ∨ buf.hello.version ≠ P.MNCC_SOCK_VERSION →
      check_hello P buf rc w = close_connection w ∧
      (check_hello P buf rc w).conn.state = .MNCC_DISCONNECTED ∧
      (check_hello P buf rc w).conn.reconnect = some 5 ∧
      (check_hello P buf rc w).conn.fd_open = false ∧
      (w.conn.on_disconnect = some .app_mncc_disconnected →
        (check_hello P buf rc w).trace = w.trace ++ [.on_disconnect])) := by
  refine ⟨?_, ?_, ?_⟩
  · intro h4 ht
    unfold mncc_data
    rw [if_neg (by omega), if_neg (by omega)]
    simp only [ht, if_true]
    rfl
  · intro hrc hv
    simp [check_hello, hrc, hv]
  · intro h
    have he : check_hello P buf rc w = close_connection w := by
      unfold check_hello
      by_cases hrc : rc = P.sizeof_gsm_mncc_hello
      · have hv : buf.hello.version ≠ P.MNCC_SOCK_VERSION := h.resolve_left (fun hn => hn hrc)
        rw [if_neg (by simpa using hrc), if_pos (by simpa using hv)]
      · rw [if_pos (by simpa using hrc)]
    rw [he]
    refine ⟨rfl, by simp, by simp, ?_, ?_⟩
    · unfold close_connection
      cases hd : w.conn.on_disconnect with
      | none => simp [hd]
      | some f => cases f; simp [hd]
    · intro hd
      unfold close_connection
      simp [hd, app_mncc_disconnected]

/-- C17 at concrete inputs: in the sample build (version 5, 32 bytes) the hello
with version 5 makes the waiting connection READY, and the hello with version 6
closes it with the callback invoked once. -/
theorem c17_hello_witness :
    mncc_data sampleBuild (hello 5) waitWorld
      = .ok { waitWorld with conn := { waitWorld.conn with state := .MNCC_READY } } ∧
    (check_hello sampleBuild (hello 6) 32 waitWorld).conn.state = .MNCC_DISCONNECTED ∧
    (check_hello sampleBuild (hello 6) 32 waitWorld).conn.reconnect = some 5 ∧
    (check_hello sampleBuild (hello 6) 32 waitWorld).trace = [.on_disconnect] :=
  ⟨((c17_hello sampleBuild (hello 5) 32 waitWorld).1 (by decide) rfl).trans
      (congrArg Except.ok ((c17_hello sampleBuild (hello 5) 32 waitWorld).2.1 rfl rfl)),
    ((c17_hello sampleBuild (hello 6) 32 waitWorld).2.2 (Or.inr (by decide))).2.1,
    ((c17_hello sampleBuild (hello 6) 32 waitWorld).2.2 (Or.inr (by decide))).2.2.1,
    ((c17_hello sampleBuild (hello 6) 32 waitWorld).2.2 (Or.inr (by decide))).2.2.2.2 rfl⟩

/-! ## C18: the outbound MNCC leg -/

/-- C18, the claim fails: with `use_imsi_as_id` set and a call whose `dest` is
a 15-digit IMSI, allocation and write succeeding, `mncc_create_remote_leg`
returns 0 and writes one SETUP_REQ with the CALLING field, `calling.number`
= `call.source` and the CALLED bit clear, but the `imsi` field of the frame
holds only the first 14 digits of `dest`: the size passed to `snprintf` is 15,
which leaves room for 14 characters and the NUL. -/
theorem c18_imsi_loses_last_digit :
    imsiWorld.app.use_imsi_as_id = true ∧ imsiWorld.AllocOk ∧ imsiWorld.WriteOk ∧
    find_call imsiWorld.calls 1 = some imsiCall ∧ imsiCall.dest.length = 15 ∧
    ∃ w' m, mncc_create_remote_leg sampleBuild 1 imsiWorld = .ok (0, w') ∧
      w'.trace = [.write_mncc m] ∧
      m.msg_type = sampleBuild.MNCC_SETUP_REQ ∧ m.callref = 1 ∧
      m.fields &&& sampleBuild.MNCC_F_CALLING ≠ 0 ∧ m.calling.number = imsiCall.source ∧
      m.fields &&& sampleBuild.MNCC_F_CALLED = 0 ∧
      w'.leg ⟨1, .remote⟩ = some (.mncc (mt_leg 1)) ∧
      m.imsi = "26201123456789".toList ∧ m.imsi ≠ imsiCall.dest :=
  ⟨rfl, by decide, by decide, rfl, rfl, _, _, rfl, rfl, rfl, rfl, by decide, rfl, rfl, rfl, rfl,
    by decide⟩

/-! ## C19: HOLD_IND is rejected -/

/-- C19: a HOLD_IND of the right size that finds a live MNCC leg, in any
sub-state, the write succeeding: `check_hold_ind` writes exactly one frame, a
HOLD_REJ with the callref of the leg, and changes neither the registry (so the
sub-state, `in_release`, `rsp_wanted`, the timer and the media fields of the
leg are as before) nor the connection.  In a registry with unique ids the
callref of the leg is the callref of the frame. -/
theorem c19_hold_rejected (P : Build) (buf : ReadBuf) (rc : Nat) (w : World) (r : LegRef)
    (l : MnccCallLeg) (hrc : rc = P.sizeof_gsm_mncc)
    (hfind : mncc_find_leg buf.mncc.callref w.calls = some r)
    (hleg : w.leg r = some (.mncc l)) (hw : w.WriteOk) :
    ∃ w', check_hold_ind P buf rc w = .ok w' ∧
      w'.trace = w.trace ++ [.write_mncc { msg_type := P.MNCC_HOLD_REJ, callref := l.callref }] ∧
      w'.calls = w.calls ∧ w'.leg r = some (.mncc l) ∧ w'.conn = w.conn ∧
      (w.UniqueIds → l.callref = buf.mncc.callref) := by
  have hcr : w.UniqueIds → l.callref = buf.mncc.callref := by
    intro hu
    obtain ⟨l2, hl2, hc2⟩ := mncc_find_leg_leg buf.mncc.callref w r hu hfind
    rw [hleg] at hl2
    cases hl2
    exact hc2
  unfold check_hold_ind find_leg
  simp only [hrc, bne_self_eq_false, Bool.false_eq_true, if_false, hfind]
  rw [World.mncc_leg_of_leg w r l hleg, ok_bind, mncc_send_ok _ _ w hw]
  exact ⟨_, rfl, rfl, rfl, hleg, rfl, hcr⟩

/-- C19 at a concrete input: a HOLD_IND for callref 42 on the bridged call. -/
theorem c19_hold_rejected_witness :
    (1028 : Nat) = sampleBuild.sizeof_gsm_mncc ∧
    mncc_find_leg (ctrl 0x011f 42).mncc.callref bridgedWorld.calls = some ⟨1, .initial⟩ ∧
    bridgedWorld.leg ⟨1, .initial⟩ = some (.mncc connectedLeg) ∧ bridgedWorld.WriteOk ∧
    ∃ w', check_hold_ind sampleBuild (ctrl 0x011f 42) 1028 bridgedWorld = .ok w' ∧
      w'.trace = bridgedWorld.trace ++
        [.write_mncc { msg_type := sampleBuild.MNCC_HOLD_REJ, callref := connectedLeg.callref }] ∧
      w'.calls = bridgedWorld.calls ∧ w'.leg ⟨1, .initial⟩ = some (.mncc connectedLeg) ∧
      w'.conn = bridgedWorld.conn ∧
      (bridgedWorld.UniqueIds → connectedLeg.callref = (ctrl 0x011f 42).mncc.callref) :=
  ⟨rfl, rfl, rfl, by decide,
    c19_hold_rejected sampleBuild (ctrl 0x011f 42) 1028 bridgedWorld ⟨1, .initial⟩ connectedLeg
      rfl rfl rfl (by decide)⟩

/-! ## C20: a callref that matches no leg -/

/-- C20: a frame of the right size whose callref matches no MNCC leg of the
registry, the write succeeding.  An RTP_CREATE or RTP_CONNECT frame makes
`mncc_data` write exactly one frame, a REJ_REQ with the callref of the frame,
and change neither the registry nor the connection.  Each of DISC_IND,
REL_IND, REL_CNF, REJ_IND, SETUP_COMPL_IND, SETUP_CNF, CALL_CONF_IND,
ALERT_IND, HOLD_IND, START_DTMF_IND and STOP_DTMF_IND leaves the whole state
as it was: no frame, no change of a call or leg, the connection not closed. -/
theorem c20_lookup_miss (P : Build) (hP : P.LabelsDistinct) (buf : ReadBuf) (w : World)
    (h4 : 4 < buf.rc) (hw : w.WriteOk) :
    (buf.msg_type ∈ P.rtp_types → buf.rc = P.sizeof_gsm_mncc_rtp →
      mncc_find_leg buf.rtp.callref w.calls = none →
      ∃ w', mncc_data P buf w = .ok w' ∧
        w'.trace = w.trace ++
          [.write_mncc { msg_type := P.MNCC_REJ_REQ, callref := buf.rtp.callref }] ∧
        w'.calls = w.calls ∧ w'.conn = w.conn) ∧
    (buf.msg_type ∈ P.indication_types → buf.rc = P.sizeof_gsm_mncc →
      mncc_find_leg buf.mncc.callref w.calls = none →
      mncc_data P buf w = .ok w) := by
  have h0 : ¬ buf.rc ≤ 0 := by omega
  have h4 : ¬ buf.rc ≤ 4 := by omega
  simp only [Build.LabelsDistinct, Build.dispatched, List.nodup_cons, List.mem_cons,
    List.mem_singleton, not_or, List.not_mem_nil, not_false_eq_true, List.nodup_nil,
    and_true] at hP
  refine ⟨?_, ?_⟩
  · intro ht hrc hfind
    have hlt : ¬ buf.rc.toNat < P.sizeof_gsm_mncc_rtp := by omega
    refine ⟨mncc_send P.MNCC_REJ_REQ buf.rtp.callref w, ?_,
      by rw [mncc_send_ok _ _ w hw], by rw [mncc_send_ok _ _ w hw],
      by rw [mncc_send_ok _ _ w hw]⟩
    unfold mncc_data
    simp only [h0, h4, if_false]
    simp only [Build.rtp_types, List.mem_cons, List.mem_singleton, List.not_mem_nil,
      or_false] at ht
    rcases ht with ht | ht <;>
      simp [ht, hP, check_rtp_create, check_rtp_connect, hlt, hfind, pure, Except.pure, Ne.symm]
  · intro ht hrc hfind
    have he : buf.rc.toNat = P.sizeof_gsm_mncc := by omega
    unfold mncc_data
    simp only [h0, h4, if_false]
    simp only [Build.indication_types, List.mem_cons, List.mem_singleton, List.not_mem_nil,
      or_false] at ht
    rcases ht with ht | ht | ht | ht | ht | ht | ht | ht | ht | ht | ht <;>
      simp [ht, hP, check_disc_ind, check_rel_ind, check_rej_ind, check_rel_cnf,
        check_stp_cmpl_ind, check_stp_cnf, check_cnf_ind, check_alrt_ind, check_hold_ind,
        check_dtmf_start, check_dtmf_stop, find_leg, he, hfind, pure, Except.pure, Ne.symm]

/-- C20 at concrete inputs: an RTP_CONNECT and a DISC_IND for callref 7, which
no leg of the bridged call has. -/
theorem c20_lookup_miss_witness :
    sampleBuild.LabelsDistinct ∧ bridgedWorld.WriteOk ∧
    (∃ w', mncc_data sampleBuild (rtpConnect 7 0 0 0) bridgedWorld = .ok w' ∧
      w'.trace = bridgedWorld.trace ++
        [.write_mncc { msg_type := sampleBuild.MNCC_REJ_REQ, callref := 7 }] ∧
      w'.calls = bridgedWorld.calls ∧ w'.conn = bridgedWorld.conn) ∧
    mncc_data sampleBuild (ctrl 0x010f 7) bridgedWorld = .ok bridgedWorld :=
  ⟨by decide, by decide,
    (c20_lookup_miss sampleBuild (by decide)
      (rtpConnect 7 0 0 0) bridgedWorld (by decide) (by decide)).1 (by decide) (by decide) rfl,
    (c20_lookup_miss sampleBuild (by decide) (ctrl 0x010f 7) bridgedWorld (by decide)
      (by decide)).2 (by decide) (by decide) rfl⟩

/-! ## C21: a 200 response whose SDP cannot be used -/

/-- C21, the claim fails: the call of `afterRtpCreate` has the MNCC leg as
`initial` and the SIP leg on handle 1, which wants GSM, as `remote`.  The 200
response to the INVITE carries an answer that offers PCMU only, so
`extract_sdp` fails.  `nua_callback` hands one CANCEL to the SIP stack and
invokes `release_call` of the MNCC leg once, and nothing else (no ACK, no
`connect_call`); but the SIP leg is not destroyed: it is still the `remote` of
the call, in sub-state DLG_CNFD. -/
theorem c21_failed_answer_keeps_sip_leg :
    afterRtpCreate.leg ⟨1, .remote⟩ =
      some (.sip (new_sip_leg sampleBuild 1 (.mncc (record_media moLeg rtpCreate42.rtp)))) ∧
    (new_sip_leg sampleBuild 1 (.mncc (record_media moLeg rtpCreate42.rtp))).wanted_codec
      = "GSM".toList ∧
    (extract_sdp sampleBuild
      (new_sip_leg sampleBuild 1 (.mncc (record_media moLeg rtpCreate42.rtp)))
      { payload := .session pcmuSdp }).1 = false ∧
    ∃ w' s, nua_callback sampleBuild .nua_r_invite 200 ⟨1, .remote⟩
        { payload := .session pcmuSdp } afterRtpCreate = .ok w' ∧
      non_frames w'.trace = non_frames afterRtpCreate.trace ++
        [.nua_cancel 1, .release_call ⟨1, .initial⟩] ∧
      w'.leg ⟨1, .remote⟩ = some (.sip s) ∧ s.state = .SIP_CC_DLG_CNFD ∧ s.nua_handle = 1 :=
  ⟨rfl, rfl, by decide, _, _, rfl, by decide, rfl, rfl, rfl⟩

/-- C21, as amended: a SIP leg that is not yet CONNECTED, whose peer is an MNCC
leg carrying `mncc_call_leg_release`; the 200 response to the INVITE arrives,
`extract_sdp` fails, and the write of the peer's release succeeds.  Then
`nua_callback` returns; it hands exactly one CANCEL for the handle of the leg
to the SIP stack and invokes `release_call` of the peer exactly once, and
neither an ACK nor `connect_call` nor anything else; the SIP leg is kept, in
sub-state DLG_CNFD, with the media fields as `extract_sdp` left them; the
connection is as before.  The leg is destroyed when the response to the CANCEL
arrives: `nua_callback` for `nua_r_cancel` destroys the handle and releases
the leg. -/
theorem c21_failed_answer (P : Build) (w : World) (r : LegRef) (s : SipCallLeg)
    (m : MnccCallLeg) (sip : SipT) (hleg : w.leg r = some (.sip s))
    (hst : s.state ≠ .SIP_CC_CONNECTED)
    (hpeer : w.leg ⟨r.call, r.slot.other⟩ = some (.mncc m))
    (hrel : m.base.release_call = some .mncc_call_leg_release) (hw : w.WriteOk)
    (hf : (extract_sdp P s sip).1 = false) :
    ∃ w' s', nua_callback P .nua_r_invite 200 r sip w = .ok w' ∧
      w'.leg r = some (.sip s') ∧ s'.state = .SIP_CC_DLG_CNFD ∧
      s'.nua_handle = s.nua_handle ∧ s'.base = (extract_sdp P s sip).2.base ∧
      non_frames w'.trace = non_frames w.trace ++
        [.nua_cancel s.nua_handle, .release_call ⟨r.call, r.slot.other⟩] ∧
      w'.conn = w.conn ∧
      (w.UniqueIds → ∀ (status : Int) (sip2 : SipT),
        ∃ w2, nua_callback P .nua_r_cancel status r sip2 w' = .ok w2 ∧
          w2.trace = w'.trace ++ [.nua_handle_destroy s.nua_handle] ∧ w2.leg r = none) := by
  have h180 : ((200 : Int) == 180) = false := by decide
  have h200 : ((200 : Int) == 200) = true := by decide
  have hother := extract_sdp_other_fields P s sip
  have key : ∀ (w1 : World) (s1 : SipCallLeg), w1.leg r = some (.sip s1) →
      s1.state = .SIP_CC_DLG_CNFD → s1.nua_handle = s.nua_handle →
      extract_sdp P s1 sip = ((extract_sdp P s sip).1,
        { (extract_sdp P s sip).2 with state := s1.state }) →
      w1.leg ⟨r.call, r.slot.other⟩ = some (.mncc m) → w1.WriteOk →
      non_frames w1.trace = non_frames w.trace → w1.conn = w.conn →
      (w.UniqueIds → w1.UniqueIds) →
      ∃ w' s', call_connect P r sip w1 = .ok w' ∧
        w'.leg r = some (.sip s') ∧ s'.state = .SIP_CC_DLG_CNFD ∧
        s'.nua_handle = s.nua_handle ∧ s'.base = (extract_sdp P s sip).2.base ∧
        non_frames w'.trace = non_frames w.trace ++
          [.nua_cancel s.nua_handle, .release_call ⟨r.call, r.slot.other⟩] ∧
        w'.conn = w.conn ∧
        (w.UniqueIds → ∀ (status : Int) (sip2 : SipT),
          ∃ w2, nua_callback P .nua_r_cancel status r sip2 w' = .ok w2 ∧
            w2.trace = w'.trace ++ [.nua_handle_destroy s.nua_handle] ∧ w2.leg r = none) := by
    intro w1 s1 hl1 hs1 hh1 hx1 hp1 hw1 hnf1 hc1 hu1
    have hf1 : (extract_sdp P s1 sip).1 = false := by rw [hx1]; exact hf
    obtain ⟨w', he, hl, hnf, hc, hu⟩ := call_connect_failed P w1 r s1 m sip hl1 hp1 hrel hw1 hf1
    have hs' : (extract_sdp P s1 sip).2.state = .SIP_CC_DLG_CNFD := by rw [hx1]; exact hs1
    have hh' : (extract_sdp P s1 sip).2.nua_handle = s.nua_handle := by
      rw [hx1]; exact hother.2.1
    refine ⟨w', _, he, hl, hs', hh', by rw [hx1], ?_, hc.trans hc1, ?_⟩
    · rw [hnf, hnf1, hh1]
    · intro hu0 status sip2
      unfold nua_callback
      simp only
      rw [World.sip_leg_of_leg w' r _ hl, ok_bind]
      have hl2 : (w'.log (.nua_handle_destroy (extract_sdp P s1 sip).2.nua_handle)).leg r
          = some (.sip (extract_sdp P s1 sip).2) := hl
      rw [call_leg_release_of_leg _ r _ hl2]
      refine ⟨_, rfl, ?_, ?_⟩
      · rw [← hh']
        rfl
      · exact leg_after_release w'.calls r (hu (hu1 hu0))
  unfold nua_callback
  simp only
  rw [World.sip_leg_of_leg w r s hleg, ok_bind]
  simp only [h180, h200, Bool.false_eq_true, if_false, if_true]
  by_cases hi : s.state = .SIP_CC_INITIAL
  · simp only [hi, beq_self_eq_true, if_true]
    exact key (w.set_leg r (.sip { s with state := .SIP_CC_DLG_CNFD }))
      { s with state := .SIP_CC_DLG_CNFD } (World.leg_set_leg w r _ _ hleg) rfl rfl
      (extract_sdp_with_state P s sip _)
      ((World.leg_set_leg_other w r _).trans hpeer) (World.WriteOk_set_leg w r _ hw) rfl rfl
      (fun hu => World.UniqueIds_set_leg w r _ hu)
  · have hd : s.state = .SIP_CC_DLG_CNFD := by
      cases hs : s.state <;> simp_all
    have hb : (s.state == .SIP_CC_INITIAL) = false := by rw [hd]; rfl
    simp only [hb, Bool.false_eq_true, if_false]
    refine key w s hleg hd rfl ?_ hpeer hw rfl rfl (fun hu => hu)
    have := extract_sdp_with_state P s sip s.state
    exact this

/-- C21, the amended claim at a concrete input: the call of `afterRtpCreate`
and the answer that offers PCMU only. -/
theorem c21_failed_answer_witness :
    afterRtpCreate.leg ⟨1, .remote⟩ =
      some (.sip (new_sip_leg sampleBuild 1 (.mncc (record_media moLeg rtpCreate42.rtp)))) ∧
    afterRtpCreate.WriteOk ∧ afterRtpCreate.UniqueIds ∧
    ∃ w' s', nua_callback sampleBuild .nua_r_invite 200 ⟨1, .remote⟩
        { payload := .session pcmuSdp } afterRtpCreate = .ok w' ∧
      w'.leg ⟨1, .remote⟩ = some (.sip s') ∧ s'.state = .SIP_CC_DLG_CNFD ∧
      non_frames w'.trace = non_frames afterRtpCreate.trace ++
        [.nua_cancel 1, .release_call ⟨1, .initial⟩] ∧
      ∃ w2, nua_callback sampleBuild .nua_r_cancel 200 ⟨1, .remote⟩ {} w' = .ok w2 ∧
        w2.leg ⟨1, .remote⟩ = none :=
  ⟨rfl, by decide, by decide,
    match c21_failed_answer sampleBuild afterRtpCreate ⟨1, .remote⟩
      (new_sip_leg sampleBuild 1 (.mncc (record_media moLeg rtpCreate42.rtp)))
      { record_media moLeg rtpCreate42.rtp with
          cmd_timeout := none, state := .MNCC_CC_PROCEEDING }
      { payload := .session pcmuSdp } rfl (by decide) rfl rfl (by decide) (by decide) with
    | ⟨w', s', he, hl, hs, _, _, hnf, _, hcancel⟩ =>
      match hcancel (by decide) 200 {} with
      | ⟨w2, he2, _, hg⟩ => ⟨w', s', he, hl, hs, hnf, w2, he2, hg⟩⟩

/-! ## C22: release of a SIP leg -/

/-- C22: `sip_release_call` on a live SIP leg returns, and branches on the
sub-state of the leg.  INITIAL: the SIP handle is destroyed and the leg is
released (it is gone in a registry with unique ids); nothing else is handed
to the SIP stack, so no CANCEL and no BYE.  DLG_CNFD: exactly one CANCEL, the
registry is unchanged.  CONNECTED: exactly one BYE, the registry is unchanged.
In no case is a `release_call` invoked. -/
theorem c22_sip_release_call (w : World) (r : LegRef) (s : SipCallLeg)
    (h : w.leg r = some (.sip s)) :
    (s.state = .SIP_CC_INITIAL →
      ∃ w', sip_release_call r w = .ok w' ∧
        w'.trace = w.trace ++ [.nua_handle_destroy s.nua_handle] ∧
        w'.calls = update_call r.call (fun c => c.release r.slot) w.calls ∧
        (w.UniqueIds → w'.leg r = none)) ∧
    (s.state = .SIP_CC_DLG_CNFD →
      ∃ w', sip_release_call r w = .ok w' ∧
        w'.trace = w.trace ++ [.nua_cancel s.nua_handle] ∧
        w'.calls = w.calls ∧ w'.leg r = some (.sip s)) ∧
    (s.state = .SIP_CC_CONNECTED →
      ∃ w', sip_release_call r w = .ok w' ∧
        w'.trace = w.trace ++ [.nua_bye s.nua_handle] ∧
        w'.calls = w.calls ∧ w'.leg r = some (.sip s)) ∧
    (∃ w', sip_release_call r w = .ok w' ∧
      released_legs w'.trace = released_legs w.trace ∧ w'.conn = w.conn) := by
  refine ⟨?_, ?_, ?_, ?_⟩
  · intro hs
    unfold sip_release_call
    rw [h]
    simp only [hs]
    have h1 : (w.log (.nua_handle_destroy s.nua_handle)).leg r = some (.sip s) := h
    rw [call_leg_release_of_leg _ r _ h1]
    exact ⟨_, rfl, rfl, rfl, fun hu => leg_after_release w.calls r hu⟩
  · intro hs
    unfold sip_release_call
    rw [h]
    simp only [hs]
    exact ⟨_, rfl, rfl, rfl, h⟩
  · intro hs
    unfold sip_release_call
    rw [h]
    simp only [hs]
    exact ⟨_, rfl, rfl, rfl, h⟩
  · obtain ⟨w1, he, hc, _, _, hrl, _⟩ := sip_release_call_spec w r s h
    exact ⟨w1, he, hrl, hc⟩

/-- C22 at concrete inputs: the SIP leg of the bridged call in each of its
three sub-states. -/
theorem c22_sip_release_call_witness :
    (∃ w', sip_release_call ⟨1, .remote⟩ (worldWith (.mncc proceedingLeg)
        (some (.sip invitingLeg))) = .ok w' ∧
      w'.trace = [.nua_handle_destroy 1] ∧ w'.leg ⟨1, .remote⟩ = none) ∧
    (∃ w', sip_release_call ⟨1, .remote⟩ (worldWith (.mncc proceedingLeg)
        (some (.sip { invitingLeg with state := .SIP_CC_DLG_CNFD }))) = .ok w' ∧
      w'.trace = [.nua_cancel 1] ∧
      w'.leg ⟨1, .remote⟩ = some (.sip { invitingLeg with state := .SIP_CC_DLG_CNFD })) ∧
    (∃ w', sip_release_call ⟨1, .remote⟩ bridgedWorld = .ok w' ∧
      w'.trace = [.nua_bye 1] ∧ w'.leg ⟨1, .remote⟩ = some (.sip sipLeg)) :=
  ⟨match (c22_sip_release_call (worldWith (.mncc proceedingLeg) (some (.sip invitingLeg)))
      ⟨1, .remote⟩ invitingLeg rfl).1 rfl with
    | ⟨w', he, ht, _, hg⟩ => ⟨w', he, ht, hg (by decide)⟩,
   match (c22_sip_release_call (worldWith (.mncc proceedingLeg)
      (some (.sip { invitingLeg with state := .SIP_CC_DLG_CNFD })))
      ⟨1, .remote⟩ { invitingLeg with state := .SIP_CC_DLG_CNFD } rfl).2.1 rfl with
    | ⟨w', he, ht, _, hl⟩ => ⟨w', he, ht, hl⟩,
   match (c22_sip_release_call bridgedWorld ⟨1, .remote⟩ sipLeg rfl).2.2.1 rfl with
    | ⟨w', he, ht, _, hl⟩ => ⟨w', he, ht, hl⟩⟩

/-! ## C23: what `extract_sdp` extracts -/

/-- C25, the claim fails: in the sample build the ready process reads a
SETUP_IND and the RTP_CREATE response for it, which routes the call and makes
`sip_create_remote_leg` link a SIP leg as `remote`.  That leg has
`release_call` set and `connect_call` and `ring_call` unset.  An ALERT_IND for
the MNCC leg then makes `check_alrt_ind` call `ring_call` of the SIP leg, and a
SETUP_CNF makes `check_stp_cnf` call its `connect_call`: each is a call through
a NULL pointer. -/
theorem c25_sip_leg_lacks_ring_and_connect :
    mncc_data sampleBuild setupInd42 readyWorld = .ok afterSetup ∧
    mncc_data sampleBuild rtpCreate42 afterSetup = .ok afterRtpCreate ∧
    (∃ s, afterRtpCreate.leg ⟨1, .remote⟩ = some (.sip s) ∧
      s.base.release_call = some .sip_release_call ∧
      s.base.connect_call = none ∧ s.base.ring_call = none) ∧
    (ctrl 0x010b 42).msg_type = sampleBuild.MNCC_ALERT_IND ∧
    mncc_data sampleBuild (ctrl 0x010b 42) afterRtpCreate = .error .null_pointer ∧
    (ctrl 0x0104 42).msg_type = sampleBuild.MNCC_SETUP_CNF ∧
    mncc_data sampleBuild (ctrl 0x0104 42) afterRtpCreate = .error .null_pointer :=
  ⟨rfl, rfl, ⟨_, rfl, rfl, rfl, rfl⟩, rfl, rfl, rfl, rfl⟩

/-! ## C26: the `remote` leg of a call -/

/-- C26, the claim fails: after the SETUP_IND and the RTP_CREATE response the
call has the SIP leg on handle 1 as `remote`.  A second RTP_CREATE response
for the same callref is handled by `check_rtp_create` as the first was: the
call is routed again and `send_invite` assigns `call->remote`, so the `remote`
of the call is now a different leg, the new SIP leg on handle 2. -/
theorem c26_second_rtp_create_replaces_remote :
    mncc_data sampleBuild setupInd42 readyWorld = .ok afterSetup ∧
    mncc_data sampleBuild rtpCreate42 afterSetup = .ok afterRtpCreate ∧
    afterRtpCreate.leg ⟨1, .remote⟩ =
      some (.sip (new_sip_leg sampleBuild 1 (.mncc (record_media moLeg rtpCreate42.rtp)))) ∧
    ∃ w', mncc_data sampleBuild rtpCreate42 afterRtpCreate = .ok w' ∧
      w'.leg ⟨1, .remote⟩ =
        some (.sip (new_sip_leg sampleBuild 2 (.mncc (record_media moLeg rtpCreate42.rtp)))) ∧
      w'.leg ⟨1, .remote⟩ ≠ afterRtpCreate.leg ⟨1, .remote⟩ :=
  ⟨rfl, rfl, rfl, _, rfl, rfl, by decide⟩

/-- C26, as amended: the `remote` leg of a call is assigned without a test for
a leg that is already there.  For a call with an `initial` leg and any
`remote`: `sip_create_remote_leg`, when both allocations succeed, leaves the
new SIP leg on the next handle as `remote`; `mncc_create_remote_leg`, when the
allocation and the write succeed, leaves the new MT leg as `remote`; and an
RTP_CREATE response that finds an MO leg in the `initial` slot, the write and
both allocations succeeding, routes the call through `app_route_call` and so
leaves a new SIP leg on the next handle as `remote`. -/
theorem c26_remote_is_assigned_again (P : Build) (w : World) (r : LegRef) (l : MnccCallLeg)
    (old : Leg) (hleg : w.leg r = some (.mncc l)) (hslot : r.slot = .initial)
    (hold : w.leg ⟨r.call, .remote⟩ = some old) :
    (∀ s d, w.AllocOk2 →
      ∃ w', sip_create_remote_leg P r.call s d w = .ok (0, w') ∧
        w'.leg ⟨r.call, .remote⟩ = some (.sip (new_sip_leg P w.next_handle (.mncc l)))) ∧
    (w.AllocOk → w.WriteOk →
      ∃ w', mncc_create_remote_leg P r.call w = .ok (0, w') ∧
        w'.leg ⟨r.call, .remote⟩ = some (.mncc (mt_leg r.call))) ∧
    (∀ buf rc, P.sizeof_gsm_mncc_rtp ≤ rc →
      mncc_find_leg buf.rtp.callref w.calls = some r → l.dir = .MNCC_DIR_MO →
      w.WriteOk → w.AllocOk2 →
      ∃ w', check_rtp_create P buf rc w = .ok w' ∧
        w'.leg ⟨r.call, .remote⟩ =
          some (.sip (new_sip_leg P w.next_handle (.mncc (record_media l buf.rtp))))) := by
  obtain ⟨call, slot⟩ := r
  simp only at hslot
  subst hslot
  obtain ⟨c, hc, hi⟩ := World.leg_find w _ _ hleg
  simp only at hc
  refine ⟨?_, ?_, ?_⟩
  · intro s d ha
    obtain ⟨w', he, _, hr, _⟩ := sip_create_remote_leg_ok P call s d w c _ hc hi ha
    exact ⟨w', he, hr⟩
  · intro ha hw
    obtain ⟨w', he, _, hcs, _⟩ := mncc_create_remote_leg_ok P call w c hc ha hw
    refine ⟨w', he, ?_⟩
    have hid : c.id = call := find_call_id _ _ _ hc
    unfold World.leg
    rw [hcs]
    simp only
    have hf := find_call_update_call_of_find call
      (fun c => some (c.setSlot .remote (some (.mncc (mt_leg c.id))))) w.calls c
      (c.setSlot .remote (some (.mncc (mt_leg c.id)))) hc rfl
      (by rw [Call.setSlot_id]; exact hid)
    rw [hf]
    simp [Call.slot, Call.setSlot, hid]
  · intro buf rc hrc hfind hdir hw ha
    rw [check_rtp_create_found P buf rc w _ l hrc hfind hleg]
    have h1 := World.leg_set_leg w ⟨call, .initial⟩ _
      (.mncc (stop_cmd_timer (record_media l buf.rtp) P.MNCC_RTP_CREATE)) hleg
    unfold continue_call
    rw [World.mncc_leg_of_leg _ _ _ h1, ok_bind]
    rw [if_pos (by
      unfold stop_cmd_timer
      split <;> simp [record_media, hdir])]
    obtain ⟨w', he, hr, _⟩ := continue_mo_call_remote P _ ⟨call, .initial⟩ _ h1 rfl
      (World.WriteOk_set_leg w _ _ hw) ha
    refine ⟨w', he, ?_⟩
    rw [hr]
    unfold stop_cmd_timer
    split <;> rfl

/-- C26, the amended claim at a concrete input: the call of `afterRtpCreate`,
which has a SIP leg as `remote`, and the RTP_CREATE response once more. -/
theorem c26_remote_is_assigned_again_witness :
    afterRtpCreate.leg ⟨1, .initial⟩ =
      some (.mncc { record_media moLeg rtpCreate42.rtp with
                      cmd_timeout := none, state := .MNCC_CC_PROCEEDING }) ∧
    afterRtpCreate.leg ⟨1, .remote⟩ =
      some (.sip (new_sip_leg sampleBuild 1 (.mncc (record_media moLeg rtpCreate42.rtp)))) ∧
    afterRtpCreate.next_handle = 2 ∧
    ∃ w', check_rtp_create sampleBuild rtpCreate42 24 afterRtpCreate = .ok w' ∧
      w'.leg ⟨1, .remote⟩ =
        some (.sip (new_sip_leg sampleBuild 2 (.mncc (record_media moLeg rtpCreate42.rtp)))) :=
  ⟨rfl, rfl, rfl,
    (c26_remote_is_assigned_again sampleBuild afterRtpCreate ⟨1, .initial⟩
      { record_media moLeg rtpCreate42.rtp with
          cmd_timeout := none, state := .MNCC_CC_PROCEEDING }
      (.sip (new_sip_leg sampleBuild 1 (.mncc (record_media moLeg rtpCreate42.rtp))))
      rfl rfl rfl).2.2 rtpCreate42 24
      (by decide) rfl rfl (by decide) (by decide)⟩

/-! ## C27: the URI the SIP agent binds to -/

/-- What `make_sip_uri` returns, for every configuration: the configured local
address and port, whatever the address is. -/
theorem make_sip_uri_eq (app : AppConfig) :
    make_sip_uri app = "sip:".toList ++ app.sip_local_addr ++ ':' :: fmt_int app.sip_local_port :=
  rfl

/-- C27, the claim fails: with the local address "0.0.0.0" and port 5060
`make_sip_uri` returns "sip:0.0.0.0:5060", not "sip:*:5060": the local
`hostname`, which is set to "*", is not what the format reads. -/
theorem c27_wildcard_not_mapped :
    make_sip_uri { sip_local_addr := "0.0.0.0".toList, sip_local_port := 5060 }
      = "sip:0.0.0.0:5060".toList ∧
    make_sip_uri { sip_local_addr := "0.0.0.0".toList, sip_local_port := 5060 }
      ≠ "sip:*:5060".toList ∧
    make_sip_uri { sip_local_addr := "192.168.0.7".toList, sip_local_port := 5060 }
      = "sip:192.168.0.7:5060".toList :=
  ⟨by decide, by decide, by decide⟩

/-! ## C28: `extract_sdp` when it fails -/

/-- C28, the claim fails: a leg that wants PCMA and an answer with an IPv4
connection entry 10.0.0.2 but no PCMA rtpmap: `extract_sdp` returns false and
the ip of the leg has changed from 0 to the address of the entry.  And a leg
that wants GSM and an answer with a matching rtpmap but no connection entry:
`extract_sdp` returns false and port and payload type of the leg have changed
from 0 to 20000 and 3. -/
theorem c28_failed_extract_writes_leg :
    (extract_sdp sampleBuild pcmaLeg { payload := .session answerSdp }).1 = false ∧
    pcmaLeg.base.ip = 0 ∧
    (extract_sdp sampleBuild pcmaLeg { payload := .session answerSdp }).2.base.ip
      = 0x0200000A ∧
    (extract_sdp sampleBuild invitingLeg { payload := .session answerSdpNoConn }).1 = false ∧
    invitingLeg.base.port = 0 ∧ invitingLeg.base.payload_type = 0 ∧
    (extract_sdp sampleBuild invitingLeg { payload := .session answerSdpNoConn }).2.base.port
      = 20000 ∧
    (extract_sdp sampleBuild invitingLeg
      { payload := .session answerSdpNoConn }).2.base.payload_type = 3 :=
  ⟨by decide, rfl, by decide, by decide, rfl, rfl, by decide, by decide⟩

/-- C28, as amended: when `extract_sdp` returns false, the leg is unchanged if
the message has no payload that parses to a session.  On a parsed session one
of the two searches found nothing; the ip of the leg is unchanged when the
session has no IPv4 connection entry and is otherwise overwritten with the
value for the first such entry, and port and payload type of the leg are
unchanged when no audio RTP/AVP media entry has a matching rtpmap and are
otherwise overwritten with those of the first match.  No other field of the
leg changes. -/
theorem c28_extract_sdp_failure (P : Build) (leg : SipCallLeg) (sip : SipT)
    (hf : (extract_sdp P leg sip).1 = false) :
    ((∀ sdp, sip.payload ≠ .session sdp) → (extract_sdp P leg sip).2 = leg) ∧
    (∀ sdp, sip.payload = .session sdp →
      (sdp.sdp_connection.find? is_ip4 = none ∨
        sdp.sdp_media.find? (media_matches leg.wanted_codec) = none) ∧
      (sdp.sdp_connection.find? is_ip4 = none →
        (extract_sdp P leg sip).2.base.ip = leg.base.ip) ∧
      (∀ c, sdp.sdp_connection.find? is_ip4 = some c →
        (extract_sdp P leg sip).2.base.ip = (P.inet_aton c.c_address).getD sip.addr_uninit) ∧
      (sdp.sdp_media.find? (media_matches leg.wanted_codec) = none →
        (extract_sdp P leg sip).2.base.port = leg.base.port ∧
        (extract_sdp P leg sip).2.base.payload_type = leg.base.payload_type) ∧
      (∀ m rm, sdp.sdp_media.find? (media_matches leg.wanted_codec) = some m →
        m.m_rtpmaps.find? (rtpmap_matches leg.wanted_codec) = some rm →
        (extract_sdp P leg sip).2.base.port = m.m_port ∧
        (extract_sdp P leg sip).2.base.payload_type = rm.rm_pt)) ∧
    (extract_sdp P leg sip).2.state = leg.state ∧
    (extract_sdp P leg sip).2.nua_handle = leg.nua_handle ∧
    (extract_sdp P leg sip).2.wanted_codec = leg.wanted_codec ∧
    (extract_sdp P leg sip).2.base.release_call = leg.base.release_call := by
  refine ⟨?_, ?_, extract_sdp_other_fields P leg sip⟩
  · intro hn
    cases hp : sip.payload with
    | absent => simp [extract_sdp, hp]
    | parse_failed => simp [extract_sdp, hp]
    | no_session => simp [extract_sdp, hp]
    | session sdp => exact absurd hp (hn sdp)
  · intro sdp h
    obtain ⟨h1, h2, h3, h4, h5⟩ := extract_sdp_fields P leg sip sdp h
    exact ⟨h1 hf, h2, h3, h4, h5⟩

/-- C28, the amended claim at concrete inputs: the failing answer without a
PCMA rtpmap, and a message without payload. -/
theorem c28_extract_sdp_failure_witness :
    (extract_sdp sampleBuild pcmaLeg { payload := .session answerSdp }).1 = false ∧
    (extract_sdp sampleBuild pcmaLeg { payload := .session answerSdp }).2.base.port
      = pcmaLeg.base.port ∧
    (extract_sdp sampleBuild pcmaLeg { payload := .session answerSdp }).2.base.payload_type
      = pcmaLeg.base.payload_type ∧
    (extract_sdp sampleBuild pcmaLeg { payload := .session answerSdp }).2.base.ip
      = (sampleBuild.inet_aton "10.0.0.2".toList).getD 0 ∧
    (extract_sdp sampleBuild pcmaLeg { payload := .absent }).2 = pcmaLeg :=
  ⟨by decide,
    (((c28_extract_sdp_failure sampleBuild pcmaLeg { payload := .session answerSdp }
      (by decide)).2.1 answerSdp rfl).2.2.2.1 (by decide)).1,
    (((c28_extract_sdp_failure sampleBuild pcmaLeg { payload := .session answerSdp }
      (by decide)).2.1 answerSdp rfl).2.2.2.1 (by decide)).2,
    ((c28_extract_sdp_failure sampleBuild pcmaLeg { payload := .session answerSdp }
      (by decide)).2.1 answerSdp rfl).2.2.1
      { c_addrtype := .sdp_addr_ip4, c_address := "10.0.0.2".toList } rfl,
    (c28_extract_sdp_failure sampleBuild pcmaLeg { payload := .absent } (by decide)).1
      (fun _ hh => by cases hh)⟩
end SipConnector
